import Mathlib

/-!
# NetworkFirewall TLS inspection configuration: waiters, status and finder

A shallow embedding of the status constants, the three waiters and their
`StateChangeConf` values, `statusFirewallTlsInspectionConfiguration`,
`findFirewallTlsInspectionConfigurationByID`, the flatteners and expanders, the
data struct and the names declared by `Schema`, and the methods `Create`,
`Read`, `Update` and `Delete` of
`internal/service/networkfirewall/firewall_tls_inspection_configuration.go`,
together with the polling engine `awaitStatus` that the waiters hand their
configuration to, of the destroy check of the acceptance test of that
resource, and of the policy check and the destroy check of
`internal/service/oam/sink_policy_test.go`.

Go pointers are `Option`s (`nil` is `none`), a Go `(value, error)` pair is a
pair of `Option`s, durations are natural numbers of clock ticks, and the
remote service is passed explicitly: one `Client` value is the answer of the
service at one moment, and a `Nat → Client` is its answer at successive calls.
-/

namespace NetworkFirewall

/-! ## API types -/

/-- The API type `awstypes.ComplexArgument`. -/
structure ComplexArgument where
  NestedRequired : Option String
  NestedOptional : Option String
  deriving DecidableEq, Repr

/-- The API type `awstypes.FirewallTlsInspectionConfiguration`, with the
fields the resource reads. -/
structure FirewallTlsInspectionConfiguration where
  Arn : Option String
  FirewallTlsInspectionConfigurationId : Option String
  FirewallTlsInspectionConfigurationName : Option String
  FirewallTlsInspectionConfigurationType : Option String
  ComplexArgument : Option ComplexArgument
  Status : Option String
  deriving DecidableEq, Repr

/-- The request `networkfirewall.GetFirewallTlsInspectionConfigurationInput`. -/
structure GetFirewallTlsInspectionConfigurationInput where
  Id : Option String
  deriving DecidableEq, Repr

/-- The response `networkfirewall.GetFirewallTlsInspectionConfigurationOutput`. -/
structure GetFirewallTlsInspectionConfigurationOutput where
  FirewallTlsInspectionConfiguration : Option FirewallTlsInspectionConfiguration
  deriving DecidableEq, Repr

/-- An error value returned by the SDK. `isResourceNotFoundException` is the
answer of the type test `errs.IsA[*awstypes.ResourceNotFoundException]`. -/
structure ApiError where
  isResourceNotFoundException : Bool
  message : String
  deriving DecidableEq, Repr

/-- The error values the finder can return: the SDK error unchanged, a
`*retry.NotFoundError` carrying `LastError` and `LastRequest`, or the value of
`tfresource.NewEmptyResultError` carrying the request. -/
inductive Error where
  | api (err : ApiError)
  | notFoundError (lastError : ApiError) (lastRequest : GetFirewallTlsInspectionConfigurationInput)
  | emptyResultError (lastRequest : GetFirewallTlsInspectionConfigurationInput)
  deriving DecidableEq, Repr

/-- The service at one moment: what `conn.GetFirewallTlsInspectionConfiguration`
returns for a request, as the Go pair `(out, err)`. -/
abbrev Client :=
  GetFirewallTlsInspectionConfigurationInput →
    Option GetFirewallTlsInspectionConfigurationOutput × Option ApiError

/-- Go `aws.String`: a pointer to the given string. -/
def awsString (s : String) : Option String := some s

/-- Go `aws.ToString`: the pointed-to string, `""` for a nil pointer. -/
def awsToString (p : Option String) : String :=
  match p with
  | some s => s
  | none => ""

/-- The call `tfresource.NotFound(err)` on a Go `error` value, for a given
classification `notFound` of the non-nil errors; a nil error is not
"not found". -/
def tfresourceNotFound (notFound : Error → Bool) (err : Option Error) : Bool :=
  match err with
  | some e => notFound e
  | none => false

/-! ## Status constants -/

def statusChangePending : String := "Pending"

def statusDeleting : String := "Deleting"

def statusNormal : String := "Normal"

def statusUpdated : String := "Updated"

/-! ## Finder and status function -/

/-- The function `findFirewallTlsInspectionConfigurationByID`. -/
def findFirewallTlsInspectionConfigurationByID (conn : Client) (id : String) :
    Option FirewallTlsInspectionConfiguration × Option Error :=
  let input : GetFirewallTlsInspectionConfigurationInput := { Id := awsString id }
  match conn input with
  | (_, some err) =>
    if err.isResourceNotFoundException then
      (none, some (Error.notFoundError err input))
    else
      (none, some (Error.api err))
  | (out, none) =>
    match out with
    | none => (none, some (Error.emptyResultError input))
    | some o =>
      match o.FirewallTlsInspectionConfiguration with
      | none => (none, some (Error.emptyResultError input))
      | some c => (some c, none)

/-- What a `retry.StateRefreshFunc` returns: the Go triple
`(interface{}, string, error)`. -/
structure RefreshResult where
  result : Option FirewallTlsInspectionConfiguration
  state : String
  err : Option Error
  deriving DecidableEq, Repr

/-- One call of the closure returned by
`statusFirewallTlsInspectionConfiguration(ctx, conn, id)`. The last branch, a
nil `out` with a nil error, is never produced by the finder (Go would
dereference the nil pointer there). -/
def statusFirewallTlsInspectionConfiguration (notFound : Error → Bool) (conn : Client)
    (id : String) : RefreshResult :=
  match findFirewallTlsInspectionConfigurationByID conn id with
  | (out, err) =>
    if tfresourceNotFound notFound err then
      { result := none, state := "", err := none }
    else
      match err with
      | some e => { result := none, state := "", err := some e }
      | none =>
        match out with
        | some o => { result := some o, state := awsToString o.Status, err := none }
        | none => { result := none, state := "", err := none }

/-! ## The waiters' configurations -/

/-- The configuration `retry.StateChangeConf`, with the fields the waiters
set. `Refresh k` is the result of the `k`-th call of the refresh function
(counted from 0); a field the Go literal leaves out holds its zero value. -/
structure StateChangeConf where
  Pending : List String
  Target : List String
  Refresh : Nat → RefreshResult
  Timeout : Nat
  NotFoundChecks : Nat
  ContinuousTargetOccurence : Nat

/-- The `stateConf` built by `waitFirewallTlsInspectionConfigurationCreated`. -/
def waitFirewallTlsInspectionConfigurationCreatedConf (notFound : Error → Bool)
    (conn : Nat → Client) (id : String) (timeout : Nat) : StateChangeConf :=
  { Pending := []
    Target := [statusNormal]
    Refresh := fun k => statusFirewallTlsInspectionConfiguration notFound (conn k) id
    Timeout := timeout
    NotFoundChecks := 20
    ContinuousTargetOccurence := 2 }

/-- The `stateConf` built by `waitFirewallTlsInspectionConfigurationUpdated`. -/
def waitFirewallTlsInspectionConfigurationUpdatedConf (notFound : Error → Bool)
    (conn : Nat → Client) (id : String) (timeout : Nat) : StateChangeConf :=
  { Pending := [statusChangePending]
    Target := [statusUpdated]
    Refresh := fun k => statusFirewallTlsInspectionConfiguration notFound (conn k) id
    Timeout := timeout
    NotFoundChecks := 20
    ContinuousTargetOccurence := 2 }

/-- The `stateConf` built by `waitFirewallTlsInspectionConfigurationDeleted`;
`NotFoundChecks` and `ContinuousTargetOccurence` are not set. -/
def waitFirewallTlsInspectionConfigurationDeletedConf (notFound : Error → Bool)
    (conn : Nat → Client) (id : String) (timeout : Nat) : StateChangeConf :=
  { Pending := [statusDeleting, statusNormal]
    Target := []
    Refresh := fun k => statusFirewallTlsInspectionConfiguration notFound (conn k) id
    Timeout := timeout
    NotFoundChecks := 0
    ContinuousTargetOccurence := 0 }

/-! ## The polling engine

`retry.StateChangeConf.WaitForStateContext` belongs to the plugin SDK and is
not part of this package; its loop is taken from the design document of the
reconciler (`awaitStatus`). -/

/-- Modelled from the spec: the Poll Outcome, a tagged result that is
`(snapshot, status)` on success, absent when the remote object is not there,
or a propagated error. -/
inductive PollOutcome where
  | found (snapshot : FirewallTlsInspectionConfiguration) (status : String)
  | notFound
  | error (err : Error)
  deriving DecidableEq, Repr

/-- Modelled from the spec: the Wait Specification (`pending`, `target`,
`timeout`, `notFoundTolerance`, `minTargetStreak`), the configuration of one
invocation of `awaitStatus`. -/
structure WaitSpecification where
  pending : List String
  target : List String
  timeout : Nat
  notFoundTolerance : Nat
  minTargetStreak : Nat
  deriving DecidableEq, Repr

/-- Modelled from the spec: the invariants of a Wait Specification,
`pending ∩ target = ∅` and `timeout > 0` (`notFoundTolerance ≥ 0` holds of
every natural number). -/
def WaitSpecification.WellFormed (spec : WaitSpecification) : Prop :=
  List.Disjoint spec.pending spec.target ∧ 0 < spec.timeout

/-- Modelled from the spec: the error taxonomy `PollFailed`,
`NotFoundExhausted`, `TimedOut(lastKnownStatus, lastSnapshot)`. -/
inductive WaitError where
  | PollFailed (err : Error)
  | NotFoundExhausted
  | TimedOut (lastKnownStatus : Option String)
      (lastSnapshot : Option FirewallTlsInspectionConfiguration)
  deriving DecidableEq, Repr

/-- Modelled from the spec: the terminal outcome of `awaitStatus`, success with
the last snapshot (a null snapshot when success means disappearance) or a
failure. -/
inductive WaitResult where
  | success (snapshot : Option FirewallTlsInspectionConfiguration)
  | failure (err : WaitError)
  deriving DecidableEq, Repr

/-- Modelled from the spec: a finished run of `awaitStatus` (the engine
`WaitForStateContext` is not in this package), its outcome and the number of
calls of the poll function it made. -/
structure WaitRun where
  outcome : WaitResult
  polls : Nat
  deriving DecidableEq, Repr

/-- Modelled from the spec: the counters of one invocation (step 1 of the
algorithm: `elapsed`, `notFoundCount`, `targetStreak`), the number of polls
made so far, and the last status and snapshot seen. -/
structure WaitState where
  elapsed : Nat
  notFoundCount : Nat
  targetStreak : Nat
  polls : Nat
  lastKnownStatus : Option String
  lastSnapshot : Option FirewallTlsInspectionConfiguration
  deriving DecidableEq, Repr

/-- Modelled from the spec: step 1 of the algorithm of `awaitStatus`,
`elapsed = 0`, `notFoundCount = 0`, `targetStreak = 0`. -/
def WaitState.init : WaitState :=
  { elapsed := 0, notFoundCount := 0, targetStreak := 0, polls := 0,
    lastKnownStatus := none, lastSnapshot := none }

/-- Modelled from the spec: what one round of the loop of `awaitStatus`
yields, the wait is over, or it goes on from a new state. -/
inductive WaitStep where
  | done (run : WaitRun)
  | next (st : WaitState)
  deriving DecidableEq, Repr

/-- Modelled from the spec: the failure of step 3 of `awaitStatus`,
`TimedOut(lastKnownStatus, lastSnapshot)`. -/
def timedOut (st : WaitState) : WaitStep :=
  WaitStep.done
    { outcome := WaitResult.failure (WaitError.TimedOut st.lastKnownStatus st.lastSnapshot)
      polls := st.polls }

/-- Modelled from the spec: step 2e and step 3. Check `elapsed ≥ timeout`,
sleep for `d`, check again; the wait times out at either check and goes on
otherwise. -/
def sleepAndCheck (spec : WaitSpecification) (d : Nat) (st : WaitState) : WaitStep :=
  if spec.timeout ≤ st.elapsed then timedOut st
  else if spec.timeout ≤ st.elapsed + d then timedOut { st with elapsed := st.elapsed + d }
  else WaitStep.next { st with elapsed := st.elapsed + d }

/-- Modelled from the spec: one round of the loop of `awaitStatus` (steps 2a to
2e; the engine `WaitForStateContext` is not in this package) on the outcome `o`
of the poll just made; `interval k` is the sleep that follows the `k`-th poll
(counted from 0). A success by disappearance carries the null snapshot. -/
def awaitStep (spec : WaitSpecification) (interval : Nat → Nat) (st : WaitState)
    (o : PollOutcome) : WaitStep :=
  match o with
  | PollOutcome.notFound =>
    if spec.target = [] then
      if spec.notFoundTolerance < st.notFoundCount + 1 then
        WaitStep.done { outcome := WaitResult.success none, polls := st.polls + 1 }
      else
        sleepAndCheck spec (interval st.polls)
          { st with notFoundCount := st.notFoundCount + 1, polls := st.polls + 1 }
    else
      if spec.notFoundTolerance < st.notFoundCount + 1 then
        WaitStep.done
          { outcome := WaitResult.failure WaitError.NotFoundExhausted, polls := st.polls + 1 }
      else
        sleepAndCheck spec (interval st.polls)
          { st with notFoundCount := st.notFoundCount + 1, targetStreak := 0,
                    polls := st.polls + 1 }
  | PollOutcome.error err =>
    WaitStep.done
      { outcome := WaitResult.failure (WaitError.PollFailed err), polls := st.polls + 1 }
  | PollOutcome.found snapshot status =>
    if status ∈ spec.target then
      if spec.minTargetStreak ≤ st.targetStreak + 1 then
        WaitStep.done { outcome := WaitResult.success (some snapshot), polls := st.polls + 1 }
      else
        sleepAndCheck spec (interval st.polls)
          { st with notFoundCount := 0, targetStreak := st.targetStreak + 1,
                    polls := st.polls + 1, lastKnownStatus := some status,
                    lastSnapshot := some snapshot }
    else if status ∈ spec.pending ∨ spec.pending = [] then
      sleepAndCheck spec (interval st.polls)
        { st with notFoundCount := 0, targetStreak := 0, polls := st.polls + 1,
                  lastKnownStatus := some status, lastSnapshot := some snapshot }
    else
      sleepAndCheck spec (interval st.polls)
        { st with notFoundCount := 0, targetStreak := 0, polls := st.polls + 1,
                  lastKnownStatus := some status, lastSnapshot := some snapshot }

/-- Modelled from the spec: the loop (step 2) of `awaitStatus` from state `st`,
for at most `fuel` polls;
`pollOnce k` is the outcome of the `k`-th call of the poll function (counted
from 0). `none` means the wait is still going on after `fuel` polls. -/
def awaitLoop (spec : WaitSpecification) (pollOnce : Nat → PollOutcome)
    (interval : Nat → Nat) : Nat → WaitState → Option WaitRun
  | 0, _ => none
  | fuel + 1, st =>
    match awaitStep spec interval st (pollOnce st.polls) with
    | WaitStep.done run => some run
    | WaitStep.next st' => awaitLoop spec pollOnce interval fuel st'

/-- Modelled from the spec: `awaitStatus(pollOnce, spec)`, the engine behind
`WaitForStateContext` (which is not in this package), run for at most `fuel`
polls from the initial counters. -/
def awaitStatus (pollOnce : Nat → PollOutcome) (spec : WaitSpecification)
    (interval : Nat → Nat) (fuel : Nat) : Option WaitRun :=
  awaitLoop spec pollOnce interval fuel WaitState.init

/-- Modelled from the spec: the Wait Specification of a `StateChangeConf`
(`NotFoundChecks` is `notFoundTolerance`, `ContinuousTargetOccurence` is
`minTargetStreak`). A field left at its zero value takes the default of the
library, which the design document leaves open and which is a parameter
here. -/
def StateChangeConf.toWaitSpecification (defaultNotFoundChecks : Nat)
    (defaultContinuousTargetOccurence : Nat) (conf : StateChangeConf) : WaitSpecification :=
  { pending := conf.Pending
    target := conf.Target
    timeout := conf.Timeout
    notFoundTolerance :=
      if conf.NotFoundChecks = 0 then defaultNotFoundChecks else conf.NotFoundChecks
    minTargetStreak :=
      if conf.ContinuousTargetOccurence = 0 then defaultContinuousTargetOccurence
      else conf.ContinuousTargetOccurence }

/-- Modelled from the spec: the Poll Outcome of a refresh result, an error if
the error is not nil, absence if the result is nil, and the snapshot with its
status otherwise. -/
def RefreshResult.toPollOutcome (r : RefreshResult) : PollOutcome :=
  match r.err with
  | some e => PollOutcome.error e
  | none =>
    match r.result with
    | none => PollOutcome.notFound
    | some snapshot => PollOutcome.found snapshot r.state

/-- Modelled from the spec: `stateConf.WaitForStateContext(ctx)`, which is not
in this package, as the engine `awaitStatus` run on the configuration and its
refresh function. -/
def StateChangeConf.WaitForStateContext (defaultNotFoundChecks : Nat)
    (defaultContinuousTargetOccurence : Nat) (conf : StateChangeConf)
    (interval : Nat → Nat) (fuel : Nat) : Option WaitRun :=
  awaitStatus (fun k => (conf.Refresh k).toPollOutcome)
    (conf.toWaitSpecification defaultNotFoundChecks defaultContinuousTargetOccurence)
    interval fuel

/-- The time slept before the `k`-th poll (counted from 0): the sum of the
first `k` sleep intervals. -/
def sleptBefore (interval : Nat → Nat) : Nat → Nat
  | 0 => 0
  | k + 1 => sleptBefore interval k + interval k

/-- The state of the wait after `n` more polls from `st`, if the wait is still
going on then. -/
def runFrom (spec : WaitSpecification) (pollOnce : Nat → PollOutcome)
    (interval : Nat → Nat) (st : WaitState) : Nat → Option WaitState
  | 0 => some st
  | n + 1 =>
    match runFrom spec pollOnce interval st n with
    | none => none
    | some st' =>
      match awaitStep spec interval st' (pollOnce st'.polls) with
      | WaitStep.done _ => none
      | WaitStep.next st'' => some st''

/-- The poll outcome is a snapshot whose status is in the target set. -/
def isTargetObservation (spec : WaitSpecification) (o : PollOutcome) : Bool :=
  match o with
  | PollOutcome.found _ status => decide (status ∈ spec.target)
  | _ => false

/-- Poll `k` (counted from 0) completes a streak: it and the polls before it
make up `minTargetStreak` consecutive target observations (one at least). -/
def completesStreak (spec : WaitSpecification) (pollOnce : Nat → PollOutcome) (k : Nat) : Prop :=
  ∀ i, i < max spec.minTargetStreak 1 →
    i ≤ k ∧ isTargetObservation spec (pollOnce (k - i)) = true

/-! ### Sample inputs -/

/-- A classification of errors for the examples: the `*retry.NotFoundError`
and the empty-result error are "not found", an SDK error is not. -/
def sampleNotFound : Error → Bool
  | Error.api _ => false
  | Error.notFoundError _ _ => true
  | Error.emptyResultError _ => true

def sampleConfiguration (status : String) : FirewallTlsInspectionConfiguration :=
  { Arn := some "arn:aws:network-firewall:tls/example"
    FirewallTlsInspectionConfigurationId := some "tls-1"
    FirewallTlsInspectionConfigurationName := some "example"
    FirewallTlsInspectionConfigurationType := some "TLS"
    ComplexArgument := none
    Status := some status }

/-- A service that holds the sample configuration in the given status. -/
def clientWithStatus (status : String) : Client :=
  fun _ => (some { FirewallTlsInspectionConfiguration := some (sampleConfiguration status) }, none)

/-- A service that answers with the given SDK error. -/
def clientFailing (err : ApiError) : Client :=
  fun _ => (none, some err)

def resourceNotFoundException : ApiError :=
  { isResourceNotFoundException := true, message := "ResourceNotFoundException" }

def throttlingException : ApiError :=
  { isResourceNotFoundException := false, message := "ThrottlingException" }

/-- The sample configuration under a name of its own, to tell the snapshots
of different polls apart. -/
def namedConfiguration (name : String) (status : String) : FirewallTlsInspectionConfiguration :=
  { sampleConfiguration status with FirewallTlsInspectionConfigurationName := some name }

/-- The wait of the scenario `pending = {"Pending"}`, `target = {"Normal"}`,
`minTargetStreak = 2`, with a timeout of 10 ticks. -/
def scenarioSpec : WaitSpecification :=
  { pending := ["Pending"], target := ["Normal"], timeout := 10, notFoundTolerance := 20,
    minTargetStreak := 2 }

/-- The poll sequence `Pending, Pending, Normal, Normal` (and `Normal` from
then on), each poll with a snapshot of its own. -/
def scenarioSequence : Nat → PollOutcome
  | 0 => PollOutcome.found (namedConfiguration "poll-1" "Pending") "Pending"
  | 1 => PollOutcome.found (namedConfiguration "poll-2" "Pending") "Pending"
  | 2 => PollOutcome.found (namedConfiguration "poll-3" "Normal") "Normal"
  | _ => PollOutcome.found (namedConfiguration "poll-4" "Normal") "Normal"

/-- A sleep of one tick after every poll. -/
def everyTick : Nat → Nat := fun _ => 1

/-- The snapshot of a poll outcome, if it has one. -/
def PollOutcome.snapshot? : PollOutcome → Option FirewallTlsInspectionConfiguration
  | PollOutcome.found snapshot _ => some snapshot
  | _ => none

/-- The status of a poll outcome, if it has one. -/
def PollOutcome.status? : PollOutcome → Option String
  | PollOutcome.found _ status => some status
  | _ => none

/-- The `stateConf` of the create waiter on a service that always holds the
configuration in status `Normal`. -/
def createdAlwaysNormal (timeout : Nat) : StateChangeConf :=
  waitFirewallTlsInspectionConfigurationCreatedConf sampleNotFound
    (fun _ => clientWithStatus "Normal") "tls-1" timeout

/-- The `stateConf` of the update waiter on a service that always holds the
configuration in status `Updated`. -/
def updatedAlwaysUpdated (timeout : Nat) : StateChangeConf :=
  waitFirewallTlsInspectionConfigurationUpdatedConf sampleNotFound
    (fun _ => clientWithStatus "Updated") "tls-1" timeout

/-- A service on which the configuration is being deleted at the first call
and is gone from the second call on. -/
def deletingThenGone : Nat → Client
  | 0 => clientWithStatus "Deleting"
  | _ + 1 => clientFailing resourceNotFoundException

/-- The `stateConf` of the delete waiter on `deletingThenGone`. -/
def deletedDeletingThenGone (timeout : Nat) : StateChangeConf :=
  waitFirewallTlsInspectionConfigurationDeletedConf sampleNotFound deletingThenGone "tls-1" timeout

/-- The `stateConf` of the create waiter on a service that never has the
configuration. -/
def createdNeverFound (timeout : Nat) : StateChangeConf :=
  waitFirewallTlsInspectionConfigurationCreatedConf sampleNotFound
    (fun _ => clientFailing resourceNotFoundException) "tls-1" timeout

/-- The `stateConf` of the update waiter on a service that never has the
configuration. -/
def updatedNeverFound (timeout : Nat) : StateChangeConf :=
  waitFirewallTlsInspectionConfigurationUpdatedConf sampleNotFound
    (fun _ => clientFailing resourceNotFoundException) "tls-1" timeout

/-- The `stateConf` of the update waiter on a service that always holds the
configuration in the given status. -/
def updatedAlways (status : String) (timeout : Nat) : StateChangeConf :=
  waitFirewallTlsInspectionConfigurationUpdatedConf sampleNotFound
    (fun _ => clientWithStatus status) "tls-1" timeout

/-- The `stateConf` of the delete waiter on a service that always holds the
configuration in the given status. -/
def deletedAlways (status : String) (timeout : Nat) : StateChangeConf :=
  waitFirewallTlsInspectionConfigurationDeletedConf sampleNotFound
    (fun _ => clientWithStatus status) "tls-1" timeout

/-- A service that holds the configuration in status `Pending`, except that
the third call fails with a throttling error. -/
def failingOnThirdCall : Nat → Client
  | 2 => clientFailing throttlingException
  | _ => clientWithStatus "Pending"

/-- The `stateConf` of the update waiter on `failingOnThirdCall`. -/
def updatedFailingOnThirdCall (timeout : Nat) : StateChangeConf :=
  waitFirewallTlsInspectionConfigurationUpdatedConf sampleNotFound failingOnThirdCall "tls-1"
    timeout

/-- The wait of the scenario with a timeout of 3 ticks. -/
def scenarioSpecShortTimeout : WaitSpecification :=
  { scenarioSpec with timeout := 3 }

/-- The `stateConf` of the delete waiter on a service that never has the
configuration. -/
def deletedNeverFound (timeout : Nat) : StateChangeConf :=
  waitFirewallTlsInspectionConfigurationDeletedConf sampleNotFound
    (fun _ => clientFailing resourceNotFoundException) "tls-1" timeout

/-! ## The waiters -/

/-- The dynamic types of the values the waiters handle behind `interface{}`.
The source writes the pointer to a configuration both as
`*awstypes.FirewallTlsInspectionConfiguration` (the result type of the finder
and of the waiters) and as `*networkfirewall.FirewallTlsInspectionConfiguration`
(the type the waiters name in their type assertion); the waiters return the
asserted pointer as their declared result, `return out, err`, so the two names
are one type. Every other dynamic type is `other`. -/
inductive GoType where
  | ptrFirewallTlsInspectionConfiguration
  | other
  deriving DecidableEq, Repr

/-- A Go `interface{}` value as the waiters see it: nil, or a pointer together
with its dynamic type. -/
inductive AnyValue where
  | nil
  | pointer (dynamicType : GoType) (target : FirewallTlsInspectionConfiguration)
  deriving DecidableEq, Repr

/-- The Go type assertion `out, ok := x.(T)`: `ok` holds exactly when the
dynamic type of `x` is `T`, and `out` is then the pointer (nil otherwise). -/
def AnyValue.assert (x : AnyValue) (T : GoType) :
    Option FirewallTlsInspectionConfiguration × Bool :=
  match x with
  | AnyValue.nil => (none, false)
  | AnyValue.pointer dynamicType target =>
    if dynamicType = T then (some target, true) else (none, false)

/-- The `interface{}` value of a refresh result: the status function returns
`out`, a `*awstypes.FirewallTlsInspectionConfiguration`, or nil. -/
def RefreshResult.resultValue (r : RefreshResult) : AnyValue :=
  match r.result with
  | none => AnyValue.nil
  | some out => AnyValue.pointer GoType.ptrFirewallTlsInspectionConfiguration out

/-- The function `waitFirewallTlsInspectionConfigurationCreated`. The call
`stateConf.WaitForStateContext(ctx)` of the plugin SDK is the parameter
`WaitForStateContext`, which returns the Go pair `(outputRaw, err)`. -/
def waitFirewallTlsInspectionConfigurationCreated {ε : Type}
    (WaitForStateContext : StateChangeConf → AnyValue × Option ε) (notFound : Error → Bool)
    (conn : Nat → Client) (id : String) (timeout : Nat) :
    Option FirewallTlsInspectionConfiguration × Option ε :=
  let stateConf := waitFirewallTlsInspectionConfigurationCreatedConf notFound conn id timeout
  match WaitForStateContext stateConf with
  | (outputRaw, err) =>
    match outputRaw.assert GoType.ptrFirewallTlsInspectionConfiguration with
    | (out, true) => (out, err)
    | (_, false) => (none, err)

/-- The function `waitFirewallTlsInspectionConfigurationUpdated`. -/
def waitFirewallTlsInspectionConfigurationUpdated {ε : Type}
    (WaitForStateContext : StateChangeConf → AnyValue × Option ε) (notFound : Error → Bool)
    (conn : Nat → Client) (id : String) (timeout : Nat) :
    Option FirewallTlsInspectionConfiguration × Option ε :=
  let stateConf := waitFirewallTlsInspectionConfigurationUpdatedConf notFound conn id timeout
  match WaitForStateContext stateConf with
  | (outputRaw, err) =>
    match outputRaw.assert GoType.ptrFirewallTlsInspectionConfiguration with
    | (out, true) => (out, err)
    | (_, false) => (none, err)

/-- The function `waitFirewallTlsInspectionConfigurationDeleted`. -/
def waitFirewallTlsInspectionConfigurationDeleted {ε : Type}
    (WaitForStateContext : StateChangeConf → AnyValue × Option ε) (notFound : Error → Bool)
    (conn : Nat → Client) (id : String) (timeout : Nat) :
    Option FirewallTlsInspectionConfiguration × Option ε :=
  let stateConf := waitFirewallTlsInspectionConfigurationDeletedConf notFound conn id timeout
  match WaitForStateContext stateConf with
  | (outputRaw, err) =>
    match outputRaw.assert GoType.ptrFirewallTlsInspectionConfiguration with
    | (out, true) => (out, err)
    | (_, false) => (none, err)

/-- A wait that succeeds with what the second call of the refresh function
returned, and a nil error. -/
def waitSucceedingOnSecondPoll (conf : StateChangeConf) : AnyValue × Option WaitError :=
  ((conf.Refresh 1).resultValue, none)

/-! ## Plugin-Framework values

The value and diagnostics types of the Plugin Framework (`types`, `attr`,
`diag`) are not part of this package; they are given here with the
constructors and checks the resource uses. -/

/-- The framework value `types.String`: null, unknown, or a known string. -/
inductive TfString where
  | null
  | unknown
  | value (s : String)
  deriving DecidableEq, Repr

/-- The method `IsNull` of `types.String`. -/
def TfString.IsNull : TfString → Bool
  | TfString.null => true
  | _ => false

/-- The method `ValueString` of `types.String`: the known string, `""` for a
null or unknown value. -/
def TfString.ValueString : TfString → String
  | TfString.value s => s
  | _ => ""

/-- The attribute types that occur in the nested object: `types.StringType`. -/
inductive AttrType where
  | StringType
  deriving DecidableEq, Repr

/-- A Go `map[string]attr.Type`, as the list of its entries. -/
abbrev AttrTypes := List (String × AttrType)

/-- The framework type `types.ObjectType`. -/
structure ObjectType where
  AttrTypes : AttrTypes
  deriving DecidableEq, Repr

/-- The framework value `types.Object`: unknown, or known with its attribute
types and attribute values (a Go `map[string]attr.Value`, as the list of its
entries). -/
inductive ObjectValue where
  | unknown (attributeTypes : AttrTypes)
  | known (attributeTypes : AttrTypes) (attributes : List (String × TfString))
  deriving DecidableEq, Repr

/-- The type of an object value. -/
def ObjectValue.Type : ObjectValue → ObjectType
  | ObjectValue.unknown attributeTypes => { AttrTypes := attributeTypes }
  | ObjectValue.known attributeTypes _ => { AttrTypes := attributeTypes }

/-- The framework value `types.List` with object elements: null, unknown, or
known with its elements. -/
inductive ListValue where
  | null (elementType : ObjectType)
  | unknown (elementType : ObjectType)
  | known (elementType : ObjectType) (elements : List ObjectValue)
  deriving DecidableEq, Repr

/-- The severity of a diagnostic. -/
inductive Severity where
  | error
  | warning
  deriving DecidableEq, Repr

/-- A diagnostic of the framework (`diag.Diagnostic`). -/
structure Diagnostic where
  severity : Severity
  summary : String
  detail : String
  deriving DecidableEq, Repr

/-- The framework type `diag.Diagnostics`, a slice of diagnostics. -/
abbrev Diagnostics := List Diagnostic

/-- The method `Append` of `diag.Diagnostics`: each new diagnostic is added at
the end unless an equal one is already there. -/
def Diagnostics.Append (diags : Diagnostics) (new : Diagnostics) : Diagnostics :=
  new.foldl (fun acc d => if d ∈ acc then acc else acc ++ [d]) diags

/-- The method `AddError` of `diag.Diagnostics`. -/
def Diagnostics.AddError (diags : Diagnostics) (summary : String) (detail : String) :
    Diagnostics :=
  Diagnostics.Append diags [{ severity := Severity.error, summary := summary, detail := detail }]

/-- The method `HasError` of `diag.Diagnostics`. -/
def Diagnostics.HasError (diags : Diagnostics) : Bool :=
  diags.any (fun d => decide (d.severity = Severity.error))

/-- The method `ErrorsCount` of `diag.Diagnostics`. -/
def Diagnostics.ErrorsCount (diags : Diagnostics) : Nat :=
  (diags.filter (fun d => decide (d.severity = Severity.error))).length

/-- The framework function `types.ObjectValue`: the known object when the
attribute values are exactly those the attribute types name (every value here
is a `types.String`, of type `types.StringType`), and the unknown object with
an error diagnostic otherwise. -/
def typesObjectValue (attributeTypes : AttrTypes) (attributes : List (String × TfString)) :
    ObjectValue × Diagnostics :=
  if attributeTypes.all (fun t => attributes.any (fun a => a.1 == t.1))
      && attributes.all (fun a => attributeTypes.any (fun t => t.1 == a.1)) then
    (ObjectValue.known attributeTypes attributes, [])
  else
    (ObjectValue.unknown attributeTypes,
      [{ severity := Severity.error, summary := "Invalid Object Attribute Value",
         detail := "" }])

/-- The framework function `types.ListValue`: the known list when every
element has the element type, and the unknown list with an error diagnostic
otherwise. -/
def typesListValue (elementType : ObjectType) (elements : List ObjectValue) :
    ListValue × Diagnostics :=
  if elements.all (fun e => decide (e.Type = elementType)) then
    (ListValue.known elementType elements, [])
  else
    (ListValue.unknown elementType,
      [{ severity := Severity.error, summary := "Invalid List Element Type", detail := "" }])

/-! ## Data structures -/

/-- The struct `complexArgumentData`. -/
structure complexArgumentData where
  NestedRequired : TfString
  NestedOptional : TfString
  deriving DecidableEq, Repr

/-- The variable `complexArgumentAttrTypes`. -/
def complexArgumentAttrTypes : AttrTypes :=
  [("nested_required", AttrType.StringType), ("nested_optional", AttrType.StringType)]

/-- Decoding an object into `complexArgumentData`, field by field after the
`tfsdk` tags; `none` when the object is unknown or lacks an attribute. -/
def ObjectValue.As : ObjectValue → Option complexArgumentData
  | ObjectValue.unknown _ => none
  | ObjectValue.known _ attributes =>
    match attributes.lookup "nested_required", attributes.lookup "nested_optional" with
    | some nestedRequired, some nestedOptional =>
      some { NestedRequired := nestedRequired, NestedOptional := nestedOptional }
    | _, _ => none

/-- The method `ElementsAs(ctx, &tfList, false)` of `types.List` with a
`[]complexArgumentData` target: the decoded elements of a known list, and an
error diagnostic when the list is unknown or an element does not decode. -/
def ListValue.ElementsAs : ListValue → List complexArgumentData × Diagnostics
  | ListValue.null _ => ([], [])
  | ListValue.unknown _ =>
    ([], [{ severity := Severity.error, summary := "Value Conversion Error", detail := "" }])
  | ListValue.known _ elements =>
    if elements.all (fun e => e.As.isSome) then
      (elements.filterMap ObjectValue.As, [])
    else
      ([], [{ severity := Severity.error, summary := "Value Conversion Error", detail := "" }])

/-! ## Flex -/

/-- The function `flattenComplexArgument`. The helper
`flex.StringValueToFramework`, applied to a field of the API object, is the
parameter `StringValueToFramework`. -/
def flattenComplexArgument (StringValueToFramework : Option String → TfString)
    (apiObject : Option ComplexArgument) : ListValue × Diagnostics :=
  let diags : Diagnostics := []
  let elemType : ObjectType := { AttrTypes := complexArgumentAttrTypes }
  match apiObject with
  | none => (ListValue.null elemType, diags)
  | some apiObject =>
    let obj : List (String × TfString) :=
      [("nested_required", StringValueToFramework apiObject.NestedRequired),
       ("nested_optional", StringValueToFramework apiObject.NestedOptional)]
    match typesObjectValue complexArgumentAttrTypes obj with
    | (objVal, d) =>
      let diags := Diagnostics.Append diags d
      match typesListValue elemType [objVal] with
      | (listVal, d) =>
        let diags := Diagnostics.Append diags d
        (listVal, diags)

/-- The function `flattenComplexArguments`; the loop over `apiObjects` carries
`elems` and `diags`. -/
def flattenComplexArguments (StringValueToFramework : Option String → TfString)
    (apiObjects : List (Option ComplexArgument)) : ListValue × Diagnostics :=
  let diags : Diagnostics := []
  let elemType : ObjectType := { AttrTypes := complexArgumentAttrTypes }
  if apiObjects.length = 0 then
    (ListValue.null elemType, diags)
  else
    let loop : List ObjectValue × Diagnostics :=
      apiObjects.foldl
        (fun (acc : List ObjectValue × Diagnostics) apiObject =>
          match apiObject with
          | none => acc
          | some apiObject =>
            let obj : List (String × TfString) :=
              [("nested_required", StringValueToFramework apiObject.NestedRequired),
               ("nested_optional", StringValueToFramework apiObject.NestedOptional)]
            match typesObjectValue complexArgumentAttrTypes obj with
            | (objVal, d) => (acc.1 ++ [objVal], Diagnostics.Append acc.2 d))
        ([], diags)
    match typesListValue elemType loop.1 with
    | (listVal, d) => (listVal, Diagnostics.Append loop.2 d)

/-- The function `expandComplexArgument`. -/
def expandComplexArgument (tfList : List complexArgumentData) : Option ComplexArgument :=
  match tfList with
  | [] => none
  | tfObj :: _ =>
    let apiObject : ComplexArgument :=
      { NestedRequired := awsString tfObj.NestedRequired.ValueString, NestedOptional := none }
    if !tfObj.NestedOptional.IsNull then
      some { apiObject with NestedOptional := awsString tfObj.NestedOptional.ValueString }
    else
      some apiObject

/-- The function `expandComplexArguments`; a nil slice is `none`, and the loop
appends one item for each element of `tfList`. -/
def expandComplexArguments (tfList : List complexArgumentData) :
    Option (List ComplexArgument) :=
  if tfList.length = 0 then
    none
  else
    some (tfList.foldl
      (fun (apiObject : List ComplexArgument) tfObj =>
        let item : ComplexArgument :=
          { NestedRequired := awsString tfObj.NestedRequired.ValueString
            NestedOptional := none }
        let item : ComplexArgument :=
          if !tfObj.NestedOptional.IsNull then
            { item with NestedOptional := awsString tfObj.NestedOptional.ValueString }
          else item
        apiObject ++ [item])
      [])

/-- Flattening a non-nil API object, decoding the list into
`[]complexArgumentData` and expanding it again. -/
def flattenThenExpand (StringValueToFramework : Option String → TfString)
    (apiObject : ComplexArgument) : Option ComplexArgument :=
  expandComplexArgument
    (flattenComplexArgument StringValueToFramework (some apiObject)).1.ElementsAs.1

/-- A string conversion for the examples: a nil pointer becomes null, any
other pointer the known string it points to. -/
def samplePointerToFramework : Option String → TfString
  | none => TfString.null
  | some s => TfString.value s

/-! ## Schema and resource data -/

/-- The names of the attributes declared by `Schema`, in the order of the map
literal; `names.AttrTags` and `names.AttrTagsAll` are constants of another
package and are parameters. -/
def schemaAttributeNames (AttrTags : String) (AttrTagsAll : String) : List String :=
  ["arn", "description", "id", "name", AttrTags, AttrTagsAll, "type"]

/-- The names of the blocks declared by `Schema`. -/
def schemaBlockNames : List String :=
  ["encryption_configuration", "tls_inspection_configuration", "timeouts"]

/-- The `tfsdk` tag values of the fields of
`resourceFirewallTlsInspectionConfigurationData`, in field order. -/
def resourceFirewallTlsInspectionConfigurationDataTags : List String :=
  ["arn", "complex_argument", "description", "id", "name", "tags", "tags_all", "timeouts",
   "type"]

/-- The framework value `types.Map` of the tags: null, or its entries. -/
abbrev TfMap := Option (List (String × String))

/-- The value `timeouts.Value` of the `timeouts` block: null, or the configured
durations. -/
abbrev TimeoutsValue := Option (List (String × String))

/-- The struct `resourceFirewallTlsInspectionConfigurationData`; its field
`Type` is `Type_` here. -/
structure resourceFirewallTlsInspectionConfigurationData where
  ARN : TfString
  ComplexArgument : ListValue
  Description : TfString
  ID : TfString
  Name : TfString
  Tags : TfMap
  TagsAll : TfMap
  Timeouts : TimeoutsValue
  Type_ : TfString
  deriving DecidableEq, Repr

/-- The constant `ResNameFirewallTlsInspectionConfiguration`. -/
def ResNameFirewallTlsInspectionConfiguration : String := "Firewall Tls Inspection Configuration"

/-- The constants `create.ErrAction…` the resource passes to
`create.ProblemStandardMessage`. -/
inductive ErrAction where
  | Creating
  | Setting
  | Updating
  | Deleting
  | WaitingForCreation
  | WaitingForUpdate
  | WaitingForDeletion
  deriving DecidableEq, Repr

/-- The functions of other packages that the resource methods call, as
parameters: `tfresource.NotFound` on a non-nil error, the `Error()` text of a
finder error and of a waiter error, `create.ProblemStandardMessage` for the
service `names.NetworkFirewall` (as a function of the action, the resource
name, the id and the text of the error, if any), the `String()` method of
`types.String`, the helpers `flex.StringToFramework` and
`flex.StringValueToFramework`, the diagnostics of `State.Set`, the call
`WaitForStateContext`, and the timeouts of the `timeouts` block. -/
structure Lib (ε : Type) where
  NotFound : Error → Bool
  ErrorText : Error → String
  WaitErrorText : ε → String
  ProblemStandardMessage : ErrAction → String → String → Option String → String
  StringString : TfString → String
  StringToFramework : Option String → TfString
  StringValueToFramework : Option String → TfString
  StateSet : resourceFirewallTlsInspectionConfigurationData → Diagnostics
  WaitForStateContext : StateChangeConf → AnyValue × Option ε
  CreateTimeout : TimeoutsValue → Nat
  UpdateTimeout : TimeoutsValue → Nat
  DeleteTimeout : TimeoutsValue → Nat

/-! ## Read and Delete -/

/-- A `resource.ReadRequest`: the state that `req.State.Get(ctx, &state)`
decodes, and the diagnostics it reports. -/
structure ReadRequest where
  State : resourceFirewallTlsInspectionConfigurationData
  StateGetDiagnostics : Diagnostics
  deriving DecidableEq, Repr

/-- A `resource.ReadResponse`: the state (`none` once the resource is removed)
and the diagnostics. -/
structure ReadResponse where
  State : Option resourceFirewallTlsInspectionConfigurationData
  Diagnostics : Diagnostics
  deriving DecidableEq, Repr

/-- The method `Read`: from the response `resp` as the framework hands it in
to the response as the method leaves it. The last branch of the finder's
result, a nil `out` with a nil error, is never produced by the finder. -/
def Read {ε : Type} (lib : Lib ε) (conn : Client) (req : ReadRequest) (resp : ReadResponse) :
    ReadResponse :=
  let state := req.State
  let resp := { resp with Diagnostics := Diagnostics.Append resp.Diagnostics req.StateGetDiagnostics }
  if Diagnostics.HasError resp.Diagnostics then
    resp
  else
    match findFirewallTlsInspectionConfigurationByID conn state.ID.ValueString with
    | (out, err) =>
      if tfresourceNotFound lib.NotFound err then
        { resp with State := none }
      else
        match err with
        | some e =>
          { resp with
            Diagnostics := Diagnostics.AddError resp.Diagnostics
              (lib.ProblemStandardMessage ErrAction.Setting
                ResNameFirewallTlsInspectionConfiguration (lib.StringString state.ID)
                (some (lib.ErrorText e)))
              (lib.ErrorText e) }
        | none =>
          match out with
          | none => resp
          | some out =>
            let state := { state with
              ARN := lib.StringToFramework out.Arn
              ID := lib.StringToFramework out.FirewallTlsInspectionConfigurationId
              Name := lib.StringToFramework out.FirewallTlsInspectionConfigurationName
              Type_ := lib.StringToFramework out.FirewallTlsInspectionConfigurationType }
            match flattenComplexArgument lib.StringValueToFramework out.ComplexArgument with
            | (complexArgument, d) =>
              let resp := { resp with Diagnostics := Diagnostics.Append resp.Diagnostics d }
              let state := { state with ComplexArgument := complexArgument }
              { State := some state
                Diagnostics := Diagnostics.Append resp.Diagnostics (lib.StateSet state) }

/-- The request `networkfirewall.DeleteFirewallTlsInspectionConfigurationInput`. -/
structure DeleteFirewallTlsInspectionConfigurationInput where
  FirewallTlsInspectionConfigurationId : Option String
  deriving DecidableEq, Repr

/-- A `resource.DeleteRequest`: the state that `req.State.Get(ctx, &state)`
decodes, and the diagnostics it reports. -/
structure DeleteRequest where
  State : resourceFirewallTlsInspectionConfigurationData
  StateGetDiagnostics : Diagnostics
  deriving DecidableEq, Repr

/-- A `resource.DeleteResponse`: the diagnostics. -/
structure DeleteResponse where
  Diagnostics : Diagnostics
  deriving DecidableEq, Repr

/-- The calls `Delete` makes, in order: the delete call of the SDK and the
delete waiter, with their arguments. -/
inductive DeleteCall where
  | DeleteFirewallTlsInspectionConfiguration
      (input : DeleteFirewallTlsInspectionConfigurationInput)
  | waitFirewallTlsInspectionConfigurationDeleted (id : String) (timeout : Nat)
  deriving DecidableEq, Repr

/-- What a run of `Delete` leaves: the response and the calls it made. -/
structure DeleteRun where
  Response : DeleteResponse
  Calls : List DeleteCall
  deriving DecidableEq, Repr

/-- The method `Delete`. `DeleteFirewallTlsInspectionConfiguration` is the
error of the SDK call (its output is discarded), and `conn` the answers of the
service to the calls of the waiter's refresh function. -/
def Delete {ε : Type} (lib : Lib ε)
    (DeleteFirewallTlsInspectionConfiguration :
      DeleteFirewallTlsInspectionConfigurationInput → Option ApiError)
    (conn : Nat → Client) (req : DeleteRequest) (resp : DeleteResponse) : DeleteRun :=
  let state := req.State
  let resp : DeleteResponse :=
    { Diagnostics := Diagnostics.Append resp.Diagnostics req.StateGetDiagnostics }
  if Diagnostics.HasError resp.Diagnostics then
    { Response := resp, Calls := [] }
  else
    let input : DeleteFirewallTlsInspectionConfigurationInput :=
      { FirewallTlsInspectionConfigurationId := awsString state.ID.ValueString }
    let calls := [DeleteCall.DeleteFirewallTlsInspectionConfiguration input]
    match DeleteFirewallTlsInspectionConfiguration input with
    | some err =>
      if err.isResourceNotFoundException then
        { Response := resp, Calls := calls }
      else
        { Response :=
            { Diagnostics := Diagnostics.AddError resp.Diagnostics
                (lib.ProblemStandardMessage ErrAction.Deleting
                  ResNameFirewallTlsInspectionConfiguration (lib.StringString state.ID)
                  (some err.message))
                err.message }
          Calls := calls }
    | none =>
      let deleteTimeout := lib.DeleteTimeout state.Timeouts
      let calls := calls ++
        [DeleteCall.waitFirewallTlsInspectionConfigurationDeleted state.ID.ValueString
          deleteTimeout]
      match waitFirewallTlsInspectionConfigurationDeleted lib.WaitForStateContext lib.NotFound
          conn state.ID.ValueString deleteTimeout with
      | (_, some err) =>
        { Response :=
            { Diagnostics := Diagnostics.AddError resp.Diagnostics
                (lib.ProblemStandardMessage ErrAction.WaitingForDeletion
                  ResNameFirewallTlsInspectionConfiguration (lib.StringString state.ID)
                  (some (lib.WaitErrorText err)))
                (lib.WaitErrorText err) }
          Calls := calls }
      | (_, none) => { Response := resp, Calls := calls }

/-- Sample functions of the other packages. -/
def sampleLib : Lib WaitError :=
  { NotFound := sampleNotFound
    ErrorText := fun _ => "error"
    WaitErrorText := fun _ => "wait error"
    ProblemStandardMessage := fun _ resource id _ => resource ++ " " ++ id
    StringString := TfString.ValueString
    StringToFramework := samplePointerToFramework
    StringValueToFramework := samplePointerToFramework
    StateSet := fun _ => []
    WaitForStateContext := waitSucceedingOnSecondPoll
    CreateTimeout := fun _ => 1800
    UpdateTimeout := fun _ => 1800
    DeleteTimeout := fun _ => 1800 }

/-- A sample state of the resource, with id `tls-1`. -/
def sampleState : resourceFirewallTlsInspectionConfigurationData :=
  { ARN := TfString.value "arn:aws:network-firewall:tls/example"
    ComplexArgument := ListValue.null { AttrTypes := complexArgumentAttrTypes }
    Description := TfString.null
    ID := TfString.value "tls-1"
    Name := TfString.value "example"
    Tags := none
    TagsAll := none
    Timeouts := none
    Type_ := TfString.value "TLS" }

/-- A warning, as decoding the state may report. -/
def sampleWarning : Diagnostic :=
  { severity := Severity.warning, summary := "deprecated", detail := "" }

/-! ## Create and Update -/

/-- The method `IsNull` of `types.List`. -/
def ListValue.IsNull : ListValue → Bool
  | ListValue.null _ => true
  | _ => false

/-- The method `Equal` of `types.String`: the same state and the same
string. -/
def TfString.Equal (a : TfString) (b : TfString) : Bool := decide (a = b)

/-- The method `Equal` of `types.List`: the same element type, the same state
and equal elements. -/
def ListValue.Equal (a : ListValue) (b : ListValue) : Bool := decide (a = b)

/-- The request `networkfirewall.CreateFirewallTlsInspectionConfigurationInput`,
with the fields `Create` sets. -/
structure CreateFirewallTlsInspectionConfigurationInput where
  FirewallTlsInspectionConfigurationName : Option String
  FirewallTlsInspectionConfigurationType : Option String
  Tags : List (String × String)
  Description : Option String
  ComplexArgument : Option ComplexArgument
  deriving DecidableEq, Repr

/-- The response `networkfirewall.CreateFirewallTlsInspectionConfigurationOutput`. -/
structure CreateFirewallTlsInspectionConfigurationOutput where
  FirewallTlsInspectionConfiguration : Option FirewallTlsInspectionConfiguration
  deriving DecidableEq, Repr

/-- The request `networkfirewall.UpdateFirewallTlsInspectionConfigurationInput`,
with the fields `Update` sets. -/
structure UpdateFirewallTlsInspectionConfigurationInput where
  FirewallTlsInspectionConfigurationId : Option String
  FirewallTlsInspectionConfigurationName : Option String
  FirewallTlsInspectionConfigurationType : Option String
  Description : Option String
  ComplexArgument : Option ComplexArgument
  deriving DecidableEq, Repr

/-- The response `networkfirewall.UpdateFirewallTlsInspectionConfigurationOutput`. -/
structure UpdateFirewallTlsInspectionConfigurationOutput where
  FirewallTlsInspectionConfiguration : Option FirewallTlsInspectionConfiguration
  deriving DecidableEq, Repr

/-- The calls `Create` and `Update` make, in order: the create and update calls
of the SDK, the waiters, and `resp.State.Set`, with their arguments. -/
inductive ResourceCall where
  | CreateFirewallTlsInspectionConfiguration
      (input : CreateFirewallTlsInspectionConfigurationInput)
  | UpdateFirewallTlsInspectionConfiguration
      (input : UpdateFirewallTlsInspectionConfigurationInput)
  | waitFirewallTlsInspectionConfigurationCreated (id : String) (timeout : Nat)
  | waitFirewallTlsInspectionConfigurationUpdated (id : String) (timeout : Nat)
  | StateSet (data : resourceFirewallTlsInspectionConfigurationData)
  deriving DecidableEq, Repr

/-- A `resource.CreateRequest`: the plan that `req.Plan.Get(ctx, &plan)`
decodes, and the diagnostics it reports. -/
structure CreateRequest where
  Plan : resourceFirewallTlsInspectionConfigurationData
  PlanGetDiagnostics : Diagnostics
  deriving DecidableEq, Repr

/-- A `resource.CreateResponse`: the state (`none` while it is not set) and the
diagnostics. -/
structure CreateResponse where
  State : Option resourceFirewallTlsInspectionConfigurationData
  Diagnostics : Diagnostics
  deriving DecidableEq, Repr

/-- What a run of `Create` leaves: the response and the calls it made. -/
structure CreateRun where
  Response : CreateResponse
  Calls : List ResourceCall
  deriving DecidableEq, Repr

/-- Step 3 of `Create`, "populate a create input structure", from the
diagnostics `diags` of the response so far: the diagnostics after it, and the
input, or `none` when the method returns at the check that follows
`ElementsAs`. `getTagsIn` is the value of `getTagsIn(ctx)`. -/
def Create.populateInput (getTagsIn : List (String × String))
    (plan : resourceFirewallTlsInspectionConfigurationData) (diags : Diagnostics) :
    Diagnostics × Option CreateFirewallTlsInspectionConfigurationInput :=
  let input : CreateFirewallTlsInspectionConfigurationInput :=
    { FirewallTlsInspectionConfigurationName := awsString plan.Name.ValueString
      FirewallTlsInspectionConfigurationType := awsString plan.Type_.ValueString
      Tags := getTagsIn
      Description := none
      ComplexArgument := none }
  let input : CreateFirewallTlsInspectionConfigurationInput :=
    if !plan.Description.IsNull then
      { input with Description := awsString plan.Description.ValueString }
    else input
  if !plan.ComplexArgument.IsNull then
    match plan.ComplexArgument.ElementsAs with
    | (tfList, d) =>
      let diags := Diagnostics.Append diags d
      if Diagnostics.HasError diags then
        (diags, none)
      else
        (diags, some { input with ComplexArgument := expandComplexArgument tfList })
  else
    (diags, some input)

/-- The method `Create`. `CreateFirewallTlsInspectionConfiguration` is the call
of the SDK, returning the Go pair `(out, err)`, and `conn` the answers of the
service to the calls of the waiter's refresh function. -/
def Create {ε : Type} (lib : Lib ε) (getTagsIn : List (String × String))
    (CreateFirewallTlsInspectionConfiguration :
      CreateFirewallTlsInspectionConfigurationInput →
        Option CreateFirewallTlsInspectionConfigurationOutput × Option ApiError)
    (conn : Nat → Client) (req : CreateRequest) (resp : CreateResponse) : CreateRun :=
  let plan := req.Plan
  let resp := { resp with Diagnostics := Diagnostics.Append resp.Diagnostics req.PlanGetDiagnostics }
  if Diagnostics.HasError resp.Diagnostics then
    { Response := resp, Calls := [] }
  else
    match Create.populateInput getTagsIn plan resp.Diagnostics with
    | (diags, none) => { Response := { resp with Diagnostics := diags }, Calls := [] }
    | (diags, some input) =>
      let resp := { resp with Diagnostics := diags }
      let calls := [ResourceCall.CreateFirewallTlsInspectionConfiguration input]
      let emptyOutput : CreateRun :=
        { Response := { resp with
            Diagnostics := Diagnostics.AddError resp.Diagnostics
              (lib.ProblemStandardMessage ErrAction.Creating
                ResNameFirewallTlsInspectionConfiguration (lib.StringString plan.Name) none)
              "empty output" }
          Calls := calls }
      match CreateFirewallTlsInspectionConfiguration input with
      | (_, some err) =>
        { Response := { resp with
            Diagnostics := Diagnostics.AddError resp.Diagnostics
              (lib.ProblemStandardMessage ErrAction.Creating
                ResNameFirewallTlsInspectionConfiguration (lib.StringString plan.Name)
                (some err.message))
              err.message }
          Calls := calls }
      | (none, none) => emptyOutput
      | (some out, none) =>
        match out.FirewallTlsInspectionConfiguration with
        | none => emptyOutput
        | some configuration =>
          let plan := { plan with
            ARN := lib.StringToFramework configuration.Arn
            ID := lib.StringToFramework configuration.FirewallTlsInspectionConfigurationId }
          let createTimeout := lib.CreateTimeout plan.Timeouts
          let calls := calls ++
            [ResourceCall.waitFirewallTlsInspectionConfigurationCreated plan.ID.ValueString
              createTimeout]
          match waitFirewallTlsInspectionConfigurationCreated lib.WaitForStateContext
              lib.NotFound conn plan.ID.ValueString createTimeout with
          | (_, some err) =>
            { Response := { resp with
                Diagnostics := Diagnostics.AddError resp.Diagnostics
                  (lib.ProblemStandardMessage ErrAction.WaitingForCreation
                    ResNameFirewallTlsInspectionConfiguration (lib.StringString plan.Name)
                    (some (lib.WaitErrorText err)))
                  (lib.WaitErrorText err) }
              Calls := calls }
          | (_, none) =>
            { Response :=
                { State := some plan
                  Diagnostics := Diagnostics.Append resp.Diagnostics (lib.StateSet plan) }
              Calls := calls ++ [ResourceCall.StateSet plan] }

/-- A `resource.UpdateRequest`: the plan and the state that `req.Plan.Get` and
`req.State.Get` decode, and the diagnostics they report. -/
structure UpdateRequest where
  Plan : resourceFirewallTlsInspectionConfigurationData
  PlanGetDiagnostics : Diagnostics
  State : resourceFirewallTlsInspectionConfigurationData
  StateGetDiagnostics : Diagnostics
  deriving DecidableEq, Repr

/-- A `resource.UpdateResponse`: the state and the diagnostics. -/
structure UpdateResponse where
  State : Option resourceFirewallTlsInspectionConfigurationData
  Diagnostics : Diagnostics
  deriving DecidableEq, Repr

/-- What a run of `Update` leaves: the response and the calls it made. -/
structure UpdateRun where
  Response : UpdateResponse
  Calls : List ResourceCall
  deriving DecidableEq, Repr

/-- The condition of step 3 of `Update`: the plan differs from the state in
`Name`, `Description`, `ComplexArgument` or `Type`. -/
def Update.hasChanges (plan : resourceFirewallTlsInspectionConfigurationData)
    (state : resourceFirewallTlsInspectionConfigurationData) : Bool :=
  !plan.Name.Equal state.Name ||
    !plan.Description.Equal state.Description ||
    !plan.ComplexArgument.Equal state.ComplexArgument ||
    !plan.Type_.Equal state.Type_

/-- Step 3 of `Update` inside the block for a changed plan, "populate a modify
input structure", from the diagnostics `diags` of the response so far: the
diagnostics after it, and the input, or `none` when the method returns at the
check that follows `ElementsAs`. -/
def Update.populateInput (plan : resourceFirewallTlsInspectionConfigurationData)
    (diags : Diagnostics) : Diagnostics × Option UpdateFirewallTlsInspectionConfigurationInput :=
  let input : UpdateFirewallTlsInspectionConfigurationInput :=
    { FirewallTlsInspectionConfigurationId := awsString plan.ID.ValueString
      FirewallTlsInspectionConfigurationName := awsString plan.Name.ValueString
      FirewallTlsInspectionConfigurationType := awsString plan.Type_.ValueString
      Description := none
      ComplexArgument := none }
  let input : UpdateFirewallTlsInspectionConfigurationInput :=
    if !plan.Description.IsNull then
      { input with Description := awsString plan.Description.ValueString }
    else input
  if !plan.ComplexArgument.IsNull then
    match plan.ComplexArgument.ElementsAs with
    | (tfList, d) =>
      let diags := Diagnostics.Append diags d
      if Diagnostics.HasError diags then
        (diags, none)
      else
        (diags, some { input with ComplexArgument := expandComplexArgument tfList })
  else
    (diags, some input)

/-- Steps 5 and 6 of `Update`, which follow the block for a changed plan: wait
for the update to complete, then save the plan to the response state. `calls`
are the calls made so far. -/
def Update.waitAndSave {ε : Type} (lib : Lib ε) (conn : Nat → Client)
    (plan : resourceFirewallTlsInspectionConfigurationData) (resp : UpdateResponse)
    (calls : List ResourceCall) : UpdateRun :=
  let updateTimeout := lib.UpdateTimeout plan.Timeouts
  let calls := calls ++
    [ResourceCall.waitFirewallTlsInspectionConfigurationUpdated plan.ID.ValueString
      updateTimeout]
  match waitFirewallTlsInspectionConfigurationUpdated lib.WaitForStateContext lib.NotFound conn
      plan.ID.ValueString updateTimeout with
  | (_, some err) =>
    { Response := { resp with
        Diagnostics := Diagnostics.AddError resp.Diagnostics
          (lib.ProblemStandardMessage ErrAction.WaitingForUpdate
            ResNameFirewallTlsInspectionConfiguration (lib.StringString plan.ID)
            (some (lib.WaitErrorText err)))
          (lib.WaitErrorText err) }
      Calls := calls }
  | (_, none) =>
    { Response :=
        { State := some plan
          Diagnostics := Diagnostics.Append resp.Diagnostics (lib.StateSet plan) }
      Calls := calls ++ [ResourceCall.StateSet plan] }

/-- The method `Update`. `UpdateFirewallTlsInspectionConfiguration` is the call
of the SDK, returning the Go pair `(out, err)`, and `conn` the answers of the
service to the calls of the waiter's refresh function. -/
def Update {ε : Type} (lib : Lib ε)
    (UpdateFirewallTlsInspectionConfiguration :
      UpdateFirewallTlsInspectionConfigurationInput →
        Option UpdateFirewallTlsInspectionConfigurationOutput × Option ApiError)
    (conn : Nat → Client) (req : UpdateRequest) (resp : UpdateResponse) : UpdateRun :=
  let plan := req.Plan
  let state := req.State
  let resp := { resp with Diagnostics := Diagnostics.Append resp.Diagnostics req.PlanGetDiagnostics }
  let resp := { resp with Diagnostics := Diagnostics.Append resp.Diagnostics req.StateGetDiagnostics }
  if Diagnostics.HasError resp.Diagnostics then
    { Response := resp, Calls := [] }
  else if Update.hasChanges plan state then
    match Update.populateInput plan resp.Diagnostics with
    | (diags, none) => { Response := { resp with Diagnostics := diags }, Calls := [] }
    | (diags, some input) =>
      let resp := { resp with Diagnostics := diags }
      let calls := [ResourceCall.UpdateFirewallTlsInspectionConfiguration input]
      let emptyOutput : UpdateRun :=
        { Response := { resp with
            Diagnostics := Diagnostics.AddError resp.Diagnostics
              (lib.ProblemStandardMessage ErrAction.Updating
                ResNameFirewallTlsInspectionConfiguration (lib.StringString plan.ID) none)
              "empty output" }
          Calls := calls }
      match UpdateFirewallTlsInspectionConfiguration input with
      | (_, some err) =>
        { Response := { resp with
            Diagnostics := Diagnostics.AddError resp.Diagnostics
              (lib.ProblemStandardMessage ErrAction.Updating
                ResNameFirewallTlsInspectionConfiguration (lib.StringString plan.ID)
                (some err.message))
              err.message }
          Calls := calls }
      | (none, none) => emptyOutput
      | (some out, none) =>
        match out.FirewallTlsInspectionConfiguration with
        | none => emptyOutput
        | some configuration =>
          let plan := { plan with
            ARN := lib.StringToFramework configuration.Arn
            ID := lib.StringToFramework configuration.FirewallTlsInspectionConfigurationId }
          Update.waitAndSave lib conn plan resp calls
  else
    Update.waitAndSave lib conn plan resp []

/-- The sample configuration in an API output. -/
def sampleCreateOutput : CreateFirewallTlsInspectionConfigurationOutput :=
  { FirewallTlsInspectionConfiguration := some (sampleConfiguration "Normal") }

/-- An update call of the SDK that succeeds with the sample configuration in
status `Updated`. -/
def updateSucceeding (_ : UpdateFirewallTlsInspectionConfigurationInput) :
    Option UpdateFirewallTlsInspectionConfigurationOutput × Option ApiError :=
  (some { FirewallTlsInspectionConfiguration := some (sampleConfiguration "Updated") }, none)

/-- A create call of the SDK that succeeds with the sample configuration in
status `Normal`. -/
def createSucceeding (_ : CreateFirewallTlsInspectionConfigurationInput) :
    Option CreateFirewallTlsInspectionConfigurationOutput × Option ApiError :=
  (some sampleCreateOutput, none)

/-- A create call of the SDK that returns a nil output and a nil error. -/
def createReturningNil (_ : CreateFirewallTlsInspectionConfigurationInput) :
    Option CreateFirewallTlsInspectionConfigurationOutput × Option ApiError :=
  (none, none)

/-- The create input that step 3 of `Create` populates from the sample state
taken as the plan, with no tags. -/
def sampleCreateInput : CreateFirewallTlsInspectionConfigurationInput :=
  { FirewallTlsInspectionConfigurationName := some "example"
    FirewallTlsInspectionConfigurationType := some "TLS"
    Tags := []
    Description := none
    ComplexArgument := none }

/-- A create request whose plan is the sample state, decoded without
diagnostics. -/
def sampleCreateRequest : CreateRequest :=
  { Plan := sampleState, PlanGetDiagnostics := [] }

/-- A create response before the method runs: no state, no diagnostics. -/
def emptyCreateResponse : CreateResponse :=
  { State := none, Diagnostics := [] }

/-- A sample plan: the sample state under another name. -/
def sampleRenamedPlan : resourceFirewallTlsInspectionConfigurationData :=
  { sampleState with Name := TfString.value "renamed" }

/-- A sample plan: the sample state with other tags and nothing else
changed. -/
def sampleRetaggedPlan : resourceFirewallTlsInspectionConfigurationData :=
  { sampleState with Tags := some [("team", "network")], TagsAll := some [("team", "network")] }

/-- A sample plan: the sample state under another name, with a
`complex_argument` that is unknown. -/
def sampleUnknownListPlan : resourceFirewallTlsInspectionConfigurationData :=
  { sampleState with
    Name := TfString.value "renamed"
    ComplexArgument := ListValue.unknown { AttrTypes := complexArgumentAttrTypes } }

/-- Sample functions of the other packages whose wait fails with a timeout. -/
def sampleLibTimingOut : Lib WaitError :=
  { sampleLib with
    WaitForStateContext := fun _ => (AnyValue.nil, some (WaitError.TimedOut none none)) }

/-! ## The destroy check of the acceptance test

`terraform.State`, `create.Error` and the constants of `names` belong to other
packages; the values the destroy checks read and return are given here. -/

/-- The type `terraform.InstanceState`, with the field the destroy checks
read. -/
structure InstanceState where
  ID : String
  deriving DecidableEq, Repr

/-- The type `terraform.ResourceState`, with the fields the destroy checks
read. `Primary` is a pointer in Go that the checks dereference without a test;
it is taken as set. -/
structure ResourceState where
  Type_ : String
  Primary : InstanceState
  deriving DecidableEq, Repr

/-- The services that the destroy checks name with a constant of `names`. -/
inductive ServiceName where
  | NetworkFirewall
  | ObservabilityAccessManager
  deriving DecidableEq, Repr

/-- The error a destroy check hands to `create.Error`: an SDK error, or the
value of `errors.New(text)`. -/
inductive CheckCause where
  | sdk (err : ApiError)
  | errorsNew (text : String)
  deriving DecidableEq, Repr

/-- The Go `error` values a destroy check returns: an SDK error unchanged, or
the value of `create.Error(service, create.ErrActionCheckingDestroyed,
resource, id, err)`, kept as the arguments of the call. -/
inductive DestroyCheckError where
  | sdk (err : ApiError)
  | checkingDestroyed (service : ServiceName) (resource : String) (id : String)
      (err : CheckCause)
  deriving DecidableEq, Repr

/-- What a run of a destroy check leaves: the Go `error` it returns, nil being
`none`, and the requests it sent to the service, in order. -/
structure DestroyCheckRun (ι : Type) where
  Err : Option DestroyCheckError
  Queries : List ι
  deriving DecidableEq, Repr

/-- The request `networkfirewall.DescribeFirewallTlsInspectionConfigurationInput`. -/
structure DescribeFirewallTlsInspectionConfigurationInput where
  FirewallTlsInspectionConfigurationId : Option String
  deriving DecidableEq, Repr

/-- The function that `testAccCheckFirewallTlsInspectionConfigurationDestroy`
returns, on the resources of the root module in the order in which the `range`
over the map `s.RootModule().Resources` visits them.
`DescribeFirewallTlsInspectionConfiguration` is the call of the SDK, of which
the check keeps only the error. -/
def testAccCheckFirewallTlsInspectionConfigurationDestroy
    (DescribeFirewallTlsInspectionConfiguration :
      DescribeFirewallTlsInspectionConfigurationInput → Option ApiError) :
    List ResourceState → DestroyCheckRun DescribeFirewallTlsInspectionConfigurationInput
  | [] => { Err := none, Queries := [] }
  | rs :: rest =>
    if rs.Type_ != "aws_networkfirewall_firewall_tls_inspection_configuration" then
      testAccCheckFirewallTlsInspectionConfigurationDestroy
        DescribeFirewallTlsInspectionConfiguration rest
    else
      let input : DescribeFirewallTlsInspectionConfigurationInput :=
        { FirewallTlsInspectionConfigurationId := awsString rs.Primary.ID }
      match DescribeFirewallTlsInspectionConfiguration input with
      | some err =>
        if err.isResourceNotFoundException then
          { Err := none, Queries := [input] }
        else
          { Err := some (DestroyCheckError.checkingDestroyed ServiceName.NetworkFirewall
              ResNameFirewallTlsInspectionConfiguration rs.Primary.ID (CheckCause.sdk err))
            Queries := [input] }
      | none =>
        { Err := some (DestroyCheckError.checkingDestroyed ServiceName.NetworkFirewall
            ResNameFirewallTlsInspectionConfiguration rs.Primary.ID
            (CheckCause.errorsNew "not destroyed"))
          Queries := [input] }

/-- A resource of the state of the acceptance test. -/
def sampleResourceState : ResourceState :=
  { Type_ := "aws_networkfirewall_firewall_tls_inspection_configuration"
    Primary := { ID := "tls-1" } }

/-- A resource of another type. -/
def sampleOtherResourceState : ResourceState :=
  { Type_ := "aws_kms_key", Primary := { ID := "key-1" } }

end NetworkFirewall

/-! # Observability Access Manager: the sink policy tests -/

namespace ObservabilityAccessManager

/-- The check function that `TestAccObservabilityAccessManagerSinkPolicy_basic`
and `_update` install on the `policy` attribute with
`resource.TestCheckResourceAttrWith`: the Go `error` it returns, nil being
`none`. `awspolicy.PoliciesAreEquivalent` belongs to another module and is a
parameter; `expected` is the document the test builds with `fmt.Sprintf`. -/
def sinkPolicyCheck {ε : Type} (PoliciesAreEquivalent : String → String → Bool × Option ε)
    (expected : String) (value : String) : Option ε :=
  match PoliciesAreEquivalent value expected with
  | (_, err) => err

/-- A stand-in for `awspolicy.PoliciesAreEquivalent` in the examples: two
documents are equivalent when they are the same string, and no document is
rejected with an error. -/
def samePolicyText (policy1 : String) (policy2 : String) : Bool × Option String :=
  (policy1 == policy2, none)

/-- The request `oam.GetSinkPolicyInput`. -/
structure GetSinkPolicyInput where
  SinkIdentifier : Option String
  deriving DecidableEq, Repr

/-- The function `testAccCheckSinkPolicyDestroy`, on the resources of the root
module in the order in which the `range` over the map
`s.RootModule().Resources` visits them. `GetSinkPolicy` is the call of the SDK,
of which the check keeps only the error, with `isResourceNotFoundException`
the answer of `errors.As(err, &nfe)`; `ResNameSinkPolicy` is the constant
`tfoam.ResNameSinkPolicy` of the resource package. -/
def testAccCheckSinkPolicyDestroy (ResNameSinkPolicy : String)
    (GetSinkPolicy : GetSinkPolicyInput → Option NetworkFirewall.ApiError) :
    List NetworkFirewall.ResourceState → NetworkFirewall.DestroyCheckRun GetSinkPolicyInput
  | [] => { Err := none, Queries := [] }
  | rs :: rest =>
    if rs.Type_ != "aws_oam_sink_policy" then
      testAccCheckSinkPolicyDestroy ResNameSinkPolicy GetSinkPolicy rest
    else
      let input : GetSinkPolicyInput :=
        { SinkIdentifier := NetworkFirewall.awsString rs.Primary.ID }
      match GetSinkPolicy input with
      | some err =>
        if err.isResourceNotFoundException then
          { Err := none, Queries := [input] }
        else
          { Err := some (NetworkFirewall.DestroyCheckError.sdk err), Queries := [input] }
      | none =>
        { Err := some (NetworkFirewall.DestroyCheckError.checkingDestroyed
            NetworkFirewall.ServiceName.ObservabilityAccessManager ResNameSinkPolicy
            rs.Primary.ID (NetworkFirewall.CheckCause.errorsNew "not destroyed"))
          Queries := [input] }

/-- A sink policy of the state of the acceptance test. -/
def sampleSinkPolicyState : NetworkFirewall.ResourceState :=
  { Type_ := "aws_oam_sink_policy", Primary := { ID := "sink-1" } }

end ObservabilityAccessManager

namespace NetworkFirewall

/-! ## Lemmas on the loop -/

theorem timedOut_elapsed (st : WaitState) (e : Nat) :
    timedOut { st with elapsed := e } = timedOut st := rfl

theorem sleepAndCheck_eq (spec : WaitSpecification) (d : Nat) (st : WaitState) :
    sleepAndCheck spec d st
      = if spec.timeout ≤ st.elapsed + d then timedOut st
        else WaitStep.next { st with elapsed := st.elapsed + d } := by
  unfold sleepAndCheck
  by_cases h1 : spec.timeout ≤ st.elapsed
  · have h2 : spec.timeout ≤ st.elapsed + d := by omega
    simp [h1, h2]
  · by_cases h2 : spec.timeout ≤ st.elapsed + d
    · simp [h1, h2, timedOut_elapsed]
    · simp [h1, h2]

theorem sleepAndCheck_next (spec : WaitSpecification) (d : Nat) (st st' : WaitState)
    (h : sleepAndCheck spec d st = WaitStep.next st') :
    st.elapsed + d < spec.timeout ∧ st' = { st with elapsed := st.elapsed + d } := by
  rw [sleepAndCheck_eq] at h
  by_cases h2 : spec.timeout ≤ st.elapsed + d
  · simp [h2, timedOut] at h
  · simp [h2] at h
    exact ⟨by omega, h.symm⟩

theorem sleepAndCheck_done (spec : WaitSpecification) (d : Nat) (st : WaitState) (run : WaitRun)
    (h : sleepAndCheck spec d st = WaitStep.done run) :
    spec.timeout ≤ st.elapsed + d ∧
      run = { outcome := WaitResult.failure (WaitError.TimedOut st.lastKnownStatus st.lastSnapshot)
              polls := st.polls } := by
  rw [sleepAndCheck_eq] at h
  by_cases h2 : spec.timeout ≤ st.elapsed + d
  · simp [h2, timedOut] at h
    exact ⟨h2, h.symm⟩
  · simp [h2] at h

theorem awaitLoop_succ (spec : WaitSpecification) (pollOnce : Nat → PollOutcome)
    (interval : Nat → Nat) (fuel : Nat) (st : WaitState) :
    awaitLoop spec pollOnce interval (fuel + 1) st
      = match awaitStep spec interval st (pollOnce st.polls) with
        | WaitStep.done run => some run
        | WaitStep.next st' => awaitLoop spec pollOnce interval fuel st' := rfl

theorem runFrom_succ (spec : WaitSpecification) (pollOnce : Nat → PollOutcome)
    (interval : Nat → Nat) (st : WaitState) (n : Nat) :
    runFrom spec pollOnce interval st (n + 1)
      = match runFrom spec pollOnce interval st n with
        | none => none
        | some st' =>
          match awaitStep spec interval st' (pollOnce st'.polls) with
          | WaitStep.done _ => none
          | WaitStep.next st'' => some st'' := rfl

/-- A run of `n` polls that leaves the wait going on can be cut off the front
of the loop. -/
theorem awaitLoop_of_runFrom (spec : WaitSpecification) (pollOnce : Nat → PollOutcome)
    (interval : Nat → Nat) (st : WaitState) :
    ∀ (n : Nat) (st' : WaitState), runFrom spec pollOnce interval st n = some st' →
      ∀ f, awaitLoop spec pollOnce interval (n + f) st = awaitLoop spec pollOnce interval f st' := by
  intro n
  induction n with
  | zero =>
    intro st' h f
    simp [runFrom] at h
    subst h
    simp
  | succ n ih =>
    intro st' h f
    rw [runFrom_succ] at h
    cases hr : runFrom spec pollOnce interval st n with
    | none => simp [hr] at h
    | some st1 =>
      rw [hr] at h
      simp only at h
      cases hs : awaitStep spec interval st1 (pollOnce st1.polls) with
      | done run => simp [hs] at h
      | next st2 =>
        rw [hs] at h
        simp only [Option.some.injEq] at h
        subst h
        have h1 := ih st1 hr (f + 1)
        have h2 : n + 1 + f = n + (f + 1) := by omega
        rw [h2, h1, awaitLoop_succ, hs]

theorem awaitLoop_succ_of_some (spec : WaitSpecification) (pollOnce : Nat → PollOutcome)
    (interval : Nat → Nat) :
    ∀ (n : Nat) (st : WaitState) (run : WaitRun),
      awaitLoop spec pollOnce interval n st = some run →
      awaitLoop spec pollOnce interval (n + 1) st = some run := by
  intro n
  induction n with
  | zero =>
    intro st run h
    simp [awaitLoop] at h
  | succ n ih =>
    intro st run h
    rw [awaitLoop_succ] at h
    rw [awaitLoop_succ]
    cases hs : awaitStep spec interval st (pollOnce st.polls) with
    | done run' =>
      rw [hs] at h
      simpa using h
    | next st' =>
      rw [hs] at h
      exact ih st' run h

/-- More fuel does not change the outcome of a wait that has ended. -/
theorem awaitLoop_mono (spec : WaitSpecification) (pollOnce : Nat → PollOutcome)
    (interval : Nat → Nat) (n : Nat) (st : WaitState) (run : WaitRun)
    (h : awaitLoop spec pollOnce interval n st = some run) :
    ∀ f, n ≤ f → awaitLoop spec pollOnce interval f st = some run := by
  intro f hf
  induction f with
  | zero =>
    have h0 : n = 0 := by omega
    subst h0
    exact h
  | succ f ih =>
    by_cases hn : n = f + 1
    · subst hn
      exact h
    · exact awaitLoop_succ_of_some spec pollOnce interval f st run (ih (by omega))

theorem awaitLoop_one_done (spec : WaitSpecification) (pollOnce : Nat → PollOutcome)
    (interval : Nat → Nat) (st : WaitState) (run : WaitRun)
    (hs : awaitStep spec interval st (pollOnce st.polls) = WaitStep.done run) :
    awaitLoop spec pollOnce interval 1 st = some run := by
  simp [awaitLoop, hs]

theorem awaitLoop_one_next (spec : WaitSpecification) (pollOnce : Nat → PollOutcome)
    (interval : Nat → Nat) (st st' : WaitState)
    (hs : awaitStep spec interval st (pollOnce st.polls) = WaitStep.next st') :
    awaitLoop spec pollOnce interval 1 st = none := by
  simp [awaitLoop, hs]

/-- The loop ends with `run` when, after a run of `n` polls that leaves the
wait going on, the next round is final. -/
theorem awaitLoop_done_at (spec : WaitSpecification) (pollOnce : Nat → PollOutcome)
    (interval : Nat → Nat) (st st' : WaitState) (n : Nat) (run : WaitRun)
    (hr : runFrom spec pollOnce interval st n = some st')
    (hs : awaitStep spec interval st' (pollOnce st'.polls) = WaitStep.done run) :
    ∀ f, n < f → awaitLoop spec pollOnce interval f st = some run := by
  intro f hf
  have h1 := awaitLoop_of_runFrom spec pollOnce interval st n st' hr 1
  rw [awaitLoop_one_done spec pollOnce interval st' run hs] at h1
  exact awaitLoop_mono spec pollOnce interval (n + 1) st run h1 f (by omega)

/-- The loop goes on past `n + 1` polls after a run of `n` polls and a round
that is not final. -/
theorem runFrom_step (spec : WaitSpecification) (pollOnce : Nat → PollOutcome)
    (interval : Nat → Nat) (st st' st'' : WaitState) (n : Nat)
    (hr : runFrom spec pollOnce interval st n = some st')
    (hs : awaitStep spec interval st' (pollOnce st'.polls) = WaitStep.next st'') :
    runFrom spec pollOnce interval st (n + 1) = some st'' := by
  rw [runFrom_succ, hr]
  simp only
  rw [hs]

/-- What a run of `n + 1` polls is made of. -/
theorem runFrom_succ_some (spec : WaitSpecification) (pollOnce : Nat → PollOutcome)
    (interval : Nat → Nat) (st st'' : WaitState) (n : Nat)
    (h : runFrom spec pollOnce interval st (n + 1) = some st'') :
    ∃ st', runFrom spec pollOnce interval st n = some st' ∧
      awaitStep spec interval st' (pollOnce st'.polls) = WaitStep.next st'' := by
  rw [runFrom_succ] at h
  cases hr : runFrom spec pollOnce interval st n with
  | none => simp [hr] at h
  | some st1 =>
    rw [hr] at h
    simp only at h
    cases hs : awaitStep spec interval st1 (pollOnce st1.polls) with
    | done run => simp [hs] at h
    | next st2 =>
      rw [hs] at h
      simp only [Option.some.injEq] at h
      subst h
      exact ⟨st1, rfl, hs⟩

/-- A wait that is going on after `n` polls was going on after fewer. -/
theorem runFrom_prefix (spec : WaitSpecification) (pollOnce : Nat → PollOutcome)
    (interval : Nat → Nat) (st : WaitState) :
    ∀ (n : Nat) (st' : WaitState), runFrom spec pollOnce interval st n = some st' →
      ∀ j, j ≤ n → ∃ st'', runFrom spec pollOnce interval st j = some st'' := by
  intro n
  induction n with
  | zero =>
    intro st' h j hj
    have h0 : j = 0 := by omega
    subst h0
    exact ⟨st', h⟩
  | succ n ih =>
    intro st' h j hj
    by_cases hn : j = n + 1
    · subst hn
      exact ⟨st', h⟩
    · obtain ⟨st1, hr, _⟩ := runFrom_succ_some spec pollOnce interval st st' n h
      exact ih st1 hr j (by omega)

/-- A loop that runs out of fuel after `n` polls has a run of `n` polls. -/
theorem runFrom_of_awaitLoop_none (spec : WaitSpecification) (pollOnce : Nat → PollOutcome)
    (interval : Nat → Nat) (st : WaitState) :
    ∀ (n : Nat), awaitLoop spec pollOnce interval n st = none →
      ∃ st', runFrom spec pollOnce interval st n = some st' := by
  intro n
  induction n with
  | zero =>
    intro _
    exact ⟨st, rfl⟩
  | succ n ih =>
    intro h
    cases hl : awaitLoop spec pollOnce interval n st with
    | some r =>
      rw [awaitLoop_succ_of_some spec pollOnce interval n st r hl] at h
      simp at h
    | none =>
      obtain ⟨st1, hr⟩ := ih hl
      have h1 := awaitLoop_of_runFrom spec pollOnce interval st n st1 hr 1
      rw [h] at h1
      cases hs : awaitStep spec interval st1 (pollOnce st1.polls) with
      | done r =>
        rw [awaitLoop_one_done spec pollOnce interval st1 r hs] at h1
        simp at h1
      | next st2 => exact ⟨st2, runFrom_step spec pollOnce interval st st1 st2 n hr hs⟩

/-- The loop runs out of fuel after `n` polls exactly when the wait is still
going on after `n` polls. -/
theorem awaitLoop_eq_none_iff (spec : WaitSpecification) (pollOnce : Nat → PollOutcome)
    (interval : Nat → Nat) (n : Nat) (st : WaitState) :
    awaitLoop spec pollOnce interval n st = none ↔
      ∃ st', runFrom spec pollOnce interval st n = some st' := by
  constructor
  · exact runFrom_of_awaitLoop_none spec pollOnce interval st n
  · rintro ⟨st', h⟩
    have h1 := awaitLoop_of_runFrom spec pollOnce interval st n st' h 0
    simpa [awaitLoop] using h1

/-- A wait that has ended did so in a final round after some run of polls. -/
theorem awaitLoop_some (spec : WaitSpecification) (pollOnce : Nat → PollOutcome)
    (interval : Nat → Nat) (st : WaitState) :
    ∀ (f : Nat) (run : WaitRun), awaitLoop spec pollOnce interval f st = some run →
      ∃ n st', n < f ∧ runFrom spec pollOnce interval st n = some st' ∧
        awaitStep spec interval st' (pollOnce st'.polls) = WaitStep.done run := by
  intro f
  induction f with
  | zero =>
    intro run h
    simp [awaitLoop] at h
  | succ f ih =>
    intro run h
    cases hl : awaitLoop spec pollOnce interval f st with
    | some run' =>
      obtain ⟨n, st', hn, hr, hs⟩ := ih run' hl
      have h2 := awaitLoop_succ_of_some spec pollOnce interval f st run' hl
      rw [h] at h2
      simp only [Option.some.injEq] at h2
      subst h2
      exact ⟨n, st', by omega, hr, hs⟩
    | none =>
      obtain ⟨st1, hr⟩ := runFrom_of_awaitLoop_none spec pollOnce interval st f hl
      have h1 := awaitLoop_of_runFrom spec pollOnce interval st f st1 hr 1
      rw [h] at h1
      cases hs : awaitStep spec interval st1 (pollOnce st1.polls) with
      | done r =>
        rw [awaitLoop_one_done spec pollOnce interval st1 r hs] at h1
        simp only [Option.some.injEq] at h1
        subst h1
        exact ⟨f, st1, by omega, hr, hs⟩
      | next st2 =>
        rw [awaitLoop_one_next spec pollOnce interval st1 st2 hs] at h1
        simp at h1

/-! ## Lemmas on one round -/

/-- A round that is not final makes one poll and sleeps for the interval that
follows it, within the timeout; it leaves the streak where the observation
puts it. -/
theorem awaitStep_next (spec : WaitSpecification) (interval : Nat → Nat) (st st' : WaitState)
    (o : PollOutcome) (h : awaitStep spec interval st o = WaitStep.next st') :
    st'.polls = st.polls + 1 ∧ st'.elapsed = st.elapsed + interval st.polls
      ∧ st'.elapsed < spec.timeout := by
  unfold awaitStep at h
  cases o with
  | notFound =>
    simp only at h
    split_ifs at h <;>
      (obtain ⟨h1, h2⟩ := sleepAndCheck_next _ _ _ _ h
       subst h2
       exact ⟨rfl, rfl, h1⟩)
  | error err => exact absurd h (by simp)
  | found snapshot status =>
    simp only at h
    split_ifs at h <;>
      (obtain ⟨h1, h2⟩ := sleepAndCheck_next _ _ _ _ h
       subst h2
       exact ⟨rfl, rfl, h1⟩)

/-- A final round has made one more poll. -/
theorem awaitStep_done_polls (spec : WaitSpecification) (interval : Nat → Nat) (st : WaitState)
    (o : PollOutcome) (run : WaitRun) (h : awaitStep spec interval st o = WaitStep.done run) :
    run.polls = st.polls + 1 := by
  unfold awaitStep at h
  cases o with
  | notFound =>
    simp only at h
    split_ifs at h <;>
      first
      | (obtain ⟨_, h2⟩ := sleepAndCheck_done _ _ _ _ h
         subst h2
         rfl)
      | (simp only [WaitStep.done.injEq] at h
         subst h
         rfl)
  | error err =>
    simp only [WaitStep.done.injEq] at h
    subst h
    rfl
  | found snapshot status =>
    simp only at h
    split_ifs at h <;>
      first
      | (obtain ⟨_, h2⟩ := sleepAndCheck_done _ _ _ _ h
         subst h2
         rfl)
      | (simp only [WaitStep.done.injEq] at h
         subst h
         rfl)

/-- After `n` polls from the initial counters the wait has made `n` polls and
slept for the first `n` intervals. -/
theorem runFrom_init_polls_elapsed (spec : WaitSpecification) (pollOnce : Nat → PollOutcome)
    (interval : Nat → Nat) :
    ∀ (n : Nat) (st : WaitState), runFrom spec pollOnce interval WaitState.init n = some st →
      st.polls = n ∧ st.elapsed = sleptBefore interval n := by
  intro n
  induction n with
  | zero =>
    intro st h
    simp only [runFrom, Option.some.injEq] at h
    subst h
    exact ⟨rfl, rfl⟩
  | succ n ih =>
    intro st h
    obtain ⟨st1, hr, hs⟩ := runFrom_succ_some spec pollOnce interval _ st n h
    obtain ⟨hp, he⟩ := ih st1 hr
    obtain ⟨h1, h2, _⟩ := awaitStep_next spec interval st1 st _ hs
    refine ⟨by omega, ?_⟩
    rw [h2, he, hp]
    rfl

theorem sleptBefore_mono (interval : Nat → Nat) (j n : Nat) (h : j ≤ n) :
    sleptBefore interval j ≤ sleptBefore interval n := by
  induction n with
  | zero =>
    have h0 : j = 0 := by omega
    subst h0
    exact le_refl _
  | succ n ih =>
    by_cases hn : j = n + 1
    · subst hn
      exact le_refl _
    · have := ih (by omega)
      simp only [sleptBefore]
      omega

/-- A wait that is going on after `n + 1` polls has not reached the timeout
after the first `n + 1` sleeps. -/
theorem runFrom_init_within_timeout (spec : WaitSpecification) (pollOnce : Nat → PollOutcome)
    (interval : Nat → Nat) (n : Nat) (st : WaitState)
    (h : runFrom spec pollOnce interval WaitState.init (n + 1) = some st) :
    sleptBefore interval (n + 1) < spec.timeout := by
  obtain ⟨st1, _, hs⟩ := runFrom_succ_some spec pollOnce interval _ st n h
  obtain ⟨_, he⟩ := runFrom_init_polls_elapsed spec pollOnce interval (n + 1) st h
  obtain ⟨_, _, h3⟩ := awaitStep_next spec interval st1 st _ hs
  omega

/-! ## Lemmas on the target streak -/

theorem isTargetObservation_iff (spec : WaitSpecification) (o : PollOutcome) :
    isTargetObservation spec o = true ↔
      ∃ snapshot status, o = PollOutcome.found snapshot status ∧ status ∈ spec.target := by
  cases o with
  | notFound => simp [isTargetObservation]
  | error err => simp [isTargetObservation]
  | found snapshot status =>
    simp only [isTargetObservation, decide_eq_true_eq]
    constructor
    · intro h
      exact ⟨snapshot, status, rfl, h⟩
    · rintro ⟨s1, st1, heq, hmem⟩
      simp only [PollOutcome.found.injEq] at heq
      rw [heq.2]
      exact hmem

/-- The round on a snapshot whose status is in the target set. -/
theorem awaitStep_found_target (spec : WaitSpecification) (interval : Nat → Nat)
    (st : WaitState) (snapshot : FirewallTlsInspectionConfiguration) (status : String)
    (h : status ∈ spec.target) :
    awaitStep spec interval st (PollOutcome.found snapshot status)
      = if spec.minTargetStreak ≤ st.targetStreak + 1 then
          WaitStep.done { outcome := WaitResult.success (some snapshot), polls := st.polls + 1 }
        else
          sleepAndCheck spec (interval st.polls)
            { st with notFoundCount := 0, targetStreak := st.targetStreak + 1,
                      polls := st.polls + 1, lastKnownStatus := some status,
                      lastSnapshot := some snapshot } := by
  simp [awaitStep, h]

/-- The round on a snapshot whose status is not in the target set, pending or
not. -/
theorem awaitStep_found_other (spec : WaitSpecification) (interval : Nat → Nat)
    (st : WaitState) (snapshot : FirewallTlsInspectionConfiguration) (status : String)
    (h : status ∉ spec.target) :
    awaitStep spec interval st (PollOutcome.found snapshot status)
      = sleepAndCheck spec (interval st.polls)
          { st with notFoundCount := 0, targetStreak := 0, polls := st.polls + 1,
                    lastKnownStatus := some status, lastSnapshot := some snapshot } := by
  simp [awaitStep, h]

/-- The round on a not-found observation when the target set is not empty. -/
theorem awaitStep_notFound_target (spec : WaitSpecification) (interval : Nat → Nat)
    (st : WaitState) (h : spec.target ≠ []) :
    awaitStep spec interval st PollOutcome.notFound
      = if spec.notFoundTolerance < st.notFoundCount + 1 then
          WaitStep.done
            { outcome := WaitResult.failure WaitError.NotFoundExhausted, polls := st.polls + 1 }
        else
          sleepAndCheck spec (interval st.polls)
            { st with notFoundCount := st.notFoundCount + 1, targetStreak := 0,
                      polls := st.polls + 1 } := by
  simp [awaitStep, h]

/-- The round on a not-found observation when the target set is empty. -/
theorem awaitStep_notFound_empty (spec : WaitSpecification) (interval : Nat → Nat)
    (st : WaitState) (h : spec.target = []) :
    awaitStep spec interval st PollOutcome.notFound
      = if spec.notFoundTolerance < st.notFoundCount + 1 then
          WaitStep.done { outcome := WaitResult.success none, polls := st.polls + 1 }
        else
          sleepAndCheck spec (interval st.polls)
            { st with notFoundCount := st.notFoundCount + 1, polls := st.polls + 1 } := by
  simp [awaitStep, h]

/-- With a non-empty target set, a round that is not final either saw a
target status and lengthened the streak, which is still short, or saw
something else and reset the streak to 0. -/
theorem awaitStep_next_streak (spec : WaitSpecification) (interval : Nat → Nat)
    (st st' : WaitState) (o : PollOutcome) (hne : spec.target ≠ [])
    (h : awaitStep spec interval st o = WaitStep.next st') :
    (isTargetObservation spec o = true ∧ st'.targetStreak = st.targetStreak + 1
        ∧ st.targetStreak + 1 < spec.minTargetStreak)
      ∨ (isTargetObservation spec o = false ∧ st'.targetStreak = 0) := by
  cases o with
  | notFound =>
    rw [awaitStep_notFound_target spec interval st hne] at h
    split_ifs at h
    obtain ⟨_, h2⟩ := sleepAndCheck_next _ _ _ _ h
    subst h2
    exact Or.inr ⟨rfl, rfl⟩
  | error err => simp [awaitStep] at h
  | found snapshot status =>
    by_cases ht : status ∈ spec.target
    · rw [awaitStep_found_target spec interval st snapshot status ht] at h
      split_ifs at h with hm
      obtain ⟨_, h2⟩ := sleepAndCheck_next _ _ _ _ h
      subst h2
      exact Or.inl ⟨by simp [isTargetObservation, ht], rfl, by omega⟩
    · rw [awaitStep_found_other spec interval st snapshot status ht] at h
      obtain ⟨_, h2⟩ := sleepAndCheck_next _ _ _ _ h
      subst h2
      exact Or.inr ⟨by simp [isTargetObservation, ht], rfl⟩

/-- With a non-empty target set, a round ends in success only on a snapshot
whose status is in the target set and which brings the streak to
`minTargetStreak`; the success carries that snapshot. -/
theorem awaitStep_success (spec : WaitSpecification) (interval : Nat → Nat)
    (st : WaitState) (o : PollOutcome) (hne : spec.target ≠ [])
    (snap : Option FirewallTlsInspectionConfiguration) (n : Nat)
    (h : awaitStep spec interval st o
      = WaitStep.done { outcome := WaitResult.success snap, polls := n }) :
    ∃ snapshot status, o = PollOutcome.found snapshot status ∧ status ∈ spec.target
      ∧ spec.minTargetStreak ≤ st.targetStreak + 1 ∧ snap = some snapshot := by
  cases o with
  | notFound =>
    rw [awaitStep_notFound_target spec interval st hne] at h
    split_ifs at h
    · simp at h
    · obtain ⟨_, h2⟩ := sleepAndCheck_done _ _ _ _ h
      simp at h2
  | error err => simp [awaitStep] at h
  | found snapshot status =>
    by_cases ht : status ∈ spec.target
    · rw [awaitStep_found_target spec interval st snapshot status ht] at h
      split_ifs at h with hm
      · simp only [WaitStep.done.injEq, WaitRun.mk.injEq, WaitResult.success.injEq] at h
        exact ⟨snapshot, status, rfl, ht, hm, h.1.symm⟩
      · obtain ⟨_, h2⟩ := sleepAndCheck_done _ _ _ _ h
        simp at h2
    · rw [awaitStep_found_other spec interval st snapshot status ht] at h
      obtain ⟨_, h2⟩ := sleepAndCheck_done _ _ _ _ h
      simp at h2

/-- With a non-empty target set, the streak after `n` polls is the number of
target observations that end the sequence of the first `n` polls, and it is
short of `minTargetStreak`. -/
theorem runFrom_init_streak (spec : WaitSpecification) (pollOnce : Nat → PollOutcome)
    (interval : Nat → Nat) (hne : spec.target ≠ []) :
    ∀ (n : Nat) (st : WaitState), runFrom spec pollOnce interval WaitState.init n = some st →
      st.targetStreak ≤ n
      ∧ (∀ i, i < st.targetStreak → isTargetObservation spec (pollOnce (n - 1 - i)) = true)
      ∧ (st.targetStreak < n →
          isTargetObservation spec (pollOnce (n - 1 - st.targetStreak)) = false)
      ∧ st.targetStreak < max spec.minTargetStreak 1 := by
  intro n
  induction n with
  | zero =>
    intro st h
    simp only [runFrom, Option.some.injEq] at h
    subst h
    refine ⟨le_refl _, ?_, ?_, ?_⟩
    · intro i hi
      exact absurd hi (by simp [WaitState.init])
    · intro hi
      exact absurd hi (by simp [WaitState.init])
    · simp [WaitState.init]
  | succ n ih =>
    intro st h
    obtain ⟨st1, hr, hs⟩ := runFrom_succ_some spec pollOnce interval _ st n h
    obtain ⟨ha, hb, hc, _⟩ := ih st1 hr
    obtain ⟨hp, _⟩ := runFrom_init_polls_elapsed spec pollOnce interval n st1 hr
    rw [hp] at hs
    rcases awaitStep_next_streak spec interval st1 st _ hne hs with ⟨ht, hst, hlt⟩ | ⟨ht, hst⟩
    · refine ⟨by omega, ?_, ?_, ?_⟩
      · intro i hi
        cases i with
        | zero => simpa using ht
        | succ i =>
          have h1 : n + 1 - 1 - (i + 1) = n - 1 - i := by omega
          rw [h1]
          exact hb i (by omega)
      · intro hi
        have h1 : n + 1 - 1 - st.targetStreak = n - 1 - st1.targetStreak := by omega
        rw [h1]
        exact hc (by omega)
      · have := le_max_left spec.minTargetStreak 1
        omega
    · refine ⟨by omega, ?_, ?_, ?_⟩
      · intro i hi
        omega
      · intro _
        rw [hst]
        simpa using ht
      · have := le_max_right spec.minTargetStreak 1
        omega

/-! ## Lemmas on whole waits -/

theorem sleepAndCheck_of_lt (spec : WaitSpecification) (d : Nat) (st : WaitState)
    (h : st.elapsed + d < spec.timeout) :
    sleepAndCheck spec d st = WaitStep.next { st with elapsed := st.elapsed + d } := by
  rw [sleepAndCheck_eq]
  have h2 : ¬ spec.timeout ≤ st.elapsed + d := by omega
  simp [h2]

theorem sleepAndCheck_of_ge (spec : WaitSpecification) (d : Nat) (st : WaitState)
    (h : spec.timeout ≤ st.elapsed + d) :
    sleepAndCheck spec d st = timedOut st := by
  rw [sleepAndCheck_eq]
  simp [h]

/-- The wait is going on after `n` polls when none of the first `n` rounds is
final. -/
theorem runFrom_init_exists (spec : WaitSpecification) (pollOnce : Nat → PollOutcome)
    (interval : Nat → Nat) (n : Nat)
    (hstep : ∀ j st, j < n → runFrom spec pollOnce interval WaitState.init j = some st →
      ∀ run, awaitStep spec interval st (pollOnce j) ≠ WaitStep.done run) :
    ∃ st, runFrom spec pollOnce interval WaitState.init n = some st := by
  induction n with
  | zero => exact ⟨WaitState.init, rfl⟩
  | succ n ih =>
    obtain ⟨st1, hr⟩ := ih (fun j st hj h => hstep j st (by omega) h)
    obtain ⟨hp, _⟩ := runFrom_init_polls_elapsed spec pollOnce interval n st1 hr
    cases hs : awaitStep spec interval st1 (pollOnce st1.polls) with
    | done run =>
      rw [hp] at hs
      exact absurd hs (hstep n st1 (by omega) hr run)
    | next st2 => exact ⟨st2, runFrom_step spec pollOnce interval _ st1 st2 n hr hs⟩

/-- The outcome of the wait when the round after a run of `n` polls is
final. -/
theorem awaitStatus_done_at (spec : WaitSpecification) (pollOnce : Nat → PollOutcome)
    (interval : Nat → Nat) (n : Nat) (st : WaitState) (run : WaitRun)
    (hr : runFrom spec pollOnce interval WaitState.init n = some st)
    (hs : awaitStep spec interval st (pollOnce n) = WaitStep.done run) :
    ∀ fuel, n < fuel → awaitStatus pollOnce spec interval fuel = some run := by
  obtain ⟨hp, _⟩ := runFrom_init_polls_elapsed spec pollOnce interval n st hr
  rw [← hp] at hs
  exact awaitLoop_done_at spec pollOnce interval _ st n run hr hs

/-- A wait that has ended did so in the round after a run of `n` polls, having
made `n + 1` polls. -/
theorem awaitStatus_some (spec : WaitSpecification) (pollOnce : Nat → PollOutcome)
    (interval : Nat → Nat) (fuel : Nat) (run : WaitRun)
    (h : awaitStatus pollOnce spec interval fuel = some run) :
    ∃ n st, n < fuel ∧ runFrom spec pollOnce interval WaitState.init n = some st
      ∧ awaitStep spec interval st (pollOnce n) = WaitStep.done run ∧ run.polls = n + 1 := by
  obtain ⟨n, st, hn, hr, hs⟩ := awaitLoop_some spec pollOnce interval _ fuel run h
  obtain ⟨hp, _⟩ := runFrom_init_polls_elapsed spec pollOnce interval n st hr
  have hq := awaitStep_done_polls spec interval st _ run hs
  rw [hp] at hs hq
  exact ⟨n, st, hn, hr, hs, hq⟩

/-- With a non-empty target set, a poll that is made and completes a streak
ends the wait in success with its snapshot. -/
theorem awaitStep_of_completesStreak (spec : WaitSpecification) (pollOnce : Nat → PollOutcome)
    (interval : Nat → Nat) (hne : spec.target ≠ []) (k : Nat) (st : WaitState)
    (hr : runFrom spec pollOnce interval WaitState.init k = some st)
    (hc : completesStreak spec pollOnce k) :
    ∃ snapshot status, pollOnce k = PollOutcome.found snapshot status ∧ status ∈ spec.target
      ∧ awaitStep spec interval st (pollOnce k)
        = WaitStep.done { outcome := WaitResult.success (some snapshot), polls := k + 1 } := by
  obtain ⟨_, _, hmax, _⟩ := runFrom_init_streak spec pollOnce interval hne k st hr
  obtain ⟨hp, _⟩ := runFrom_init_polls_elapsed spec pollOnce interval k st hr
  have h0 := (hc 0 (by have := le_max_right spec.minTargetStreak 1; omega)).2
  rw [Nat.sub_zero] at h0
  obtain ⟨snapshot, status, hpoll, hmem⟩ := (isTargetObservation_iff spec _).1 h0
  have hm : spec.minTargetStreak ≤ st.targetStreak + 1 := by
    by_contra hlt
    have h1 : st.targetStreak + 1 < max spec.minTargetStreak 1 := by
      have := le_max_left spec.minTargetStreak 1
      omega
    obtain ⟨h2, h3⟩ := hc (st.targetStreak + 1) h1
    have h4 := hmax (by omega)
    have h5 : k - 1 - st.targetStreak = k - (st.targetStreak + 1) := by omega
    rw [h5, h3] at h4
    exact absurd h4 (by simp)
  refine ⟨snapshot, status, hpoll, hmem, ?_⟩
  rw [hpoll, awaitStep_found_target spec interval st snapshot status hmem, hp]
  simp [hm]

/-- With a non-empty target set, a wait that is going on after `j + 1` polls
has not seen poll `j` complete a streak. -/
theorem not_completesStreak_of_runFrom (spec : WaitSpecification)
    (pollOnce : Nat → PollOutcome) (interval : Nat → Nat) (hne : spec.target ≠ []) (j : Nat)
    (st : WaitState) (hr : runFrom spec pollOnce interval WaitState.init (j + 1) = some st) :
    ¬ completesStreak spec pollOnce j := by
  intro hc
  obtain ⟨st1, hr1, hs⟩ := runFrom_succ_some spec pollOnce interval _ st j hr
  obtain ⟨snapshot, status, _, _, hdone⟩ :=
    awaitStep_of_completesStreak spec pollOnce interval hne j st1 hr1 hc
  obtain ⟨hp, _⟩ := runFrom_init_polls_elapsed spec pollOnce interval j st1 hr1
  rw [hp, hdone] at hs
  exact absurd hs (by simp)

/-! ## Lemmas on the not-found count and on waits that see no target -/

/-- The not-found count stays within the tolerance while the wait goes on. -/
theorem awaitStep_next_notFoundCount (spec : WaitSpecification) (interval : Nat → Nat)
    (st st' : WaitState) (o : PollOutcome) (h : awaitStep spec interval st o = WaitStep.next st') :
    st'.notFoundCount ≤ spec.notFoundTolerance
      ∧ (o = PollOutcome.notFound → st'.notFoundCount = st.notFoundCount + 1)
      ∧ (o ≠ PollOutcome.notFound → st'.notFoundCount = 0) := by
  unfold awaitStep at h
  cases o with
  | notFound =>
    simp only at h
    split_ifs at h <;>
      (obtain ⟨_, h2⟩ := sleepAndCheck_next _ _ _ _ h
       subst h2
       exact ⟨by simp only; omega, fun _ => rfl, fun hc => absurd rfl hc⟩)
  | error err => exact absurd h (by simp)
  | found snapshot status =>
    simp only at h
    split_ifs at h <;>
      (obtain ⟨_, h2⟩ := sleepAndCheck_next _ _ _ _ h
       subst h2
       exact ⟨Nat.zero_le _, fun hc => absurd hc (by simp), fun _ => rfl⟩)

/-- When the first `p` polls return a snapshot and all later ones signal
not-found, the not-found count after `n` polls is `n - p`, within the
tolerance. -/
theorem runFrom_init_notFoundCount (spec : WaitSpecification) (pollOnce : Nat → PollOutcome)
    (interval : Nat → Nat) (p : Nat)
    (hfound : ∀ k, k < p → (pollOnce k).snapshot?.isSome = true)
    (hnf : ∀ k, p ≤ k → pollOnce k = PollOutcome.notFound) :
    ∀ (n : Nat) (st : WaitState), runFrom spec pollOnce interval WaitState.init n = some st →
      st.notFoundCount = n - p ∧ st.notFoundCount ≤ spec.notFoundTolerance := by
  intro n
  induction n with
  | zero =>
    intro st h
    simp only [runFrom, Option.some.injEq] at h
    subst h
    exact ⟨by simp [WaitState.init], Nat.zero_le _⟩
  | succ n ih =>
    intro st h
    obtain ⟨st1, hr, hs⟩ := runFrom_succ_some spec pollOnce interval _ st n h
    obtain ⟨hc, _⟩ := ih st1 hr
    obtain ⟨hp, _⟩ := runFrom_init_polls_elapsed spec pollOnce interval n st1 hr
    rw [hp] at hs
    obtain ⟨hle, h1, h2⟩ := awaitStep_next_notFoundCount spec interval st1 st _ hs
    refine ⟨?_, hle⟩
    by_cases hn : p ≤ n
    · rw [h1 (hnf n hn)]
      omega
    · have hne : pollOnce n ≠ PollOutcome.notFound := by
        intro hc2
        have := hfound n (by omega)
        rw [hc2] at this
        exact absurd this (by simp [PollOutcome.snapshot?])
      rw [h2 hne]
      omega

/-- A wait whose every poll returns a snapshot with a status outside the
target set ends, if it ends, by timing out after some poll, with the status
and snapshot of that poll. -/
theorem awaitStatus_no_target_timedOut (spec : WaitSpecification)
    (pollOnce : Nat → PollOutcome) (interval : Nat → Nat)
    (hall : ∀ k, ∃ snapshot status,
      pollOnce k = PollOutcome.found snapshot status ∧ status ∉ spec.target)
    (fuel : Nat) (run : WaitRun) (h : awaitStatus pollOnce spec interval fuel = some run) :
    ∃ k, run = { outcome := WaitResult.failure
                   (WaitError.TimedOut (pollOnce k).status? (pollOnce k).snapshot?)
                 polls := k + 1 }
      ∧ spec.timeout ≤ sleptBefore interval (k + 1) := by
  obtain ⟨k, st, _, hr, hs, _⟩ := awaitStatus_some spec pollOnce interval fuel run h
  obtain ⟨hp, he⟩ := runFrom_init_polls_elapsed spec pollOnce interval k st hr
  obtain ⟨snapshot, status, hpoll, hmem⟩ := hall k
  rw [hpoll, awaitStep_found_other spec interval st snapshot status hmem] at hs
  obtain ⟨h1, h2⟩ := sleepAndCheck_done _ _ _ _ hs
  refine ⟨k, ?_, ?_⟩
  · rw [h2, hpoll]
    simp [PollOutcome.status?, PollOutcome.snapshot?, hp]
  · simp only [hp, he] at h1
    exact h1

/-- A wait whose every poll returns a snapshot with a status outside the
target set is still going on after `n` polls when the first `n` sleeps stay
below the timeout. -/
theorem awaitStatus_no_target_running (spec : WaitSpecification)
    (pollOnce : Nat → PollOutcome) (interval : Nat → Nat)
    (hall : ∀ k, ∃ snapshot status,
      pollOnce k = PollOutcome.found snapshot status ∧ status ∉ spec.target)
    (n : Nat) (htime : sleptBefore interval n < spec.timeout) :
    ∃ st, runFrom spec pollOnce interval WaitState.init n = some st := by
  apply runFrom_init_exists
  intro j st hj hr run
  obtain ⟨hp, he⟩ := runFrom_init_polls_elapsed spec pollOnce interval j st hr
  obtain ⟨snapshot, status, hpoll, hmem⟩ := hall j
  have hmono := sleptBefore_mono interval (j + 1) n (by omega)
  simp only [sleptBefore] at hmono
  rw [hpoll, awaitStep_found_other spec interval st snapshot status hmem, sleepAndCheck_of_lt]
  · simp
  · simp only [hp, he]
    omega

theorem createdConf_disjoint (notFound : Error → Bool) (conn : Nat → Client) (id : String)
    (timeout : Nat) :
    List.Disjoint (waitFirewallTlsInspectionConfigurationCreatedConf notFound conn id timeout).Pending
      (waitFirewallTlsInspectionConfigurationCreatedConf notFound conn id timeout).Target := by
  intro a ha
  simp [waitFirewallTlsInspectionConfigurationCreatedConf] at ha

theorem updatedConf_disjoint (notFound : Error → Bool) (conn : Nat → Client) (id : String)
    (timeout : Nat) :
    List.Disjoint (waitFirewallTlsInspectionConfigurationUpdatedConf notFound conn id timeout).Pending
      (waitFirewallTlsInspectionConfigurationUpdatedConf notFound conn id timeout).Target := by
  intro a ha hb
  simp [waitFirewallTlsInspectionConfigurationUpdatedConf, statusChangePending,
    statusUpdated] at ha hb
  rw [ha] at hb
  exact absurd hb (by decide)

theorem deletedConf_disjoint (notFound : Error → Bool) (conn : Nat → Client) (id : String)
    (timeout : Nat) :
    List.Disjoint (waitFirewallTlsInspectionConfigurationDeletedConf notFound conn id timeout).Pending
      (waitFirewallTlsInspectionConfigurationDeletedConf notFound conn id timeout).Target := by
  intro a _ hb
  simp [waitFirewallTlsInspectionConfigurationDeletedConf] at hb

/-! ## The waiters' status sets, the status function -/

/-- C1: in each of the three waiters (created, updated, deleted) the Pending
statuses and the Target statuses of the `StateChangeConf` it builds are
disjoint: no status string is a member of both. -/
theorem waiter_pending_target_disjoint (notFound : Error → Bool) (conn : Nat → Client)
    (id : String) (timeout : Nat) :
    List.Disjoint (waitFirewallTlsInspectionConfigurationCreatedConf notFound conn id timeout).Pending
        (waitFirewallTlsInspectionConfigurationCreatedConf notFound conn id timeout).Target
      ∧ List.Disjoint (waitFirewallTlsInspectionConfigurationUpdatedConf notFound conn id timeout).Pending
        (waitFirewallTlsInspectionConfigurationUpdatedConf notFound conn id timeout).Target
      ∧ List.Disjoint (waitFirewallTlsInspectionConfigurationDeletedConf notFound conn id timeout).Pending
        (waitFirewallTlsInspectionConfigurationDeletedConf notFound conn id timeout).Target := by
  exact ⟨createdConf_disjoint notFound conn id timeout,
    updatedConf_disjoint notFound conn id timeout,
    deletedConf_disjoint notFound conn id timeout⟩

/-- C2: for every id, when the finder fails with an error that
`tfresource.NotFound` reports as not found, the refresh function yields the
absent outcome: a nil snapshot, the empty status and a nil error. -/
theorem status_not_found_is_absent (notFound : Error → Bool) (conn : Client) (id : String)
    (e : Error) (hfind : (findFirewallTlsInspectionConfigurationByID conn id).2 = some e)
    (hnf : notFound e = true) :
    statusFirewallTlsInspectionConfiguration notFound conn id
      = { result := none, state := "", err := none } := by
  unfold statusFirewallTlsInspectionConfiguration
  cases hf : findFirewallTlsInspectionConfigurationByID conn id with
  | mk out err =>
    rw [hf] at hfind
    simp only at hfind
    subst hfind
    simp [tfresourceNotFound, hnf]

/-- C2 on a service that answers with a `ResourceNotFoundException`. -/
theorem status_not_found_is_absent_witness :
    (findFirewallTlsInspectionConfigurationByID (clientFailing resourceNotFoundException) "tls-1").2
        = some (Error.notFoundError resourceNotFoundException { Id := some "tls-1" })
      ∧ statusFirewallTlsInspectionConfiguration sampleNotFound
          (clientFailing resourceNotFoundException) "tls-1"
        = { result := none, state := "", err := none } :=
  ⟨rfl, status_not_found_is_absent sampleNotFound (clientFailing resourceNotFoundException)
    "tls-1" (Error.notFoundError resourceNotFoundException { Id := some "tls-1" }) rfl rfl⟩

/-- C3: for every id, an error of the finder that is not a not-found error is
returned by the refresh function unchanged, with a nil snapshot and the empty
status; and when the finder succeeds with snapshot `s` the refresh function
returns `s`, the string value of `s.Status` (`""` when `Status` is nil) and a
nil error. -/
theorem status_propagates_error_and_snapshot (notFound : Error → Bool) (conn : Client)
    (id : String) :
    (∀ e, (findFirewallTlsInspectionConfigurationByID conn id).2 = some e →
        notFound e = false →
        statusFirewallTlsInspectionConfiguration notFound conn id
          = { result := none, state := "", err := some e })
      ∧ (∀ s, findFirewallTlsInspectionConfigurationByID conn id = (some s, none) →
        statusFirewallTlsInspectionConfiguration notFound conn id
          = { result := some s, state := awsToString s.Status, err := none })
      ∧ awsToString none = "" := by
  refine ⟨?_, ?_, rfl⟩
  · intro e hfind hnf
    unfold statusFirewallTlsInspectionConfiguration
    cases hf : findFirewallTlsInspectionConfigurationByID conn id with
    | mk out err =>
      rw [hf] at hfind
      simp only at hfind
      subst hfind
      simp [tfresourceNotFound, hnf]
  · intro s hfind
    unfold statusFirewallTlsInspectionConfiguration
    rw [hfind]
    simp [tfresourceNotFound]

/-- C3 on a service that throttles, and on one that holds the configuration in
status `Normal`. -/
theorem status_propagates_error_and_snapshot_witness :
    statusFirewallTlsInspectionConfiguration sampleNotFound (clientFailing throttlingException)
        "tls-1" = { result := none, state := "", err := some (Error.api throttlingException) }
      ∧ statusFirewallTlsInspectionConfiguration sampleNotFound (clientWithStatus "Normal") "tls-1"
        = { result := some (sampleConfiguration "Normal"), state := "Normal", err := none } :=
  ⟨(status_propagates_error_and_snapshot sampleNotFound (clientFailing throttlingException)
      "tls-1").1 (Error.api throttlingException) rfl rfl,
   (status_propagates_error_and_snapshot sampleNotFound (clientWithStatus "Normal")
      "tls-1").2.1 (sampleConfiguration "Normal") rfl⟩

/-! ## Waits that reach their target -/

/-- C4 (as stated, refuted): the create waiter with a timeout of one tick and
a sleep of one tick, on a service that always answers `Normal`. Every poll
returns a target status, yet the wait makes one poll and times out: it does not
succeed after 2 polls. And a wait with `minTargetStreak = 0` whose first poll
returns a target status succeeds after 1 poll, not after 0. -/
theorem created_all_target_short_timeout :
    ((createdAlwaysNormal 1).toWaitSpecification 20 1).target ≠ []
      ∧ (∀ k, isTargetObservation ((createdAlwaysNormal 1).toWaitSpecification 20 1)
        ((createdAlwaysNormal 1).Refresh k).toPollOutcome = true)
      ∧ (∀ fuel, 1 ≤ fuel →
        (createdAlwaysNormal 1).WaitForStateContext 20 1 everyTick fuel
          = some { outcome := WaitResult.failure
                     (WaitError.TimedOut (some "Normal") (some (sampleConfiguration "Normal")))
                   polls := 1 })
      ∧ awaitStatus (fun _ => PollOutcome.found (sampleConfiguration "Normal") "Normal")
          { scenarioSpec with minTargetStreak := 0 } everyTick 1
        = some { outcome := WaitResult.success (some (sampleConfiguration "Normal"))
                 polls := 1 } := by
  refine ⟨by decide, fun _ => rfl, ?_, rfl⟩
  intro fuel hfuel
  exact awaitLoop_mono _ _ _ 1 _ _ (by decide) fuel hfuel

/-- C4 (amended): for every wait with a non-empty target set and
`minTargetStreak ≥ 1` (2 for the create and update waiters), if every poll
returns a snapshot whose status is in the target set and the sleeps before the
`minTargetStreak`-th poll stay below the timeout, the wait is still going on
after fewer polls and succeeds after exactly `minTargetStreak` polls, with the
snapshot of the last of them. -/
theorem wait_all_target_succeeds (spec : WaitSpecification) (pollOnce : Nat → PollOutcome)
    (interval : Nat → Nat) (hne : spec.target ≠ []) (hm : 1 ≤ spec.minTargetStreak)
    (hall : ∀ k, isTargetObservation spec (pollOnce k) = true)
    (htime : sleptBefore interval (spec.minTargetStreak - 1) < spec.timeout) :
    (∀ fuel, fuel < spec.minTargetStreak → awaitStatus pollOnce spec interval fuel = none)
      ∧ ∀ fuel, spec.minTargetStreak ≤ fuel →
        awaitStatus pollOnce spec interval fuel
          = some { outcome := WaitResult.success (pollOnce (spec.minTargetStreak - 1)).snapshot?
                   polls := spec.minTargetStreak } := by
  have hrun : ∃ st, runFrom spec pollOnce interval WaitState.init (spec.minTargetStreak - 1)
      = some st := by
    apply runFrom_init_exists
    intro j st hj hr run
    obtain ⟨hp, he⟩ := runFrom_init_polls_elapsed spec pollOnce interval j st hr
    obtain ⟨ha, _, _, _⟩ := runFrom_init_streak spec pollOnce interval hne j st hr
    obtain ⟨snapshot, status, hpoll, hmem⟩ := (isTargetObservation_iff spec _).1 (hall j)
    have hmono := sleptBefore_mono interval (j + 1) (spec.minTargetStreak - 1) (by omega)
    simp only [sleptBefore] at hmono
    rw [hpoll, awaitStep_found_target spec interval st snapshot status hmem]
    have hlt : ¬ spec.minTargetStreak ≤ st.targetStreak + 1 := by omega
    rw [if_neg hlt, sleepAndCheck_of_lt]
    · simp
    · simp only [hp, he]
      omega
  obtain ⟨st, hr⟩ := hrun
  have hc : completesStreak spec pollOnce (spec.minTargetStreak - 1) := by
    intro i hi
    have h1 : max spec.minTargetStreak 1 = spec.minTargetStreak := max_eq_left hm
    exact ⟨by omega, hall _⟩
  obtain ⟨snapshot, status, hpoll, _, hdone⟩ :=
    awaitStep_of_completesStreak spec pollOnce interval hne _ st hr hc
  constructor
  · intro fuel hfuel
    obtain ⟨st', hr'⟩ := runFrom_prefix spec pollOnce interval _ _ st hr fuel (by omega)
    exact (awaitLoop_eq_none_iff spec pollOnce interval fuel _).2 ⟨st', hr'⟩
  · intro fuel hfuel
    have h1 := awaitStatus_done_at spec pollOnce interval _ st _ hr hdone fuel (by omega)
    have h2 : spec.minTargetStreak - 1 + 1 = spec.minTargetStreak := by omega
    rw [h1, hpoll, h2]
    rfl

/-- C4 (amended) on the create waiter and on the update waiter, with a timeout
of 1800 ticks: success after exactly 2 polls. -/
theorem wait_all_target_succeeds_witness :
    (∀ fuel, 2 ≤ fuel →
        (createdAlwaysNormal 1800).WaitForStateContext 20 1 everyTick fuel
          = some { outcome := WaitResult.success (some (sampleConfiguration "Normal"))
                   polls := 2 })
      ∧ (∀ fuel, 2 ≤ fuel →
        (updatedAlwaysUpdated 1800).WaitForStateContext 20 1 everyTick fuel
          = some { outcome := WaitResult.success (some (sampleConfiguration "Updated"))
                   polls := 2 }) :=
  ⟨(wait_all_target_succeeds ((createdAlwaysNormal 1800).toWaitSpecification 20 1)
      (fun k => ((createdAlwaysNormal 1800).Refresh k).toPollOutcome) everyTick
      (by decide) (by decide) (fun _ => rfl) (by decide)).2,
   (wait_all_target_succeeds ((updatedAlwaysUpdated 1800).toWaitSpecification 20 1)
      (fun k => ((updatedAlwaysUpdated 1800).Refresh k).toPollOutcome) everyTick
      (by decide) (by decide) (fun _ => rfl) (by decide)).2⟩

/-- C5 (as stated, refuted): the scenario `Pending, Pending, Normal, Normal`
with a timeout of 3 ticks and a sleep of one tick. The target set is not
empty and poll 4 is the first to complete 2 consecutive target observations,
yet the wait does not report success at poll 4: the sleep after poll 3 brings
the elapsed time to the timeout and the wait ends there, timed out. -/
theorem scenario_times_out_before_streak :
    scenarioSpecShortTimeout.target ≠ []
      ∧ completesStreak scenarioSpecShortTimeout scenarioSequence 3
      ∧ (∀ j, j < 3 → ¬ completesStreak scenarioSpecShortTimeout scenarioSequence j)
      ∧ ∀ fuel, 3 ≤ fuel →
        awaitStatus scenarioSequence scenarioSpecShortTimeout everyTick fuel
          = some { outcome := WaitResult.failure
                     (WaitError.TimedOut (some "Normal")
                       (some (namedConfiguration "poll-3" "Normal")))
                   polls := 3 } := by
  refine ⟨by decide, ?_, ?_, ?_⟩
  · intro i hi
    have h2 : i < 2 := hi
    interval_cases i
    · exact ⟨by omega, rfl⟩
    · exact ⟨by omega, rfl⟩
  · intro j hj hc
    have h0 := (hc 0 (by decide)).2
    have h1 := (hc 1 (by decide)).2
    interval_cases j
    · exact absurd h0 (by decide)
    · exact absurd h0 (by decide)
    · exact absurd h1 (by decide)
  · intro fuel hfuel
    exact awaitLoop_mono _ _ _ 3 _ _ (by rfl) fuel hfuel

/-- C5 (amended): for every poll sequence and every wait with a non-empty
target set, a wait that reports success does so at the first poll that
completes `minTargetStreak` consecutive target observations and at no earlier
poll, with that poll's snapshot; a poll that completes a streak ends the wait
in success provided the wait is still going on when it is made (after the `k`
polls before it); and a round on an observation that is not a target one
leaves the streak at 0. -/
theorem wait_succeeds_at_first_streak (spec : WaitSpecification)
    (pollOnce : Nat → PollOutcome) (interval : Nat → Nat) (hne : spec.target ≠ []) :
    (∀ fuel snap n,
        awaitStatus pollOnce spec interval fuel
          = some { outcome := WaitResult.success snap, polls := n } →
        ∃ k, n = k + 1 ∧ completesStreak spec pollOnce k
          ∧ (∀ j, j < k → ¬ completesStreak spec pollOnce j)
          ∧ snap = (pollOnce k).snapshot? ∧ (pollOnce k).snapshot?.isSome = true)
      ∧ (∀ k, awaitStatus pollOnce spec interval k = none → completesStreak spec pollOnce k →
        ∀ fuel, k < fuel →
          awaitStatus pollOnce spec interval fuel
            = some { outcome := WaitResult.success (pollOnce k).snapshot?, polls := k + 1 })
      ∧ (∀ st st' o, isTargetObservation spec o = false →
        awaitStep spec interval st o = WaitStep.next st' → st'.targetStreak = 0) := by
  refine ⟨?_, ?_, ?_⟩
  · intro fuel snap n h
    obtain ⟨k, st, _, hr, hs, hq⟩ := awaitStatus_some spec pollOnce interval fuel _ h
    obtain ⟨snapshot, status, hpoll, hmem, hm, hsnap⟩ :=
      awaitStep_success spec interval st _ hne snap n hs
    obtain ⟨ha, hb, _, _⟩ := runFrom_init_streak spec pollOnce interval hne k st hr
    refine ⟨k, hq, ?_, ?_, ?_, ?_⟩
    · intro i hi
      cases i with
      | zero =>
        refine ⟨by omega, ?_⟩
        rw [Nat.sub_zero, hpoll]
        simp [isTargetObservation, hmem]
      | succ i =>
        have h1 : i + 1 < spec.minTargetStreak := by
          rcases max_cases spec.minTargetStreak 1 with ⟨h2, _⟩ | ⟨h2, _⟩ <;> omega
        have h3 : k - (i + 1) = k - 1 - i := by omega
        rw [h3]
        exact ⟨by omega, hb i (by omega)⟩
    · intro j hj
      obtain ⟨st', hr'⟩ := runFrom_prefix spec pollOnce interval _ k st hr (j + 1) (by omega)
      exact not_completesStreak_of_runFrom spec pollOnce interval hne j st' hr'
    · rw [hsnap, hpoll]
      rfl
    · rw [hpoll]
      rfl
  · intro k hnone hc fuel hfuel
    obtain ⟨st, hr⟩ := (awaitLoop_eq_none_iff spec pollOnce interval k _).1 hnone
    obtain ⟨snapshot, status, hpoll, _, hdone⟩ :=
      awaitStep_of_completesStreak spec pollOnce interval hne k st hr hc
    rw [awaitStatus_done_at spec pollOnce interval k st _ hr hdone fuel hfuel, hpoll]
    rfl
  · intro st st' o ho h
    rcases awaitStep_next_streak spec interval st st' o hne h with ⟨h1, _, _⟩ | ⟨_, h2⟩
    · rw [ho] at h1
      exact absurd h1 (by simp)
    · exact h2

/-- C5 (amended) on the scenario `Pending, Pending, Normal, Normal` with a
timeout of 10 ticks: the wait is still going on after 3 polls, poll 4 is the first to complete a streak, and the wait
succeeds on it with the snapshot of poll 4. -/
theorem wait_succeeds_at_first_streak_witness :
    awaitStatus scenarioSequence scenarioSpec everyTick 3 = none
      ∧ completesStreak scenarioSpec scenarioSequence 3
      ∧ (∀ j, j < 3 → ¬ completesStreak scenarioSpec scenarioSequence j)
      ∧ ∀ fuel, 3 < fuel →
        awaitStatus scenarioSequence scenarioSpec everyTick fuel
          = some { outcome := WaitResult.success (some (namedConfiguration "poll-4" "Normal"))
                   polls := 4 } := by
  have hc : completesStreak scenarioSpec scenarioSequence 3 := by
    intro i hi
    have h2 : i < 2 := hi
    interval_cases i
    · exact ⟨by omega, rfl⟩
    · exact ⟨by omega, rfl⟩
  have h := wait_succeeds_at_first_streak scenarioSpec scenarioSequence everyTick (by decide)
  have hsucc := h.2.1 3 rfl hc
  refine ⟨rfl, hc, ?_, hsucc⟩
  obtain ⟨k, hk, _, hfirst, _⟩ := h.1 4 _ 4 (hsucc 4 (by omega))
  have hk3 : k = 3 := by omega
  subst hk3
  exact hfirst

/-! ## Waits for disappearance -/

/-- C6 (as stated, refuted): the delete waiter with a tolerance of 1 and a
sleep of one tick. On the sequence `Deleting, NotFound, NotFound` with a
timeout of 2 ticks the wait does not succeed after the 3rd poll: it ends after
the 2nd, timed out. And when every poll signals not-found, with a timeout of
one tick, the second poll would bring the count above the tolerance, yet the
wait ends after the first poll, timed out. -/
theorem deletion_times_out_before_tolerance :
    ((deletedDeletingThenGone 2).toWaitSpecification 1 1).target = []
      ∧ ((deletedDeletingThenGone 2).toWaitSpecification 1 1).notFoundTolerance = 1
      ∧ ((deletedDeletingThenGone 2).Refresh 0).toPollOutcome
        = PollOutcome.found (sampleConfiguration "Deleting") "Deleting"
      ∧ (∀ k, ((deletedDeletingThenGone 2).Refresh (k + 1)).toPollOutcome
        = PollOutcome.notFound)
      ∧ (∀ fuel, 2 ≤ fuel →
        (deletedDeletingThenGone 2).WaitForStateContext 1 1 everyTick fuel
          = some { outcome := WaitResult.failure
                     (WaitError.TimedOut (some "Deleting")
                       (some (sampleConfiguration "Deleting")))
                   polls := 2 })
      ∧ (∀ k, ((deletedNeverFound 1).Refresh k).toPollOutcome = PollOutcome.notFound)
      ∧ (∀ fuel, 1 ≤ fuel →
        (deletedNeverFound 1).WaitForStateContext 1 1 everyTick fuel
          = some { outcome := WaitResult.failure (WaitError.TimedOut none none)
                   polls := 1 }) := by
  refine ⟨rfl, rfl, rfl, fun _ => rfl, ?_, fun _ => rfl, ?_⟩
  · intro fuel hfuel
    exact awaitLoop_mono _ _ _ 2 _ _ (by rfl) fuel hfuel
  · intro fuel hfuel
    exact awaitLoop_mono _ _ _ 1 _ _ (by rfl) fuel hfuel

/-- C6 (amended): for a deletion wait (empty target set), when the first `p`
polls return a snapshot and every later poll signals not-found (`p = 0`: every
poll signals not-found), a success comes exactly when the count of consecutive
not-found observations first exceeds `notFoundTolerance`, and not before: after
exactly `p + notFoundTolerance + 1` polls, with a null snapshot; the wait does
succeed at that poll provided it is still going on when the poll is made (after
the polls before it), and it is whenever the sleeps before that poll stay
below the timeout. -/
theorem deletion_wait_succeeds_past_tolerance (spec : WaitSpecification)
    (pollOnce : Nat → PollOutcome) (interval : Nat → Nat) (p : Nat)
    (hempty : spec.target = [])
    (hfound : ∀ k, k < p → (pollOnce k).snapshot?.isSome = true)
    (hnf : ∀ k, p ≤ k → pollOnce k = PollOutcome.notFound) :
    (∀ fuel snap n,
        awaitStatus pollOnce spec interval fuel
          = some { outcome := WaitResult.success snap, polls := n } →
        n = p + spec.notFoundTolerance + 1 ∧ snap = none)
      ∧ (awaitStatus pollOnce spec interval (p + spec.notFoundTolerance) = none →
        ∀ fuel, p + spec.notFoundTolerance < fuel →
          awaitStatus pollOnce spec interval fuel
            = some { outcome := WaitResult.success none
                     polls := p + spec.notFoundTolerance + 1 })
      ∧ (sleptBefore interval (p + spec.notFoundTolerance) < spec.timeout →
        ∀ fuel, fuel ≤ p + spec.notFoundTolerance →
          awaitStatus pollOnce spec interval fuel = none) := by
  have hother : ∀ k, k < p → ∃ snapshot status,
      pollOnce k = PollOutcome.found snapshot status ∧ status ∉ spec.target := by
    intro k hk
    have h1 := hfound k hk
    cases hpoll : pollOnce k with
    | notFound => rw [hpoll] at h1; exact absurd h1 (by simp [PollOutcome.snapshot?])
    | error err => rw [hpoll] at h1; exact absurd h1 (by simp [PollOutcome.snapshot?])
    | found snapshot status => exact ⟨snapshot, status, rfl, by simp [hempty]⟩
  refine ⟨?_, ?_, ?_⟩
  · intro fuel snap n h
    obtain ⟨k, st, _, hr, hs, hq⟩ := awaitStatus_some spec pollOnce interval fuel _ h
    obtain ⟨hc, hle⟩ := runFrom_init_notFoundCount spec pollOnce interval p hfound hnf k st hr
    by_cases hk : p ≤ k
    · rw [hnf k hk, awaitStep_notFound_empty spec interval st hempty] at hs
      split_ifs at hs with hlt
      · simp only [WaitStep.done.injEq, WaitRun.mk.injEq, WaitResult.success.injEq] at hs
        simp only at hq
        exact ⟨by omega, hs.1.symm⟩
      · obtain ⟨_, h2⟩ := sleepAndCheck_done _ _ _ _ hs
        simp at h2
    · obtain ⟨snapshot, status, hpoll, hmem⟩ := hother k (by omega)
      rw [hpoll, awaitStep_found_other spec interval st snapshot status hmem] at hs
      obtain ⟨_, h2⟩ := sleepAndCheck_done _ _ _ _ hs
      simp at h2
  · intro hnone fuel hfuel
    obtain ⟨st, hr⟩ := (awaitLoop_eq_none_iff spec pollOnce interval _ _).1 hnone
    obtain ⟨hc, _⟩ := runFrom_init_notFoundCount spec pollOnce interval p hfound hnf _ st hr
    obtain ⟨hp, _⟩ := runFrom_init_polls_elapsed spec pollOnce interval _ st hr
    apply awaitStatus_done_at spec pollOnce interval _ st _ hr _ fuel hfuel
    rw [hnf _ (by omega), awaitStep_notFound_empty spec interval st hempty]
    have hlt : spec.notFoundTolerance < st.notFoundCount + 1 := by omega
    rw [if_pos hlt, hp]
  · intro htime fuel hfuel
    have hrun : ∃ st, runFrom spec pollOnce interval WaitState.init
        (p + spec.notFoundTolerance) = some st := by
      apply runFrom_init_exists
      intro j st hj hr run
      obtain ⟨hp, he⟩ := runFrom_init_polls_elapsed spec pollOnce interval j st hr
      obtain ⟨hc, _⟩ := runFrom_init_notFoundCount spec pollOnce interval p hfound hnf j st hr
      have hmono := sleptBefore_mono interval (j + 1) (p + spec.notFoundTolerance) (by omega)
      simp only [sleptBefore] at hmono
      by_cases hk : p ≤ j
      · rw [hnf j hk, awaitStep_notFound_empty spec interval st hempty]
        have hlt : ¬ spec.notFoundTolerance < st.notFoundCount + 1 := by omega
        rw [if_neg hlt, sleepAndCheck_of_lt]
        · simp
        · simp only [hp, he]
          omega
      · obtain ⟨snapshot, status, hpoll, hmem⟩ := hother j (by omega)
        rw [hpoll, awaitStep_found_other spec interval st snapshot status hmem,
          sleepAndCheck_of_lt]
        · simp
        · simp only [hp, he]
          omega
    obtain ⟨st, hr⟩ := hrun
    obtain ⟨st', hr'⟩ := runFrom_prefix spec pollOnce interval _ _ st hr fuel hfuel
    exact (awaitLoop_eq_none_iff spec pollOnce interval fuel _).2 ⟨st', hr'⟩

/-- C6 (amended) on the delete waiter with a tolerance of 1, a timeout of 1800
ticks and the sequence `Deleting, NotFound, NotFound`: no success after the 2nd
poll, success after the 3rd. -/
theorem deletion_wait_succeeds_past_tolerance_witness :
    (deletedDeletingThenGone 1800).WaitForStateContext 1 1 everyTick 2 = none
      ∧ ∀ fuel, 2 < fuel →
        (deletedDeletingThenGone 1800).WaitForStateContext 1 1 everyTick fuel
          = some { outcome := WaitResult.success none, polls := 3 } := by
  have h := deletion_wait_succeeds_past_tolerance
    ((deletedDeletingThenGone 1800).toWaitSpecification 1 1)
    (fun k => ((deletedDeletingThenGone 1800).Refresh k).toPollOutcome) everyTick 1 rfl
    (fun k hk => by
      have h0 : k = 0 := by omega
      subst h0
      rfl)
    (fun k hk => by
      cases k with
      | zero => omega
      | succ k => rfl)
  exact ⟨h.2.2 (by decide) 2 (by decide), h.2.1 (h.2.2 (by decide) 2 (by decide))⟩

/-! ## Waits that time out or fail -/

/-- C7: for every wait specification (its pending and target sets disjoint,
its timeout positive), if every poll returns a status in the pending set, the
wait never reports success, is still going on while the elapsed time is below
the timeout, and ends with the timed-out failure once the elapsed time reaches
the timeout: when the sleep after poll `n + 1` is the first to bring the
elapsed time to the timeout, the wait fails with `TimedOut` after exactly
`n + 1` polls, carrying the status and snapshot of the last poll. -/
theorem pending_wait_times_out (spec : WaitSpecification) (pollOnce : Nat → PollOutcome)
    (interval : Nat → Nat) (n : Nat) (hwf : spec.WellFormed)
    (hpend : ∀ k, ∃ snapshot status,
      pollOnce k = PollOutcome.found snapshot status ∧ status ∈ spec.pending)
    (hlt : sleptBefore interval n < spec.timeout)
    (hge : spec.timeout ≤ sleptBefore interval (n + 1)) :
    (∀ fuel run, awaitStatus pollOnce spec interval fuel = some run →
        ∀ snap, run.outcome ≠ WaitResult.success snap)
      ∧ (∀ fuel, fuel ≤ n → awaitStatus pollOnce spec interval fuel = none)
      ∧ (∀ fuel, n < fuel →
        awaitStatus pollOnce spec interval fuel
          = some { outcome := WaitResult.failure
                     (WaitError.TimedOut (pollOnce n).status? (pollOnce n).snapshot?)
                   polls := n + 1 }) := by
  have hall : ∀ k, ∃ snapshot status,
      pollOnce k = PollOutcome.found snapshot status ∧ status ∉ spec.target := by
    intro k
    obtain ⟨snapshot, status, hpoll, hmem⟩ := hpend k
    exact ⟨snapshot, status, hpoll, fun ht => hwf.1 hmem ht⟩
  obtain ⟨st, hr⟩ := awaitStatus_no_target_running spec pollOnce interval hall n hlt
  refine ⟨?_, ?_, ?_⟩
  · intro fuel run h snap hsucc
    obtain ⟨k, hk, _⟩ := awaitStatus_no_target_timedOut spec pollOnce interval hall fuel run h
    rw [hk] at hsucc
    exact absurd hsucc (by simp)
  · intro fuel hfuel
    obtain ⟨st', hr'⟩ := runFrom_prefix spec pollOnce interval _ _ st hr fuel hfuel
    exact (awaitLoop_eq_none_iff spec pollOnce interval fuel _).2 ⟨st', hr'⟩
  · intro fuel hfuel
    obtain ⟨hp, he⟩ := runFrom_init_polls_elapsed spec pollOnce interval n st hr
    obtain ⟨snapshot, status, hpoll, hmem⟩ := hall n
    apply awaitStatus_done_at spec pollOnce interval n st _ hr _ fuel hfuel
    rw [hpoll, awaitStep_found_other spec interval st snapshot status hmem, sleepAndCheck_of_ge]
    · simp [timedOut, PollOutcome.status?, PollOutcome.snapshot?, hp]
    · simp only [hp, he]
      simp only [sleptBefore] at hge
      exact hge

/-- C7 on the update waiter seeing `Pending` and on the delete waiter seeing
`Deleting`, with a timeout of 5 ticks: timed out after the 5th poll. -/
theorem pending_wait_times_out_witness :
    (∀ fuel, 4 < fuel →
        (updatedAlways "Pending" 5).WaitForStateContext 20 1 everyTick fuel
          = some { outcome := WaitResult.failure
                     (WaitError.TimedOut (some "Pending") (some (sampleConfiguration "Pending")))
                   polls := 5 })
      ∧ (∀ fuel, 4 < fuel →
        (deletedAlways "Deleting" 5).WaitForStateContext 20 1 everyTick fuel
          = some { outcome := WaitResult.failure
                     (WaitError.TimedOut (some "Deleting") (some (sampleConfiguration "Deleting")))
                   polls := 5 }) :=
  ⟨(pending_wait_times_out ((updatedAlways "Pending" 5).toWaitSpecification 20 1)
      (fun k => ((updatedAlways "Pending" 5).Refresh k).toPollOutcome) everyTick 4
      ⟨updatedConf_disjoint sampleNotFound (fun _ => clientWithStatus "Pending") "tls-1" 5,
        by decide⟩
      (fun _ => ⟨sampleConfiguration "Pending", "Pending", rfl, by decide⟩)
      (by decide) (by decide)).2.2,
   (pending_wait_times_out ((deletedAlways "Deleting" 5).toWaitSpecification 20 1)
      (fun k => ((deletedAlways "Deleting" 5).Refresh k).toPollOutcome) everyTick 4
      ⟨deletedConf_disjoint sampleNotFound (fun _ => clientWithStatus "Deleting") "tls-1" 5,
        by decide⟩
      (fun _ => ⟨sampleConfiguration "Deleting", "Deleting", rfl, by decide⟩)
      (by decide) (by decide)).2.2⟩

/-- C8: for every `k ≥ 1`, if the wait is still going on after the first
`k - 1` polls (none of them ended it) and the `k`-th call of the refresh
function returns an error, the wait fails at once with that error as a poll
failure, having called the refresh function exactly `k` times. -/
theorem poll_error_fails_wait (defaultNotFoundChecks : Nat)
    (defaultContinuousTargetOccurence : Nat) (conf : StateChangeConf) (interval : Nat → Nat)
    (k : Nat) (e : Error) (hk : 1 ≤ k)
    (hrun : conf.WaitForStateContext defaultNotFoundChecks defaultContinuousTargetOccurence
      interval (k - 1) = none)
    (herr : (conf.Refresh (k - 1)).err = some e) :
    ∀ fuel, k ≤ fuel →
      conf.WaitForStateContext defaultNotFoundChecks defaultContinuousTargetOccurence
        interval fuel
        = some { outcome := WaitResult.failure (WaitError.PollFailed e), polls := k } := by
  intro fuel hfuel
  obtain ⟨st, hr⟩ := (awaitLoop_eq_none_iff _ _ _ _ _).1 hrun
  obtain ⟨hp, _⟩ := runFrom_init_polls_elapsed _ _ _ _ st hr
  apply awaitStatus_done_at _ _ _ (k - 1) st _ hr _ fuel (by omega)
  have hpoll : (conf.Refresh (k - 1)).toPollOutcome = PollOutcome.error e := by
    simp [RefreshResult.toPollOutcome, herr]
  simp only [hpoll, awaitStep, hp]
  have h1 : k - 1 + 1 = k := by omega
  rw [h1]

/-- C8 on the update waiter when the third call is throttled: with room for 10
polls the wait fails after exactly 3. -/
theorem poll_error_fails_wait_witness :
    (updatedFailingOnThirdCall 1800).WaitForStateContext 20 1 everyTick 2 = none
      ∧ (updatedFailingOnThirdCall 1800).WaitForStateContext 20 1 everyTick 10
        = some { outcome := WaitResult.failure
                   (WaitError.PollFailed (Error.api throttlingException))
                 polls := 3 } :=
  ⟨rfl, poll_error_fails_wait 20 1 (updatedFailingOnThirdCall 1800) everyTick 3
    (Error.api throttlingException) (by decide) rfl rfl 10 (by decide)⟩

/-- C9 (as stated, refuted): the create waiter and the update waiter with a
timeout of 20 ticks and a sleep of one tick, on a service that never has the
configuration. The target set is not empty, the tolerance is 20 and every poll
signals not-found, yet the wait does not fail with `NotFoundExhausted` on the
21st poll: the sleep after the 20th poll brings the elapsed time to the
timeout and the wait ends there, timed out. -/
theorem never_found_times_out_before_exhaustion :
    ((createdNeverFound 20).toWaitSpecification 20 1).target ≠ []
      ∧ ((createdNeverFound 20).toWaitSpecification 20 1).notFoundTolerance = 20
      ∧ (∀ k, ((createdNeverFound 20).Refresh k).toPollOutcome = PollOutcome.notFound)
      ∧ (∀ fuel, 20 ≤ fuel →
        (createdNeverFound 20).WaitForStateContext 20 1 everyTick fuel
          = some { outcome := WaitResult.failure (WaitError.TimedOut none none)
                   polls := 20 })
      ∧ ((updatedNeverFound 20).toWaitSpecification 20 1).target ≠ []
      ∧ ((updatedNeverFound 20).toWaitSpecification 20 1).notFoundTolerance = 20
      ∧ (∀ k, ((updatedNeverFound 20).Refresh k).toPollOutcome = PollOutcome.notFound)
      ∧ (∀ fuel, 20 ≤ fuel →
        (updatedNeverFound 20).WaitForStateContext 20 1 everyTick fuel
          = some { outcome := WaitResult.failure (WaitError.TimedOut none none)
                   polls := 20 }) := by
  refine ⟨by decide, rfl, fun _ => rfl, ?_, by decide, rfl, fun _ => rfl, ?_⟩
  · intro fuel hfuel
    exact awaitLoop_mono _ _ _ 20 _ _ (by rfl) fuel hfuel
  · intro fuel hfuel
    exact awaitLoop_mono _ _ _ 20 _ _ (by rfl) fuel hfuel

/-- C9 (amended): for a wait with a non-empty target set (the create and
update waiters, whose tolerance `NotFoundChecks` is 20), a not-found poll never
counts toward success: the round on it never ends in success and, when the
wait goes on, leaves the streak at 0. If every poll signals not-found the wait
never succeeds, and it fails with `NotFoundExhausted` as soon as the number of
consecutive not-found observations exceeds the tolerance, on poll
`notFoundTolerance + 1` (the 21st), provided the wait is still going on when
that poll is made, and it is whenever the sleeps before that poll stay below
the timeout. -/
theorem not_found_exhausts_wait (spec : WaitSpecification) (pollOnce : Nat → PollOutcome)
    (interval : Nat → Nat) (hne : spec.target ≠ []) :
    (∀ st run, awaitStep spec interval st PollOutcome.notFound = WaitStep.done run →
        ∀ snap, run.outcome ≠ WaitResult.success snap)
      ∧ (∀ st st', awaitStep spec interval st PollOutcome.notFound = WaitStep.next st' →
        st'.targetStreak = 0)
      ∧ ((∀ k, pollOnce k = PollOutcome.notFound) →
        (∀ fuel run, awaitStatus pollOnce spec interval fuel = some run →
            ∀ snap, run.outcome ≠ WaitResult.success snap)
          ∧ (awaitStatus pollOnce spec interval spec.notFoundTolerance = none →
            ∀ fuel, spec.notFoundTolerance < fuel →
              awaitStatus pollOnce spec interval fuel
                = some { outcome := WaitResult.failure WaitError.NotFoundExhausted
                         polls := spec.notFoundTolerance + 1 })
          ∧ (sleptBefore interval spec.notFoundTolerance < spec.timeout →
            ∀ fuel, fuel ≤ spec.notFoundTolerance →
              awaitStatus pollOnce spec interval fuel = none)) := by
  have hdone : ∀ st run, awaitStep spec interval st PollOutcome.notFound = WaitStep.done run →
      ∀ snap, run.outcome ≠ WaitResult.success snap := by
    intro st run h snap hsucc
    rw [awaitStep_notFound_target spec interval st hne] at h
    split_ifs at h
    · simp only [WaitStep.done.injEq] at h
      rw [← h] at hsucc
      exact absurd hsucc (by simp)
    · obtain ⟨_, h2⟩ := sleepAndCheck_done _ _ _ _ h
      rw [h2] at hsucc
      exact absurd hsucc (by simp)
  refine ⟨hdone, ?_, ?_⟩
  · intro st st' h
    rcases awaitStep_next_streak spec interval st st' _ hne h with ⟨h1, _, _⟩ | ⟨_, h2⟩
    · exact absurd h1 (by simp [isTargetObservation])
    · exact h2
  · intro hall
    have hcount := runFrom_init_notFoundCount spec pollOnce interval 0
      (fun k hk => absurd hk (by omega)) (fun k _ => hall k)
    refine ⟨?_, ?_, ?_⟩
    · intro fuel run h
      obtain ⟨k, st, _, _, hs, _⟩ := awaitStatus_some spec pollOnce interval fuel run h
      rw [hall k] at hs
      exact hdone st run hs
    · intro hnone fuel hfuel
      obtain ⟨st, hr⟩ := (awaitLoop_eq_none_iff spec pollOnce interval _ _).1 hnone
      obtain ⟨hc, _⟩ := hcount _ st hr
      obtain ⟨hp, _⟩ := runFrom_init_polls_elapsed spec pollOnce interval _ st hr
      apply awaitStatus_done_at spec pollOnce interval _ st _ hr _ fuel hfuel
      rw [hall, awaitStep_notFound_target spec interval st hne]
      have hlt : spec.notFoundTolerance < st.notFoundCount + 1 := by omega
      rw [if_pos hlt, hp]
    · intro htime fuel hfuel
      have hrun : ∃ st, runFrom spec pollOnce interval WaitState.init spec.notFoundTolerance
          = some st := by
        apply runFrom_init_exists
        intro j st hj hr run
        obtain ⟨hp, he⟩ := runFrom_init_polls_elapsed spec pollOnce interval j st hr
        obtain ⟨hc, _⟩ := hcount j st hr
        have hmono := sleptBefore_mono interval (j + 1) spec.notFoundTolerance (by omega)
        simp only [sleptBefore] at hmono
        rw [hall, awaitStep_notFound_target spec interval st hne]
        have hlt : ¬ spec.notFoundTolerance < st.notFoundCount + 1 := by omega
        rw [if_neg hlt, sleepAndCheck_of_lt]
        · simp
        · simp only [hp, he]
          omega
      obtain ⟨st, hr⟩ := hrun
      obtain ⟨st', hr'⟩ := runFrom_prefix spec pollOnce interval _ _ st hr fuel hfuel
      exact (awaitLoop_eq_none_iff spec pollOnce interval fuel _).2 ⟨st', hr'⟩

/-- C9 (amended) on the create and update waiters with a timeout of 1800 ticks
when the configuration is never found: the wait is still going on after 20
polls and fails on the 21st. -/
theorem not_found_exhausts_wait_witness :
    (createdNeverFound 1800).WaitForStateContext 20 1 everyTick 20 = none
      ∧ (∀ fuel, 20 < fuel →
        (createdNeverFound 1800).WaitForStateContext 20 1 everyTick fuel
          = some { outcome := WaitResult.failure WaitError.NotFoundExhausted, polls := 21 })
      ∧ (∀ fuel, 20 < fuel →
        (updatedNeverFound 1800).WaitForStateContext 20 1 everyTick fuel
          = some { outcome := WaitResult.failure WaitError.NotFoundExhausted, polls := 21 }) := by
  have hc := (not_found_exhausts_wait ((createdNeverFound 1800).toWaitSpecification 20 1)
    (fun k => ((createdNeverFound 1800).Refresh k).toPollOutcome) everyTick (by decide)).2.2
    (fun _ => rfl)
  have hu := (not_found_exhausts_wait ((updatedNeverFound 1800).toWaitSpecification 20 1)
    (fun k => ((updatedNeverFound 1800).Refresh k).toPollOutcome) everyTick (by decide)).2.2
    (fun _ => rfl)
  exact ⟨hc.2.2 (by decide) 20 (by decide), hc.2.1 (hc.2.2 (by decide) 20 (by decide)),
    hu.2.1 (hu.2.2 (by decide) 20 (by decide))⟩

/-- C10: for every wait and every poll that returns a status neither in the
pending set nor in the target set, the wait does not fail because of that
observation: if the sleep after the poll stays below the timeout the wait goes
on to the next poll with the streak reset to 0, and otherwise it ends with the
timed-out failure; so a wait whose every poll returns such a status can only
end by timing out. -/
theorem unexpected_status_keeps_waiting (spec : WaitSpecification) (interval : Nat → Nat) :
    (∀ (st : WaitState) snapshot status, status ∉ spec.pending → status ∉ spec.target →
        (st.elapsed + interval st.polls < spec.timeout →
          ∃ st', awaitStep spec interval st (PollOutcome.found snapshot status)
              = WaitStep.next st'
            ∧ st'.targetStreak = 0 ∧ st'.polls = st.polls + 1)
        ∧ (spec.timeout ≤ st.elapsed + interval st.polls →
          awaitStep spec interval st (PollOutcome.found snapshot status)
            = WaitStep.done
                { outcome := WaitResult.failure
                    (WaitError.TimedOut (some status) (some snapshot))
                  polls := st.polls + 1 }))
      ∧ (∀ pollOnce : Nat → PollOutcome,
        (∀ k, ∃ snapshot status, pollOnce k = PollOutcome.found snapshot status
          ∧ status ∉ spec.pending ∧ status ∉ spec.target) →
        ∀ fuel run, awaitStatus pollOnce spec interval fuel = some run →
          ∃ lastKnownStatus lastSnapshot,
            run.outcome = WaitResult.failure (WaitError.TimedOut lastKnownStatus lastSnapshot)) := by
  constructor
  · intro st snapshot status _ ht
    rw [awaitStep_found_other spec interval st snapshot status ht]
    constructor
    · intro hlt
      rw [sleepAndCheck_of_lt spec _ _ (by simpa using hlt)]
      exact ⟨_, rfl, rfl, rfl⟩
    · intro hge
      rw [sleepAndCheck_of_ge spec _ _ (by simpa using hge)]
      rfl
  · intro pollOnce hall fuel run h
    have hall' : ∀ k, ∃ snapshot status,
        pollOnce k = PollOutcome.found snapshot status ∧ status ∉ spec.target := by
      intro k
      obtain ⟨snapshot, status, hpoll, _, ht⟩ := hall k
      exact ⟨snapshot, status, hpoll, ht⟩
    obtain ⟨k, hk, _⟩ := awaitStatus_no_target_timedOut spec pollOnce interval hall' fuel run h
    rw [hk]
    exact ⟨_, _, rfl⟩

/-- C10 on the update waiter seeing `Normal`: the round resets the streak and
goes on, and with a timeout of 3 ticks the wait ends by timing out. -/
theorem unexpected_status_keeps_waiting_witness :
    (∃ st', awaitStep ((updatedAlways "Normal" 1800).toWaitSpecification 20 1) everyTick
          WaitState.init (PollOutcome.found (sampleConfiguration "Normal") "Normal")
          = WaitStep.next st'
        ∧ st'.targetStreak = 0 ∧ st'.polls = 1)
      ∧ (updatedAlways "Normal" 3).WaitForStateContext 20 1 everyTick 3
        = some { outcome := WaitResult.failure
                   (WaitError.TimedOut (some "Normal") (some (sampleConfiguration "Normal")))
                 polls := 3 } :=
  ⟨((unexpected_status_keeps_waiting ((updatedAlways "Normal" 1800).toWaitSpecification 20 1)
      everyTick).1 WaitState.init (sampleConfiguration "Normal") "Normal"
      (by decide) (by decide)).1 (by decide),
   rfl⟩

/-! ## What the waiters return -/

/-- The type assertion of the waiters succeeds on the pointer a refresh result
holds, and yields that pointer. -/
theorem assert_resultValue (r : RefreshResult) (s : FirewallTlsInspectionConfiguration)
    (h : r.result = some s) :
    r.resultValue.assert GoType.ptrFirewallTlsInspectionConfiguration = (some s, true) := by
  simp [RefreshResult.resultValue, h, AnyValue.assert]

/-- C11: for the create waiter and the update waiter, whenever the underlying
wait succeeds, that is, returns a nil error together with what call `n` of the
status function returned, and that call produced the snapshot `s` (the pointer
the status function obtained from the finder), the waiter returns `s` itself,
not nil, together with a nil error. -/
theorem waiter_returns_snapshot_on_success {ε : Type}
    (WaitForStateContext : StateChangeConf → AnyValue × Option ε) (notFound : Error → Bool)
    (conn : Nat → Client) (id : String) (timeout : Nat) (n : Nat)
    (s : FirewallTlsInspectionConfiguration) :
    (((waitFirewallTlsInspectionConfigurationCreatedConf notFound conn id timeout).Refresh n).result = some s →
        WaitForStateContext (waitFirewallTlsInspectionConfigurationCreatedConf notFound conn id timeout)
          = (((waitFirewallTlsInspectionConfigurationCreatedConf notFound conn id timeout).Refresh n).resultValue,
              none) →
        waitFirewallTlsInspectionConfigurationCreated WaitForStateContext notFound conn id
            timeout
          = (some s, none))
      ∧ (((waitFirewallTlsInspectionConfigurationUpdatedConf notFound conn id timeout).Refresh n).result = some s →
        WaitForStateContext (waitFirewallTlsInspectionConfigurationUpdatedConf notFound conn id timeout)
          = (((waitFirewallTlsInspectionConfigurationUpdatedConf notFound conn id timeout).Refresh n).resultValue,
              none) →
        waitFirewallTlsInspectionConfigurationUpdated WaitForStateContext notFound conn id
            timeout
          = (some s, none)) := by
  constructor
  · intro hs hwait
    simp [waitFirewallTlsInspectionConfigurationCreated, hwait, assert_resultValue _ s hs]
  · intro hs hwait
    simp [waitFirewallTlsInspectionConfigurationUpdated, hwait, assert_resultValue _ s hs]

/-- C11 on a service that always holds the configuration in status `Normal`
(`Updated` for the update waiter), with a wait that succeeds with what the
second call of the status function returned: the finder and the status
function produce the sample configuration, and the waiters return it with a
nil error. -/
theorem waiter_returns_snapshot_on_success_witness :
    findFirewallTlsInspectionConfigurationByID (clientWithStatus "Normal") "tls-1"
        = (some (sampleConfiguration "Normal"), none)
      ∧ waitFirewallTlsInspectionConfigurationCreated waitSucceedingOnSecondPoll sampleNotFound
          (fun _ => clientWithStatus "Normal") "tls-1" 1800
        = (some (sampleConfiguration "Normal"), none)
      ∧ waitFirewallTlsInspectionConfigurationUpdated waitSucceedingOnSecondPoll sampleNotFound
          (fun _ => clientWithStatus "Updated") "tls-1" 1800
        = (some (sampleConfiguration "Updated"), none) :=
  ⟨rfl,
   (waiter_returns_snapshot_on_success waitSucceedingOnSecondPoll sampleNotFound
      (fun _ => clientWithStatus "Normal") "tls-1" 1800 1 (sampleConfiguration "Normal")).1
      rfl rfl,
   (waiter_returns_snapshot_on_success waitSucceedingOnSecondPoll sampleNotFound
      (fun _ => clientWithStatus "Updated") "tls-1" 1800 1 (sampleConfiguration "Updated")).2
      rfl rfl⟩

/-- C12: for each of the three waiters and every result `(outputRaw, err)` of
the underlying `WaitForStateContext` call, the error the waiter returns is
exactly `err`, whether or not the type assertion on `outputRaw` succeeds. -/
theorem waiter_returns_error_of_wait {ε : Type}
    (WaitForStateContext : StateChangeConf → AnyValue × Option ε) (notFound : Error → Bool)
    (conn : Nat → Client) (id : String) (timeout : Nat) :
    (waitFirewallTlsInspectionConfigurationCreated WaitForStateContext notFound conn id
          timeout).2
        = (WaitForStateContext
            (waitFirewallTlsInspectionConfigurationCreatedConf notFound conn id timeout)).2
      ∧ (waitFirewallTlsInspectionConfigurationUpdated WaitForStateContext notFound conn id
          timeout).2
        = (WaitForStateContext
            (waitFirewallTlsInspectionConfigurationUpdatedConf notFound conn id timeout)).2
      ∧ (waitFirewallTlsInspectionConfigurationDeleted WaitForStateContext notFound conn id
          timeout).2
        = (WaitForStateContext
            (waitFirewallTlsInspectionConfigurationDeletedConf notFound conn id timeout)).2 := by
  refine ⟨?_, ?_, ?_⟩
  · unfold waitFirewallTlsInspectionConfigurationCreated
    simp only
    split <;> rfl
  · unfold waitFirewallTlsInspectionConfigurationUpdated
    simp only
    split <;> rfl
  · unfold waitFirewallTlsInspectionConfigurationDeleted
    simp only
    split <;> rfl

/-! ## The finder -/

/-- C13: for every id and every outcome of the Get call, the finder returns a
`retry.NotFoundError` carrying the SDK error as `LastError` and the request as
`LastRequest` if and only if the SDK error is a `ResourceNotFoundException`;
every other SDK error is returned unchanged; and the only request made carries
exactly the caller's id. -/
theorem find_not_found_iff (conn : Client) (id : String) :
    (∀ e, (conn { Id := some id }).2 = some e → e.isResourceNotFoundException = true →
        findFirewallTlsInspectionConfigurationByID conn id
          = (none, some (Error.notFoundError e { Id := some id })))
      ∧ (∀ e, (conn { Id := some id }).2 = some e → e.isResourceNotFoundException = false →
        findFirewallTlsInspectionConfigurationByID conn id = (none, some (Error.api e)))
      ∧ (∀ e r, (findFirewallTlsInspectionConfigurationByID conn id).2
          = some (Error.notFoundError e r) →
        (conn { Id := some id }).2 = some e ∧ e.isResourceNotFoundException = true
          ∧ r = { Id := some id })
      ∧ (∀ conn' : Client, conn' { Id := some id } = conn { Id := some id } →
        findFirewallTlsInspectionConfigurationByID conn' id
          = findFirewallTlsInspectionConfigurationByID conn id) := by
  refine ⟨?_, ?_, ?_, ?_⟩
  · intro e he hnf
    unfold findFirewallTlsInspectionConfigurationByID
    simp only [awsString]
    cases hc : conn { Id := some id } with
    | mk out err =>
      rw [hc] at he
      simp only at he
      subst he
      simp [hnf]
  · intro e he hnf
    unfold findFirewallTlsInspectionConfigurationByID
    simp only [awsString]
    cases hc : conn { Id := some id } with
    | mk out err =>
      rw [hc] at he
      simp only at he
      subst he
      simp [hnf]
  · intro e r h
    unfold findFirewallTlsInspectionConfigurationByID at h
    simp only [awsString] at h
    cases hc : conn { Id := some id } with
    | mk out err =>
      rw [hc] at h
      cases err with
      | some e' =>
        by_cases hnf : e'.isResourceNotFoundException = true
        · simp [hnf] at h
          obtain ⟨h1, h2⟩ := h
          subst h1
          exact ⟨rfl, hnf, h2.symm⟩
        · simp [hnf] at h
      | none =>
        cases out with
        | none => simp at h
        | some o =>
          cases ho : o.FirewallTlsInspectionConfiguration with
          | none => simp [ho] at h
          | some c => simp [ho] at h
  · intro conn' h
    unfold findFirewallTlsInspectionConfigurationByID
    simp only [awsString, h]

/-- C13 on a service that answers with a `ResourceNotFoundException`, and on
one that throttles. -/
theorem find_not_found_iff_witness :
    findFirewallTlsInspectionConfigurationByID (clientFailing resourceNotFoundException) "tls-1"
        = (none, some (Error.notFoundError resourceNotFoundException { Id := some "tls-1" }))
      ∧ findFirewallTlsInspectionConfigurationByID (clientFailing throttlingException) "tls-1"
        = (none, some (Error.api throttlingException)) :=
  ⟨(find_not_found_iff (clientFailing resourceNotFoundException) "tls-1").1
      resourceNotFoundException rfl rfl,
   (find_not_found_iff (clientFailing throttlingException) "tls-1").2.1
      throttlingException rfl rfl⟩

/-! ## Flatteners and expanders -/

/-- The attribute map built by the flatteners matches
`complexArgumentAttrTypes`: `types.ObjectValue` yields the known object and no
diagnostics. -/
theorem typesObjectValue_complexArgument (nestedRequired nestedOptional : TfString) :
    typesObjectValue complexArgumentAttrTypes
        [("nested_required", nestedRequired), ("nested_optional", nestedOptional)]
      = (ObjectValue.known complexArgumentAttrTypes
          [("nested_required", nestedRequired), ("nested_optional", nestedOptional)], []) := by
  rfl

/-- The singular flattener on a non-nil API object: a known list of one
object, and no diagnostics. -/
theorem flattenComplexArgument_some (f : Option String → TfString) (x : ComplexArgument) :
    flattenComplexArgument f (some x)
      = (ListValue.known { AttrTypes := complexArgumentAttrTypes }
          [ObjectValue.known complexArgumentAttrTypes
            [("nested_required", f x.NestedRequired), ("nested_optional", f x.NestedOptional)]],
         []) := by
  simp [flattenComplexArgument, typesObjectValue_complexArgument, typesListValue,
    ObjectValue.Type, Diagnostics.Append]

/-- The plural flattener on the one-element slice holding a nil pointer: the
known empty list, and no diagnostics. -/
theorem flattenComplexArguments_nil_element (f : Option String → TfString) :
    flattenComplexArguments f [none]
      = (ListValue.known { AttrTypes := complexArgumentAttrTypes } [], []) := by
  simp [flattenComplexArguments, typesListValue, Diagnostics.Append]

/-- C16 (as stated, refuted): on the one-element slice holding a nil pointer
the plural flattener returns the known empty list, while the singular
flattener returns the null list on nil, whatever the string conversion. -/
theorem flatten_plural_differs_on_nil :
    flattenComplexArguments samplePointerToFramework [none]
        = (ListValue.known { AttrTypes := complexArgumentAttrTypes } [], [])
      ∧ flattenComplexArgument samplePointerToFramework none
        = (ListValue.null { AttrTypes := complexArgumentAttrTypes }, [])
      ∧ ∀ f : Option String → TfString,
        flattenComplexArguments f [none] ≠ flattenComplexArgument f none := by
  refine ⟨flattenComplexArguments_nil_element _, rfl, ?_⟩
  intro f
  have h2 : flattenComplexArgument f none
      = (ListValue.null { AttrTypes := complexArgumentAttrTypes }, []) := rfl
  rw [flattenComplexArguments_nil_element, h2]
  simp

/-- C16 (amended): for every one-element slice `[x]` with `x` not nil, the
plural flattener returns the same list value and the same diagnostics as the
singular flattener on `x`; on `[nil]` both report no diagnostics, the plural
one with the known empty list and the singular one, on nil, with the null
list. -/
theorem flatten_plural_agrees_on_non_nil (f : Option String → TfString) :
    (∀ x : ComplexArgument,
        flattenComplexArguments f [some x] = flattenComplexArgument f (some x))
      ∧ (flattenComplexArguments f [none]).2 = []
      ∧ (flattenComplexArgument f none).2 = []
      ∧ (flattenComplexArguments f [none]).1
        = ListValue.known { AttrTypes := complexArgumentAttrTypes } []
      ∧ (flattenComplexArgument f none).1
        = ListValue.null { AttrTypes := complexArgumentAttrTypes } := by
  refine ⟨?_, ?_, rfl, ?_, rfl⟩
  · intro x
    rw [flattenComplexArgument_some]
    simp [flattenComplexArguments, typesObjectValue_complexArgument, typesListValue,
      ObjectValue.Type, Diagnostics.Append]
  · rw [flattenComplexArguments_nil_element]
  · rw [flattenComplexArguments_nil_element]

/-- An object built by the flatteners decodes into the struct with the same two
values. -/
theorem objectValue_as_complexArgument (nestedRequired nestedOptional : TfString) :
    (ObjectValue.known complexArgumentAttrTypes
        [("nested_required", nestedRequired), ("nested_optional", nestedOptional)]).As
      = some { NestedRequired := nestedRequired, NestedOptional := nestedOptional } := by
  rfl

/-- The one-element list built by the singular flattener decodes into the one
struct with the same two values, without diagnostics. -/
theorem elementsAs_complexArgument (nestedRequired nestedOptional : TfString) :
    (ListValue.known { AttrTypes := complexArgumentAttrTypes }
        [ObjectValue.known complexArgumentAttrTypes
          [("nested_required", nestedRequired), ("nested_optional", nestedOptional)]]).ElementsAs
      = ([{ NestedRequired := nestedRequired, NestedOptional := nestedOptional }], []) := by
  simp [ListValue.ElementsAs, objectValue_as_complexArgument]

/-- The round trip through the flattener, the decoder and the expander, in
terms of the string conversion. -/
theorem flattenThenExpand_eq (f : Option String → TfString) (a : ComplexArgument) :
    flattenThenExpand f a
      = some { NestedRequired := some (f a.NestedRequired).ValueString
               NestedOptional :=
                 if (f a.NestedOptional).IsNull then none
                 else some (f a.NestedOptional).ValueString } := by
  unfold flattenThenExpand
  rw [flattenComplexArgument_some, elementsAs_complexArgument]
  by_cases h : (f a.NestedOptional).IsNull = true
  · simp [expandComplexArgument, awsString, h]
  · simp [expandComplexArgument, awsString, h]

/-- C17 (as stated, refuted): a non-nil API object whose `NestedRequired` is
nil does not come back from the round trip, whatever the string conversion of
the flattener: the expander always sets `NestedRequired`. With the sample
conversion it comes back with `NestedRequired` pointing to the empty string. -/
theorem round_trip_fails_on_nil_required :
    (∀ f : Option String → TfString,
        flattenThenExpand f { NestedRequired := none, NestedOptional := none }
          ≠ some { NestedRequired := none, NestedOptional := none })
      ∧ flattenThenExpand samplePointerToFramework
          { NestedRequired := none, NestedOptional := none }
        = some { NestedRequired := some "", NestedOptional := none } := by
  constructor
  · intro f h
    rw [flattenThenExpand_eq] at h
    simp at h
  · rfl

/-- C17 (amended): for every non-nil API object `a` whose `NestedRequired` is
set, when the string conversion of the flattener keeps the fields (the string
value of the flattened `NestedRequired` is the original string; a nil
`NestedOptional` is flattened to null, a set one to a non-null value with the
original string), decoding the one-element list returned by
`flattenComplexArgument(a)` into `complexArgumentData` and expanding it yields
an API object equal to `a` in both fields. -/
theorem round_trip_of_faithful_conversion (f : Option String → TfString) (a : ComplexArgument)
    (r : String) (hrequired : a.NestedRequired = some r)
    (hkeepRequired : (f (some r)).ValueString = r)
    (hnil : a.NestedOptional = none → (f none).IsNull = true)
    (hset : ∀ o, a.NestedOptional = some o →
      (f (some o)).IsNull = false ∧ (f (some o)).ValueString = o) :
    flattenThenExpand f a = some a := by
  rw [flattenThenExpand_eq]
  cases a with
  | mk nestedRequired nestedOptional =>
    simp only at hrequired hnil hset
    subst hrequired
    cases nestedOptional with
    | none => simp [hkeepRequired, hnil rfl]
    | some o =>
      obtain ⟨h1, h2⟩ := hset o rfl
      simp [hkeepRequired, h1, h2]

/-- C17 (amended) on an API object with both fields set, and on one with only
the required field set, under the sample conversion. -/
theorem round_trip_of_faithful_conversion_witness :
    flattenThenExpand samplePointerToFramework
        { NestedRequired := some "required", NestedOptional := some "optional" }
        = some { NestedRequired := some "required", NestedOptional := some "optional" }
      ∧ flattenThenExpand samplePointerToFramework
        { NestedRequired := some "required", NestedOptional := none }
        = some { NestedRequired := some "required", NestedOptional := none } :=
  ⟨round_trip_of_faithful_conversion samplePointerToFramework
      { NestedRequired := some "required", NestedOptional := some "optional" } "required" rfl rfl
      (fun h => by simp at h)
      (fun o h => by
        simp only [Option.some.injEq] at h
        subst h
        exact ⟨rfl, rfl⟩),
   round_trip_of_faithful_conversion samplePointerToFramework
      { NestedRequired := some "required", NestedOptional := none } "required" rfl rfl
      (fun _ => rfl)
      (fun o h => by simp at h)⟩

/-- A loop that appends one item for each element builds the list of the
items, in order. -/
theorem foldl_append_singleton {α β : Type} (g : α → β) (l : List α) (init : List β) :
    l.foldl (fun acc x => acc ++ [g x]) init = init ++ l.map g := by
  induction l generalizing init with
  | nil => simp
  | cons x xs ih => simp [List.foldl, ih]

/-- The plural expander on a non-empty list, as the list of the items built
from the elements. -/
theorem expandComplexArguments_eq_map (l : List complexArgumentData) (hne : l ≠ []) :
    expandComplexArguments l
      = some (l.map (fun tfObj =>
          if !tfObj.NestedOptional.IsNull then
            ({ NestedRequired := awsString tfObj.NestedRequired.ValueString
               NestedOptional := awsString tfObj.NestedOptional.ValueString } : ComplexArgument)
          else
            { NestedRequired := awsString tfObj.NestedRequired.ValueString
              NestedOptional := none })) := by
  unfold expandComplexArguments
  have hlen : ¬ l.length = 0 := by
    intro h
    exact hne (List.length_eq_zero.mp h)
  rw [if_neg hlen]
  have h := foldl_append_singleton (fun tfObj : complexArgumentData =>
      if !tfObj.NestedOptional.IsNull then
        ({ NestedRequired := awsString tfObj.NestedRequired.ValueString
           NestedOptional := awsString tfObj.NestedOptional.ValueString } : ComplexArgument)
      else
        { NestedRequired := awsString tfObj.NestedRequired.ValueString
          NestedOptional := none }) l []
  simp only [List.nil_append] at h
  rw [← h]

/-- C18: for every list `l` of `complexArgumentData`, `expandComplexArguments(l)`
is nil when `l` is empty, and otherwise a slice of the same length whose `i`-th
item is built from the `i`-th element of `l`: its `NestedRequired` holds that
element's string value, and its `NestedOptional` is set, to the element's
string value, if and only if the element's `nested_optional` is not null. -/
theorem expandComplexArguments_itemwise (l : List complexArgumentData) :
    (l = [] → expandComplexArguments l = none)
      ∧ (l ≠ [] → ∃ items, expandComplexArguments l = some items
        ∧ items.length = l.length
        ∧ ∀ (i : Nat) (tfObj : complexArgumentData), l[i]? = some tfObj →
          ∃ item : ComplexArgument, items[i]? = some item
          ∧ item.NestedRequired = some tfObj.NestedRequired.ValueString
          ∧ (item.NestedOptional.isSome = true ↔ tfObj.NestedOptional.IsNull = false)
          ∧ (tfObj.NestedOptional.IsNull = false →
            item.NestedOptional = some tfObj.NestedOptional.ValueString)) := by
  constructor
  · intro h
    subst h
    rfl
  · intro hne
    refine ⟨_, expandComplexArguments_eq_map l hne, by simp, ?_⟩
    intro i tfObj hi
    rw [List.getElem?_map, hi]
    refine ⟨_, rfl, ?_, ?_, ?_⟩
    · by_cases h : tfObj.NestedOptional.IsNull = true <;> simp [h, awsString]
    · by_cases h : tfObj.NestedOptional.IsNull = true <;> simp [h, awsString]
    · intro h
      simp [h, awsString]

/-- C18 on a list of two elements, the first with `nested_optional` null, the
second with it set. -/
theorem expandComplexArguments_itemwise_witness :
    expandComplexArguments
        [{ NestedRequired := TfString.value "a", NestedOptional := TfString.null },
         { NestedRequired := TfString.value "b", NestedOptional := TfString.value "c" }]
        = some [{ NestedRequired := some "a", NestedOptional := none },
                { NestedRequired := some "b", NestedOptional := some "c" }]
      ∧ ∃ items, expandComplexArguments
          [{ NestedRequired := TfString.value "a", NestedOptional := TfString.null },
           { NestedRequired := TfString.value "b", NestedOptional := TfString.value "c" }]
          = some items ∧ items.length = 2 :=
  ⟨rfl,
   let ⟨items, h1, h2, _⟩ := (expandComplexArguments_itemwise
      [{ NestedRequired := TfString.value "a", NestedOptional := TfString.null },
       { NestedRequired := TfString.value "b", NestedOptional := TfString.value "c" }]).2
      (by simp)
   ⟨items, h1, h2⟩⟩

/-! ## Read and Delete on errors -/

/-- Diagnostics without an error hold no error diagnostic. -/
theorem not_mem_of_hasError_false (diags : Diagnostics) (d : Diagnostic)
    (h : Diagnostics.HasError diags = false) (hd : d.severity = Severity.error) : d ∉ diags := by
  intro hmem
  have h2 : Diagnostics.HasError diags = true := by
    unfold Diagnostics.HasError
    rw [List.any_eq_true]
    exact ⟨d, hmem, by simp [hd]⟩
  rw [h] at h2
  exact absurd h2 (by simp)

/-- Diagnostics without an error count no error. -/
theorem errorsCount_of_hasError_false (diags : Diagnostics)
    (h : Diagnostics.HasError diags = false) : Diagnostics.ErrorsCount diags = 0 := by
  unfold Diagnostics.ErrorsCount
  rw [List.length_eq_zero, List.filter_eq_nil_iff]
  intro d hmem hd
  have hsev : d.severity = Severity.error := by simpa using hd
  exact not_mem_of_hasError_false diags d h hsev hmem

/-- On diagnostics without an error, `AddError` adds one error diagnostic at
the end, which is then the only error. -/
theorem addError_of_hasError_false (diags : Diagnostics) (summary detail : String)
    (h : Diagnostics.HasError diags = false) :
    Diagnostics.AddError diags summary detail
        = diags ++ [{ severity := Severity.error, summary := summary, detail := detail }]
      ∧ Diagnostics.ErrorsCount (Diagnostics.AddError diags summary detail) = 1 := by
  have hnot := not_mem_of_hasError_false diags
    { severity := Severity.error, summary := summary, detail := detail } h rfl
  have heq : Diagnostics.AddError diags summary detail
      = diags ++ [{ severity := Severity.error, summary := summary, detail := detail }] := by
    simp [Diagnostics.AddError, Diagnostics.Append, hnot]
  refine ⟨heq, ?_⟩
  rw [heq]
  have h0 := errorsCount_of_hasError_false diags h
  unfold Diagnostics.ErrorsCount at h0 ⊢
  rw [List.filter_append, List.length_append, h0]
  simp

/-- C14: for every Read request whose state decodes without error, if the
finder returns a not-found error, Read removes the resource from the response
state and leaves the diagnostics as they are after decoding (no diagnostic is
added, no attribute is set); if the finder returns any other error, Read adds
exactly one error diagnostic, then the only error, and leaves the state as it
was, neither removed nor rewritten. -/
theorem read_not_found_or_error {ε : Type} (lib : Lib ε) (conn : Client) (req : ReadRequest)
    (resp : ReadResponse)
    (hdecode : Diagnostics.HasError
      (Diagnostics.Append resp.Diagnostics req.StateGetDiagnostics) = false) :
    (∀ e, (findFirewallTlsInspectionConfigurationByID conn req.State.ID.ValueString).2 = some e →
        lib.NotFound e = true →
        Read lib conn req resp
          = { State := none
              Diagnostics := Diagnostics.Append resp.Diagnostics req.StateGetDiagnostics })
      ∧ (∀ e, (findFirewallTlsInspectionConfigurationByID conn req.State.ID.ValueString).2
          = some e →
        lib.NotFound e = false →
        (Read lib conn req resp).State = resp.State
          ∧ (Read lib conn req resp).Diagnostics
            = Diagnostics.Append resp.Diagnostics req.StateGetDiagnostics
              ++ [{ severity := Severity.error
                    summary := lib.ProblemStandardMessage ErrAction.Setting
                      ResNameFirewallTlsInspectionConfiguration (lib.StringString req.State.ID)
                      (some (lib.ErrorText e))
                    detail := lib.ErrorText e }]
          ∧ Diagnostics.ErrorsCount (Read lib conn req resp).Diagnostics = 1) := by
  constructor
  · intro e hfind hnf
    unfold Read
    simp only [hdecode]
    cases hf : findFirewallTlsInspectionConfigurationByID conn req.State.ID.ValueString with
    | mk out err =>
      rw [hf] at hfind
      simp only at hfind
      subst hfind
      simp [tfresourceNotFound, hnf]
  · intro e hfind hnf
    obtain ⟨h1, h2⟩ := addError_of_hasError_false
      (Diagnostics.Append resp.Diagnostics req.StateGetDiagnostics)
      (lib.ProblemStandardMessage ErrAction.Setting ResNameFirewallTlsInspectionConfiguration
        (lib.StringString req.State.ID) (some (lib.ErrorText e)))
      (lib.ErrorText e) hdecode
    have hread : Read lib conn req resp
        = { State := resp.State
            Diagnostics := Diagnostics.AddError
              (Diagnostics.Append resp.Diagnostics req.StateGetDiagnostics)
              (lib.ProblemStandardMessage ErrAction.Setting
                ResNameFirewallTlsInspectionConfiguration (lib.StringString req.State.ID)
                (some (lib.ErrorText e)))
              (lib.ErrorText e) } := by
      unfold Read
      simp only [hdecode]
      cases hf : findFirewallTlsInspectionConfigurationByID conn req.State.ID.ValueString with
      | mk out err =>
        rw [hf] at hfind
        simp only at hfind
        subst hfind
        simp [tfresourceNotFound, hnf]
    rw [hread]
    exact ⟨rfl, h1, h2⟩

/-- C14 on the sample state, decoded with a warning: on a service that answers
with a `ResourceNotFoundException` the resource is removed and only the warning
remains; on a service that throttles the state stays and one error is added. -/
theorem read_not_found_or_error_witness :
    Read sampleLib (clientFailing resourceNotFoundException)
        { State := sampleState, StateGetDiagnostics := [sampleWarning] }
        { State := some sampleState, Diagnostics := [] }
        = { State := none, Diagnostics := [sampleWarning] }
      ∧ (Read sampleLib (clientFailing throttlingException)
          { State := sampleState, StateGetDiagnostics := [sampleWarning] }
          { State := some sampleState, Diagnostics := [] }).State = some sampleState
      ∧ Diagnostics.ErrorsCount (Read sampleLib (clientFailing throttlingException)
          { State := sampleState, StateGetDiagnostics := [sampleWarning] }
          { State := some sampleState, Diagnostics := [] }).Diagnostics = 1 :=
  ⟨(read_not_found_or_error sampleLib (clientFailing resourceNotFoundException)
      { State := sampleState, StateGetDiagnostics := [sampleWarning] }
      { State := some sampleState, Diagnostics := [] } rfl).1
      (Error.notFoundError resourceNotFoundException { Id := some "tls-1" }) rfl rfl,
   ((read_not_found_or_error sampleLib (clientFailing throttlingException)
      { State := sampleState, StateGetDiagnostics := [sampleWarning] }
      { State := some sampleState, Diagnostics := [] } rfl).2
      (Error.api throttlingException) rfl rfl).1,
   ((read_not_found_or_error sampleLib (clientFailing throttlingException)
      { State := sampleState, StateGetDiagnostics := [sampleWarning] }
      { State := some sampleState, Diagnostics := [] } rfl).2
      (Error.api throttlingException) rfl rfl).2.2⟩

/-- C15: for every Delete request whose state decodes without error, if the
delete call of the SDK fails with a `ResourceNotFoundException`, Delete adds no
diagnostic and returns having made that call only, without invoking the delete
waiter; if the call fails with any other error, Delete adds exactly one error
diagnostic, then the only error, and does not invoke the waiter either. -/
theorem delete_call_error {ε : Type} (lib : Lib ε)
    (DeleteFirewallTlsInspectionConfiguration :
      DeleteFirewallTlsInspectionConfigurationInput → Option ApiError)
    (conn : Nat → Client) (req : DeleteRequest) (resp : DeleteResponse)
    (hdecode : Diagnostics.HasError
      (Diagnostics.Append resp.Diagnostics req.StateGetDiagnostics) = false) :
    (∀ e, DeleteFirewallTlsInspectionConfiguration
          { FirewallTlsInspectionConfigurationId := some req.State.ID.ValueString } = some e →
        e.isResourceNotFoundException = true →
        Delete lib DeleteFirewallTlsInspectionConfiguration conn req resp
          = { Response :=
                { Diagnostics := Diagnostics.Append resp.Diagnostics req.StateGetDiagnostics }
              Calls := [DeleteCall.DeleteFirewallTlsInspectionConfiguration
                { FirewallTlsInspectionConfigurationId := some req.State.ID.ValueString }] })
      ∧ (∀ e, DeleteFirewallTlsInspectionConfiguration
          { FirewallTlsInspectionConfigurationId := some req.State.ID.ValueString } = some e →
        e.isResourceNotFoundException = false →
        (Delete lib DeleteFirewallTlsInspectionConfiguration conn req resp).Calls
            = [DeleteCall.DeleteFirewallTlsInspectionConfiguration
                { FirewallTlsInspectionConfigurationId := some req.State.ID.ValueString }]
          ∧ (Delete lib DeleteFirewallTlsInspectionConfiguration conn req resp).Response.Diagnostics
            = Diagnostics.Append resp.Diagnostics req.StateGetDiagnostics
              ++ [{ severity := Severity.error
                    summary := lib.ProblemStandardMessage ErrAction.Deleting
                      ResNameFirewallTlsInspectionConfiguration (lib.StringString req.State.ID)
                      (some e.message)
                    detail := e.message }]
          ∧ Diagnostics.ErrorsCount
              (Delete lib DeleteFirewallTlsInspectionConfiguration conn req
                resp).Response.Diagnostics = 1) := by
  constructor
  · intro e hcall hnf
    unfold Delete
    simp only [hdecode, awsString, hcall]
    simp [hnf]
  · intro e hcall hnf
    obtain ⟨h1, h2⟩ := addError_of_hasError_false
      (Diagnostics.Append resp.Diagnostics req.StateGetDiagnostics)
      (lib.ProblemStandardMessage ErrAction.Deleting ResNameFirewallTlsInspectionConfiguration
        (lib.StringString req.State.ID) (some e.message))
      e.message hdecode
    have hdelete : Delete lib DeleteFirewallTlsInspectionConfiguration conn req resp
        = { Response :=
              { Diagnostics := Diagnostics.AddError
                  (Diagnostics.Append resp.Diagnostics req.StateGetDiagnostics)
                  (lib.ProblemStandardMessage ErrAction.Deleting
                    ResNameFirewallTlsInspectionConfiguration (lib.StringString req.State.ID)
                    (some e.message))
                  e.message }
            Calls := [DeleteCall.DeleteFirewallTlsInspectionConfiguration
              { FirewallTlsInspectionConfigurationId := some req.State.ID.ValueString }] } := by
      unfold Delete
      simp only [hdecode, awsString, hcall]
      simp [hnf]
    rw [hdelete]
    exact ⟨rfl, h1, h2⟩

/-- C15 on the sample state: when the delete call answers with a
`ResourceNotFoundException` nothing is added and the waiter is not invoked;
when it is throttled one error is added and the waiter is not invoked. -/
theorem delete_call_error_witness :
    Delete sampleLib (fun _ => some resourceNotFoundException)
        (fun _ => clientFailing resourceNotFoundException)
        { State := sampleState, StateGetDiagnostics := [] } { Diagnostics := [] }
        = { Response := { Diagnostics := [] }
            Calls := [DeleteCall.DeleteFirewallTlsInspectionConfiguration
              { FirewallTlsInspectionConfigurationId := some "tls-1" }] }
      ∧ (Delete sampleLib (fun _ => some throttlingException)
          (fun _ => clientWithStatus "Normal")
          { State := sampleState, StateGetDiagnostics := [] } { Diagnostics := [] }).Calls
        = [DeleteCall.DeleteFirewallTlsInspectionConfiguration
            { FirewallTlsInspectionConfigurationId := some "tls-1" }]
      ∧ Diagnostics.ErrorsCount (Delete sampleLib (fun _ => some throttlingException)
          (fun _ => clientWithStatus "Normal")
          { State := sampleState, StateGetDiagnostics := [] }
          { Diagnostics := [] }).Response.Diagnostics = 1 :=
  ⟨(delete_call_error sampleLib (fun _ => some resourceNotFoundException)
      (fun _ => clientFailing resourceNotFoundException)
      { State := sampleState, StateGetDiagnostics := [] } { Diagnostics := [] } rfl).1
      resourceNotFoundException rfl rfl,
   ((delete_call_error sampleLib (fun _ => some throttlingException)
      (fun _ => clientWithStatus "Normal")
      { State := sampleState, StateGetDiagnostics := [] } { Diagnostics := [] } rfl).2
      throttlingException rfl rfl).1,
   ((delete_call_error sampleLib (fun _ => some throttlingException)
      (fun _ => clientWithStatus "Normal")
      { State := sampleState, StateGetDiagnostics := [] } { Diagnostics := [] } rfl).2
      throttlingException rfl rfl).2.2⟩

/-! ## The data struct and the schema -/

/-- C19 (the code at the failing input): the data struct does not match the
schema. The blocks `encryption_configuration` and
`tls_inspection_configuration` that `Schema` declares have no field in the
struct, whatever the values of `names.AttrTags` and `names.AttrTagsAll`; and
with these at `tags` and `tags_all` the tag `complex_argument` names no
declared attribute or block. So the set of tags is not the set of declared
names. -/
theorem data_struct_does_not_match_schema :
    ("encryption_configuration" ∈ schemaBlockNames
        ∧ "encryption_configuration" ∉ resourceFirewallTlsInspectionConfigurationDataTags)
      ∧ ("tls_inspection_configuration" ∈ schemaBlockNames
        ∧ "tls_inspection_configuration" ∉ resourceFirewallTlsInspectionConfigurationDataTags)
      ∧ ("complex_argument" ∈ resourceFirewallTlsInspectionConfigurationDataTags
        ∧ "complex_argument" ∉ schemaAttributeNames "tags" "tags_all" ++ schemaBlockNames)
      ∧ ∀ AttrTags AttrTagsAll : String,
        ¬ (∀ name, name ∈ resourceFirewallTlsInspectionConfigurationDataTags
          ↔ name ∈ schemaAttributeNames AttrTags AttrTagsAll ++ schemaBlockNames) := by
  refine ⟨⟨by decide, by decide⟩, ⟨by decide, by decide⟩, ⟨by decide, by decide⟩, ?_⟩
  intro AttrTags AttrTagsAll h
  have h1 : "encryption_configuration"
      ∈ schemaAttributeNames AttrTags AttrTagsAll ++ schemaBlockNames := by
    simp [schemaBlockNames]
  have h2 := (h "encryption_configuration").2 h1
  exact absurd h2 (by decide)

/-! ## Create and Update -/

/-- The diagnostics after `Append` are those before and the new ones. -/
theorem mem_diagnostics_append (d : Diagnostic) (new : Diagnostics) :
    ∀ diags : Diagnostics, d ∈ Diagnostics.Append diags new ↔ d ∈ diags ∨ d ∈ new := by
  induction new with
  | nil =>
    intro diags
    simp [Diagnostics.Append]
  | cons x xs ih =>
    intro diags
    have hstep : Diagnostics.Append diags (x :: xs)
        = Diagnostics.Append (if x ∈ diags then diags else diags ++ [x]) xs := by
      simp [Diagnostics.Append]
    rw [hstep, ih]
    by_cases hx : x ∈ diags
    · simp only [hx, if_true, List.mem_cons]
      constructor
      · rintro (h | h)
        · exact Or.inl h
        · exact Or.inr (Or.inr h)
      · rintro (h | h | h)
        · exact Or.inl h
        · subst h
          exact Or.inl hx
        · exact Or.inr h
    · simp only [hx, if_false, List.mem_append, List.mem_singleton, List.mem_cons]
      tauto

/-- Diagnostics have an error after `Append` exactly when they had one before
or a new one is an error. -/
theorem hasError_append (diags new : Diagnostics) :
    Diagnostics.HasError (Diagnostics.Append diags new) = true
      ↔ Diagnostics.HasError diags = true ∨ Diagnostics.HasError new = true := by
  unfold Diagnostics.HasError
  simp only [List.any_eq_true]
  constructor
  · rintro ⟨d, hmem, hd⟩
    rcases (mem_diagnostics_append d new diags).1 hmem with h | h
    · exact Or.inl ⟨d, h, hd⟩
    · exact Or.inr ⟨d, h, hd⟩
  · rintro (⟨d, hmem, hd⟩ | ⟨d, hmem, hd⟩)
    · exact ⟨d, (mem_diagnostics_append d new diags).2 (Or.inl hmem), hd⟩
    · exact ⟨d, (mem_diagnostics_append d new diags).2 (Or.inr hmem), hd⟩

/-- Step 3 of `Update` ends the method exactly when the plan's
`complex_argument` is not null and does not convert without error; otherwise
it leaves diagnostics without an error. -/
theorem update_populateInput (plan : resourceFirewallTlsInspectionConfigurationData)
    (diags : Diagnostics) (hdiags : Diagnostics.HasError diags = false) :
    ((Update.populateInput plan diags).2 = none
        ↔ plan.ComplexArgument.IsNull = false
          ∧ Diagnostics.HasError plan.ComplexArgument.ElementsAs.2 = true)
      ∧ ((Update.populateInput plan diags).2 ≠ none →
        Diagnostics.HasError (Update.populateInput plan diags).1 = false) := by
  unfold Update.populateInput
  by_cases hnull : plan.ComplexArgument.IsNull = true
  · simp [hnull, hdiags]
  · have hnull' : plan.ComplexArgument.IsNull = false := by simpa using hnull
    by_cases herr : Diagnostics.HasError plan.ComplexArgument.ElementsAs.2 = true
    · have h2 : Diagnostics.HasError
          (Diagnostics.Append diags plan.ComplexArgument.ElementsAs.2) = true :=
        (hasError_append _ _).2 (Or.inr herr)
      simp [hnull', h2, herr]
    · have h2 : Diagnostics.HasError
          (Diagnostics.Append diags plan.ComplexArgument.ElementsAs.2) = false := by
        cases h3 : Diagnostics.HasError
            (Diagnostics.Append diags plan.ComplexArgument.ElementsAs.2) with
        | false => rfl
        | true =>
          rcases (hasError_append _ _).1 h3 with h | h
          · rw [hdiags] at h
            exact absurd h (by simp)
          · exact absurd h herr
      have herr' : Diagnostics.HasError plan.ComplexArgument.ElementsAs.2 = false := by
        simpa using herr
      simp [hnull', h2, herr']

/-- The update call is among the calls after steps 5 and 6 exactly when it was
among the calls before them. -/
theorem update_waitAndSave_mem {ε : Type} (lib : Lib ε) (conn : Nat → Client)
    (plan : resourceFirewallTlsInspectionConfigurationData) (resp : UpdateResponse)
    (calls : List ResourceCall) (input : UpdateFirewallTlsInspectionConfigurationInput) :
    ResourceCall.UpdateFirewallTlsInspectionConfiguration input
        ∈ (Update.waitAndSave lib conn plan resp calls).Calls
      ↔ ResourceCall.UpdateFirewallTlsInspectionConfiguration input ∈ calls := by
  unfold Update.waitAndSave
  simp only
  split <;> simp

/-- The calls of `Update` hold the update call exactly when the plan has
changes and step 3 hands on an input. -/
theorem update_calls {ε : Type} (lib : Lib ε)
    (UpdateFirewallTlsInspectionConfiguration :
      UpdateFirewallTlsInspectionConfigurationInput →
        Option UpdateFirewallTlsInspectionConfigurationOutput × Option ApiError)
    (conn : Nat → Client) (req : UpdateRequest) (resp : UpdateResponse)
    (hdecode : Diagnostics.HasError
      (Diagnostics.Append (Diagnostics.Append resp.Diagnostics req.PlanGetDiagnostics)
        req.StateGetDiagnostics) = false) :
    (∃ input, ResourceCall.UpdateFirewallTlsInspectionConfiguration input
        ∈ (Update lib UpdateFirewallTlsInspectionConfiguration conn req resp).Calls)
      ↔ Update.hasChanges req.Plan req.State = true
        ∧ (Update.populateInput req.Plan
            (Diagnostics.Append (Diagnostics.Append resp.Diagnostics req.PlanGetDiagnostics)
              req.StateGetDiagnostics)).2 ≠ none := by
  unfold Update
  simp only [hdecode]
  by_cases hch : Update.hasChanges req.Plan req.State = true
  · simp only [hch, if_true, true_and]
    cases hpop : Update.populateInput req.Plan
        (Diagnostics.Append (Diagnostics.Append resp.Diagnostics req.PlanGetDiagnostics)
          req.StateGetDiagnostics) with
    | mk diags input? =>
      cases input? with
      | none => simp
      | some input =>
        simp only [ne_eq, reduceCtorEq, not_false_eq_true, iff_true]
        refine ⟨input, ?_⟩
        rcases hapi : UpdateFirewallTlsInspectionConfiguration input with ⟨out, err⟩
        cases err with
        | some e => simp
        | none =>
          cases out with
          | none => simp
          | some o =>
            cases hcfg : o.FirewallTlsInspectionConfiguration with
            | none => simp [hcfg]
            | some c =>
              simp only [hcfg]
              exact (update_waitAndSave_mem lib conn _ _ _ input).2 (by simp)
  · have hch' : Update.hasChanges req.Plan req.State = false := by simpa using hch
    simp only [hch', Bool.false_eq_true, if_false, false_and, iff_false, not_exists]
    intro input hmem
    have := (update_waitAndSave_mem lib conn _ _ _ input).1 hmem
    simp at this

/-- The condition of step 3 of `Update` holds exactly when the plan differs
from the state in name, description, complex_argument or type. -/
theorem update_hasChanges_iff (plan state : resourceFirewallTlsInspectionConfigurationData) :
    Update.hasChanges plan state = true
      ↔ plan.Name ≠ state.Name ∨ plan.Description ≠ state.Description
        ∨ plan.ComplexArgument ≠ state.ComplexArgument ∨ plan.Type_ ≠ state.Type_ := by
  simp only [Update.hasChanges, TfString.Equal, ListValue.Equal, Bool.or_eq_true,
    Bool.not_eq_true', decide_eq_false_iff_not, ne_eq]
  tauto

/-- C22 (as stated, refuted): a plan that differs from the state in its name
and whose `complex_argument` is unknown decodes without error, yet `Update`
returns at the check after `ElementsAs`, with an error diagnostic and without
making the update call. -/
theorem update_changed_plan_without_call :
    Update.hasChanges sampleUnknownListPlan sampleState = true
      ∧ Diagnostics.HasError (Diagnostics.Append (Diagnostics.Append [] []) []) = false
      ∧ (Update sampleLib
          updateSucceeding (fun _ => clientWithStatus "Updated")
          { Plan := sampleUnknownListPlan, PlanGetDiagnostics := [], State := sampleState,
            StateGetDiagnostics := [] }
          { State := some sampleState, Diagnostics := [] }).Calls = [] := by
  refine ⟨by decide, rfl, rfl⟩

/-- C22 (amended): for every Update request whose plan and state decode without
error, the update call of the SDK is made if and only if the plan differs from
the state in at least one of name, description, complex_argument or type and
the plan's `complex_argument` is null or converts to `[]complexArgumentData`
without error; a change confined to the other fields makes no update call. -/
theorem update_call_iff_changed_and_converted {ε : Type} (lib : Lib ε)
    (UpdateFirewallTlsInspectionConfiguration :
      UpdateFirewallTlsInspectionConfigurationInput →
        Option UpdateFirewallTlsInspectionConfigurationOutput × Option ApiError)
    (conn : Nat → Client) (req : UpdateRequest) (resp : UpdateResponse)
    (hdecode : Diagnostics.HasError
      (Diagnostics.Append (Diagnostics.Append resp.Diagnostics req.PlanGetDiagnostics)
        req.StateGetDiagnostics) = false) :
    ((∃ input, ResourceCall.UpdateFirewallTlsInspectionConfiguration input
          ∈ (Update lib UpdateFirewallTlsInspectionConfiguration conn req resp).Calls)
        ↔ (req.Plan.Name ≠ req.State.Name ∨ req.Plan.Description ≠ req.State.Description
            ∨ req.Plan.ComplexArgument ≠ req.State.ComplexArgument
            ∨ req.Plan.Type_ ≠ req.State.Type_)
          ∧ (req.Plan.ComplexArgument.IsNull = true
            ∨ Diagnostics.HasError req.Plan.ComplexArgument.ElementsAs.2 = false))
      ∧ (req.Plan.Name = req.State.Name → req.Plan.Description = req.State.Description →
        req.Plan.ComplexArgument = req.State.ComplexArgument →
        req.Plan.Type_ = req.State.Type_ →
        ∀ input, ResourceCall.UpdateFirewallTlsInspectionConfiguration input
          ∉ (Update lib UpdateFirewallTlsInspectionConfiguration conn req resp).Calls) := by
  have hcalls := update_calls lib UpdateFirewallTlsInspectionConfiguration conn req resp hdecode
  have hpop := (update_populateInput req.Plan _ hdecode).1
  have hiff : (Update.populateInput req.Plan
      (Diagnostics.Append (Diagnostics.Append resp.Diagnostics req.PlanGetDiagnostics)
        req.StateGetDiagnostics)).2 ≠ none
      ↔ (req.Plan.ComplexArgument.IsNull = true
        ∨ Diagnostics.HasError req.Plan.ComplexArgument.ElementsAs.2 = false) := by
    rw [ne_eq, hpop]
    cases req.Plan.ComplexArgument.IsNull <;>
      cases Diagnostics.HasError req.Plan.ComplexArgument.ElementsAs.2 <;> simp
  constructor
  · rw [hcalls, update_hasChanges_iff, hiff]
  · intro h1 h2 h3 h4 input hmem
    have h5 := (hcalls.1 ⟨input, hmem⟩).1
    rw [update_hasChanges_iff] at h5
    rcases h5 with h | h | h | h
    · exact h h1
    · exact h h2
    · exact h h3
    · exact h h4

/-- C22 (amended) on the sample state: a renamed plan makes the update call, a
plan that only changes the tags makes none. -/
theorem update_call_iff_changed_and_converted_witness :
    (∃ input, ResourceCall.UpdateFirewallTlsInspectionConfiguration input
        ∈ (Update sampleLib
            updateSucceeding (fun _ => clientWithStatus "Updated")
            { Plan := sampleRenamedPlan, PlanGetDiagnostics := [], State := sampleState,
              StateGetDiagnostics := [] }
            { State := some sampleState, Diagnostics := [] }).Calls)
      ∧ ∀ input, ResourceCall.UpdateFirewallTlsInspectionConfiguration input
        ∉ (Update sampleLib
            updateSucceeding (fun _ => clientWithStatus "Updated")
            { Plan := sampleRetaggedPlan, PlanGetDiagnostics := [], State := sampleState,
              StateGetDiagnostics := [] }
            { State := some sampleState, Diagnostics := [] }).Calls :=
  ⟨(update_call_iff_changed_and_converted sampleLib updateSucceeding
      (fun _ => clientWithStatus "Updated")
      { Plan := sampleRenamedPlan, PlanGetDiagnostics := [], State := sampleState,
        StateGetDiagnostics := [] }
      { State := some sampleState, Diagnostics := [] } rfl).1.2
      ⟨Or.inl (by decide), Or.inl rfl⟩,
   (update_call_iff_changed_and_converted sampleLib updateSucceeding
      (fun _ => clientWithStatus "Updated")
      { Plan := sampleRetaggedPlan, PlanGetDiagnostics := [], State := sampleState,
        StateGetDiagnostics := [] }
      { State := some sampleState, Diagnostics := [] } rfl).2 rfl rfl rfl rfl⟩

/-- Step 3 of `Create` leaves diagnostics without an error when it hands on an
input. -/
theorem create_populateInput (getTagsIn : List (String × String))
    (plan : resourceFirewallTlsInspectionConfigurationData) (diags diags' : Diagnostics)
    (input : CreateFirewallTlsInspectionConfigurationInput)
    (hdiags : Diagnostics.HasError diags = false)
    (hpop : Create.populateInput getTagsIn plan diags = (diags', some input)) :
    Diagnostics.HasError diags' = false := by
  unfold Create.populateInput at hpop
  by_cases hnull : plan.ComplexArgument.IsNull = true
  · simp only [hnull, Bool.not_true, Bool.false_eq_true, if_false, Prod.mk.injEq] at hpop
    rw [← hpop.1]
    exact hdiags
  · have hnull' : plan.ComplexArgument.IsNull = false := by simpa using hnull
    simp only [hnull', Bool.not_false, if_true] at hpop
    by_cases herr : Diagnostics.HasError
        (Diagnostics.Append diags plan.ComplexArgument.ElementsAs.2) = true
    · simp [herr] at hpop
    · have herr' : Diagnostics.HasError
          (Diagnostics.Append diags plan.ComplexArgument.ElementsAs.2) = false := by
        simpa using herr
      simp only [herr', Bool.false_eq_true, if_false, Prod.mk.injEq] at hpop
      rw [← hpop.1]
      exact herr'

/-- `Create` when step 3 ends the method: no call is made and the state is
left as it was. -/
theorem create_of_no_input {ε : Type} (lib : Lib ε) (getTagsIn : List (String × String))
    (CreateFirewallTlsInspectionConfiguration :
      CreateFirewallTlsInspectionConfigurationInput →
        Option CreateFirewallTlsInspectionConfigurationOutput × Option ApiError)
    (conn : Nat → Client) (req : CreateRequest) (resp : CreateResponse) (diags : Diagnostics)
    (hdecode : Diagnostics.HasError
      (Diagnostics.Append resp.Diagnostics req.PlanGetDiagnostics) = false)
    (hpop : Create.populateInput getTagsIn req.Plan
      (Diagnostics.Append resp.Diagnostics req.PlanGetDiagnostics) = (diags, none)) :
    Create lib getTagsIn CreateFirewallTlsInspectionConfiguration conn req resp
      = { Response := { State := resp.State, Diagnostics := diags }, Calls := [] } := by
  unfold Create
  simp only [hdecode, hpop]
  rfl

/-- `Create` when the create call returns an error: one error diagnostic, the
state left as it was, and no further call. -/
theorem create_of_call_error {ε : Type} (lib : Lib ε) (getTagsIn : List (String × String))
    (CreateFirewallTlsInspectionConfiguration :
      CreateFirewallTlsInspectionConfigurationInput →
        Option CreateFirewallTlsInspectionConfigurationOutput × Option ApiError)
    (conn : Nat → Client) (req : CreateRequest) (resp : CreateResponse) (diags : Diagnostics)
    (input : CreateFirewallTlsInspectionConfigurationInput)
    (out : Option CreateFirewallTlsInspectionConfigurationOutput) (err : ApiError)
    (hdecode : Diagnostics.HasError
      (Diagnostics.Append resp.Diagnostics req.PlanGetDiagnostics) = false)
    (hpop : Create.populateInput getTagsIn req.Plan
      (Diagnostics.Append resp.Diagnostics req.PlanGetDiagnostics) = (diags, some input))
    (hcall : CreateFirewallTlsInspectionConfiguration input = (out, some err)) :
    Create lib getTagsIn CreateFirewallTlsInspectionConfiguration conn req resp
      = { Response :=
            { State := resp.State
              Diagnostics := diags ++
                [{ severity := Severity.error
                   summary := lib.ProblemStandardMessage ErrAction.Creating
                     ResNameFirewallTlsInspectionConfiguration (lib.StringString req.Plan.Name)
                     (some err.message)
                   detail := err.message }] }
          Calls := [ResourceCall.CreateFirewallTlsInspectionConfiguration input] } := by
  have hd := create_populateInput getTagsIn req.Plan _ diags input hdecode hpop
  unfold Create
  simp only [hdecode, hpop, hcall]
  rw [(addError_of_hasError_false diags _ _ hd).1]
  rfl

/-- `Create` when the create call returns no error and a nil output, or an
output whose configuration is nil: one error diagnostic, "empty output", the
state left as it was, and no further call. -/
theorem create_of_empty_output {ε : Type} (lib : Lib ε) (getTagsIn : List (String × String))
    (CreateFirewallTlsInspectionConfiguration :
      CreateFirewallTlsInspectionConfigurationInput →
        Option CreateFirewallTlsInspectionConfigurationOutput × Option ApiError)
    (conn : Nat → Client) (req : CreateRequest) (resp : CreateResponse) (diags : Diagnostics)
    (input : CreateFirewallTlsInspectionConfigurationInput)
    (hdecode : Diagnostics.HasError
      (Diagnostics.Append resp.Diagnostics req.PlanGetDiagnostics) = false)
    (hpop : Create.populateInput getTagsIn req.Plan
      (Diagnostics.Append resp.Diagnostics req.PlanGetDiagnostics) = (diags, some input))
    (hcall : CreateFirewallTlsInspectionConfiguration input = (none, none)
      ∨ CreateFirewallTlsInspectionConfiguration input
        = (some { FirewallTlsInspectionConfiguration := none }, none)) :
    Create lib getTagsIn CreateFirewallTlsInspectionConfiguration conn req resp
      = { Response :=
            { State := resp.State
              Diagnostics := diags ++
                [{ severity := Severity.error
                   summary := lib.ProblemStandardMessage ErrAction.Creating
                     ResNameFirewallTlsInspectionConfiguration (lib.StringString req.Plan.Name)
                     none
                   detail := "empty output" }] }
          Calls := [ResourceCall.CreateFirewallTlsInspectionConfiguration input] } := by
  have hd := create_populateInput getTagsIn req.Plan _ diags input hdecode hpop
  unfold Create
  rcases hcall with hcall | hcall
  · simp only [hdecode, hpop, hcall]
    rw [(addError_of_hasError_false diags _ _ hd).1]
    rfl
  · simp only [hdecode, hpop, hcall]
    rw [(addError_of_hasError_false diags _ _ hd).1]
    rfl

/-- `Create` when the create call succeeds with a configuration and the waiter
returns an error: one error diagnostic, the state left as it was, and no call
of `State.Set`. -/
theorem create_of_wait_error {ε : Type} (lib : Lib ε) (getTagsIn : List (String × String))
    (CreateFirewallTlsInspectionConfiguration :
      CreateFirewallTlsInspectionConfigurationInput →
        Option CreateFirewallTlsInspectionConfigurationOutput × Option ApiError)
    (conn : Nat → Client) (req : CreateRequest) (resp : CreateResponse) (diags : Diagnostics)
    (input : CreateFirewallTlsInspectionConfigurationInput)
    (configuration : FirewallTlsInspectionConfiguration) (err : ε)
    (hdecode : Diagnostics.HasError
      (Diagnostics.Append resp.Diagnostics req.PlanGetDiagnostics) = false)
    (hpop : Create.populateInput getTagsIn req.Plan
      (Diagnostics.Append resp.Diagnostics req.PlanGetDiagnostics) = (diags, some input))
    (hcall : CreateFirewallTlsInspectionConfiguration input
      = (some { FirewallTlsInspectionConfiguration := some configuration }, none))
    (hwait : (waitFirewallTlsInspectionConfigurationCreated lib.WaitForStateContext lib.NotFound
        conn (lib.StringToFramework
          configuration.FirewallTlsInspectionConfigurationId).ValueString
        (lib.CreateTimeout req.Plan.Timeouts)).2 = some err) :
    Create lib getTagsIn CreateFirewallTlsInspectionConfiguration conn req resp
      = { Response :=
            { State := resp.State
              Diagnostics := diags ++
                [{ severity := Severity.error
                   summary := lib.ProblemStandardMessage ErrAction.WaitingForCreation
                     ResNameFirewallTlsInspectionConfiguration (lib.StringString req.Plan.Name)
                     (some (lib.WaitErrorText err))
                   detail := lib.WaitErrorText err }] }
          Calls :=
            [ResourceCall.CreateFirewallTlsInspectionConfiguration input,
             ResourceCall.waitFirewallTlsInspectionConfigurationCreated
               (lib.StringToFramework
                 configuration.FirewallTlsInspectionConfigurationId).ValueString
               (lib.CreateTimeout req.Plan.Timeouts)] } := by
  have hd := create_populateInput getTagsIn req.Plan _ diags input hdecode hpop
  unfold Create
  simp only [hdecode, hpop, hcall]
  cases hw : waitFirewallTlsInspectionConfigurationCreated lib.WaitForStateContext lib.NotFound
      conn (lib.StringToFramework
        configuration.FirewallTlsInspectionConfigurationId).ValueString
      (lib.CreateTimeout req.Plan.Timeouts) with
  | mk w1 w2 =>
    rw [hw] at hwait
    simp only at hwait
    subst hwait
    simp only [Bool.false_eq_true, if_false]
    rw [(addError_of_hasError_false diags _ _ hd).1]
    rfl

/-- `Create` when the create call succeeds with a configuration and the waiter
returns no error: the plan, with the ARN and the id of the configuration, is
saved to the response state. -/
theorem create_of_success {ε : Type} (lib : Lib ε) (getTagsIn : List (String × String))
    (CreateFirewallTlsInspectionConfiguration :
      CreateFirewallTlsInspectionConfigurationInput →
        Option CreateFirewallTlsInspectionConfigurationOutput × Option ApiError)
    (conn : Nat → Client) (req : CreateRequest) (resp : CreateResponse) (diags : Diagnostics)
    (input : CreateFirewallTlsInspectionConfigurationInput)
    (configuration : FirewallTlsInspectionConfiguration)
    (hdecode : Diagnostics.HasError
      (Diagnostics.Append resp.Diagnostics req.PlanGetDiagnostics) = false)
    (hpop : Create.populateInput getTagsIn req.Plan
      (Diagnostics.Append resp.Diagnostics req.PlanGetDiagnostics) = (diags, some input))
    (hcall : CreateFirewallTlsInspectionConfiguration input
      = (some { FirewallTlsInspectionConfiguration := some configuration }, none))
    (hwait : (waitFirewallTlsInspectionConfigurationCreated lib.WaitForStateContext lib.NotFound
        conn (lib.StringToFramework
          configuration.FirewallTlsInspectionConfigurationId).ValueString
        (lib.CreateTimeout req.Plan.Timeouts)).2 = none) :
    Create lib getTagsIn CreateFirewallTlsInspectionConfiguration conn req resp
      = { Response :=
            { State := some { req.Plan with
                ARN := lib.StringToFramework configuration.Arn
                ID := lib.StringToFramework
                  configuration.FirewallTlsInspectionConfigurationId }
              Diagnostics := Diagnostics.Append diags
                (lib.StateSet { req.Plan with
                  ARN := lib.StringToFramework configuration.Arn
                  ID := lib.StringToFramework
                    configuration.FirewallTlsInspectionConfigurationId }) }
          Calls :=
            [ResourceCall.CreateFirewallTlsInspectionConfiguration input,
             ResourceCall.waitFirewallTlsInspectionConfigurationCreated
               (lib.StringToFramework
                 configuration.FirewallTlsInspectionConfigurationId).ValueString
               (lib.CreateTimeout req.Plan.Timeouts),
             ResourceCall.StateSet { req.Plan with
               ARN := lib.StringToFramework configuration.Arn
               ID := lib.StringToFramework
                 configuration.FirewallTlsInspectionConfigurationId }] } := by
  unfold Create
  simp only [hdecode, hpop, hcall]
  cases hw : waitFirewallTlsInspectionConfigurationCreated lib.WaitForStateContext lib.NotFound
      conn (lib.StringToFramework
        configuration.FirewallTlsInspectionConfigurationId).ValueString
      (lib.CreateTimeout req.Plan.Timeouts) with
  | mk w1 w2 =>
    rw [hw] at hwait
    simp only at hwait
    subst hwait
    simp only [Bool.false_eq_true, if_false]
    rfl

/-- Step 3 of `Create` hands on an input when the plan's `complex_argument` is
null or converts without error. -/
theorem create_populateInput_of_converted (getTagsIn : List (String × String))
    (plan : resourceFirewallTlsInspectionConfigurationData) (diags : Diagnostics)
    (hdiags : Diagnostics.HasError diags = false)
    (hconvert : plan.ComplexArgument.IsNull = true
      ∨ Diagnostics.HasError plan.ComplexArgument.ElementsAs.2 = false) :
    ∃ input, (Create.populateInput getTagsIn plan diags).2 = some input := by
  unfold Create.populateInput
  by_cases hnull : plan.ComplexArgument.IsNull = true
  · simp [hnull]
  · have hnull' : plan.ComplexArgument.IsNull = false := by simpa using hnull
    have herr : Diagnostics.HasError plan.ComplexArgument.ElementsAs.2 = false := by
      rcases hconvert with h | h
      · exact absurd h hnull
      · exact h
    have h2 : Diagnostics.HasError
        (Diagnostics.Append diags plan.ComplexArgument.ElementsAs.2) = false := by
      cases h3 : Diagnostics.HasError
          (Diagnostics.Append diags plan.ComplexArgument.ElementsAs.2) with
      | false => rfl
      | true =>
        rcases (hasError_append _ _).1 h3 with h | h
        · rw [hdiags] at h
          exact absurd h (by simp)
        · rw [herr] at h
          exact absurd h (by simp)
    simp [hnull', h2]

/-- C23 (as stated, refuted): a Create request whose plan decodes without error
and has an unknown `complex_argument`, against a create call that returns a nil
error and a configuration for every input and a waiter that returns a nil
error for every id and timeout. None of the three failure cases occurs, yet
the plan is not saved: `Create` returns at the check after `ElementsAs`, with
the conversion error as the only diagnostic, the state unset, and no call
made. -/
theorem create_unconverted_plan_not_saved :
    Diagnostics.HasError (Diagnostics.Append emptyCreateResponse.Diagnostics []) = false
      ∧ (∀ input, createSucceeding input
        = (some { FirewallTlsInspectionConfiguration := some (sampleConfiguration "Normal") },
            none))
      ∧ (∀ id timeout,
        (waitFirewallTlsInspectionConfigurationCreated sampleLib.WaitForStateContext
          sampleLib.NotFound (fun _ => clientWithStatus "Normal") id timeout).2 = none)
      ∧ Create sampleLib [] createSucceeding (fun _ => clientWithStatus "Normal")
          { Plan := sampleUnknownListPlan, PlanGetDiagnostics := [] } emptyCreateResponse
        = { Response :=
              { State := none
                Diagnostics :=
                  [{ severity := Severity.error, summary := "Value Conversion Error",
                     detail := "" }] }
            Calls := [] } :=
  ⟨rfl, fun _ => rfl, fun _ _ => rfl, rfl⟩

/-- C23 (amended): for every Create request whose plan decodes without error
and whose `complex_argument` is null or converts to `[]complexArgumentData`
without error, the create call is made, with the input of step 3, and the plan
is saved to the response state (`resp.State.Set` is called, and the state is
the plan carrying the ARN and the id of the created configuration) if and only
if the create call returned no error and an output whose
`FirewallTlsInspectionConfiguration` is not nil, and the create waiter returned
no error. When the create call returns an error, when it returns a nil output
or a nil configuration, and when the waiter returns an error, exactly one error
diagnostic is added (with detail "empty output" for the nil output), it is then
the only error, `resp.State.Set` is not called and the state is left as it
was. -/
theorem create_saves_plan_iff_steps_succeed {ε : Type} (lib : Lib ε)
    (getTagsIn : List (String × String))
    (CreateFirewallTlsInspectionConfiguration :
      CreateFirewallTlsInspectionConfigurationInput →
        Option CreateFirewallTlsInspectionConfigurationOutput × Option ApiError)
    (conn : Nat → Client) (req : CreateRequest) (resp : CreateResponse)
    (hdecode : Diagnostics.HasError
      (Diagnostics.Append resp.Diagnostics req.PlanGetDiagnostics) = false)
    (hconvert : req.Plan.ComplexArgument.IsNull = true
      ∨ Diagnostics.HasError req.Plan.ComplexArgument.ElementsAs.2 = false) :
    (∃ input, (Create.populateInput getTagsIn req.Plan
          (Diagnostics.Append resp.Diagnostics req.PlanGetDiagnostics)).2 = some input)
    ∧ ∀ input, (Create.populateInput getTagsIn req.Plan
          (Diagnostics.Append resp.Diagnostics req.PlanGetDiagnostics)).2 = some input →
      ResourceCall.CreateFirewallTlsInspectionConfiguration input ∈ (Create lib getTagsIn CreateFirewallTlsInspectionConfiguration conn req resp).Calls
      ∧ ((∃ data, ResourceCall.StateSet data ∈ (Create lib getTagsIn CreateFirewallTlsInspectionConfiguration conn req resp).Calls)
        ↔ ∃ configuration,
          CreateFirewallTlsInspectionConfiguration input
            = (some { FirewallTlsInspectionConfiguration := some configuration }, none)
          ∧ (waitFirewallTlsInspectionConfigurationCreated lib.WaitForStateContext lib.NotFound
          conn (lib.StringToFramework
            configuration.FirewallTlsInspectionConfigurationId).ValueString
          (lib.CreateTimeout req.Plan.Timeouts)).2 = none)
      ∧ (∀ configuration,
        CreateFirewallTlsInspectionConfiguration input
          = (some { FirewallTlsInspectionConfiguration := some configuration }, none) →
        (waitFirewallTlsInspectionConfigurationCreated lib.WaitForStateContext lib.NotFound
          conn (lib.StringToFramework
            configuration.FirewallTlsInspectionConfigurationId).ValueString
          (lib.CreateTimeout req.Plan.Timeouts)).2 = none →
        (Create lib getTagsIn CreateFirewallTlsInspectionConfiguration conn req resp).Response.State
          = some { req.Plan with
              ARN := lib.StringToFramework configuration.Arn
              ID := lib.StringToFramework
                configuration.FirewallTlsInspectionConfigurationId }
        ∧ (Create lib getTagsIn CreateFirewallTlsInspectionConfiguration conn req resp).Calls
          = [ResourceCall.CreateFirewallTlsInspectionConfiguration input,
             ResourceCall.waitFirewallTlsInspectionConfigurationCreated
               (lib.StringToFramework
                 configuration.FirewallTlsInspectionConfigurationId).ValueString
               (lib.CreateTimeout req.Plan.Timeouts),
             ResourceCall.StateSet { req.Plan with
              ARN := lib.StringToFramework configuration.Arn
              ID := lib.StringToFramework
                configuration.FirewallTlsInspectionConfigurationId }])
      ∧ (∀ out err,
        CreateFirewallTlsInspectionConfiguration input = (out, some err) →
        (Create lib getTagsIn CreateFirewallTlsInspectionConfiguration conn req resp)
          = { Response :=
                { State := resp.State
                  Diagnostics := (Create.populateInput getTagsIn req.Plan
          (Diagnostics.Append resp.Diagnostics req.PlanGetDiagnostics)).1 ++
                    [{ severity := Severity.error
                       summary := lib.ProblemStandardMessage ErrAction.Creating
                         ResNameFirewallTlsInspectionConfiguration
                         (lib.StringString req.Plan.Name) (some err.message)
                       detail := err.message }] }
              Calls := [ResourceCall.CreateFirewallTlsInspectionConfiguration input] }
        ∧ Diagnostics.ErrorsCount (Create lib getTagsIn CreateFirewallTlsInspectionConfiguration conn req resp).Response.Diagnostics = 1)
      ∧ ((CreateFirewallTlsInspectionConfiguration input = (none, none)
          ∨ CreateFirewallTlsInspectionConfiguration input
            = (some { FirewallTlsInspectionConfiguration := none }, none)) →
        (Create lib getTagsIn CreateFirewallTlsInspectionConfiguration conn req resp)
          = { Response :=
                { State := resp.State
                  Diagnostics := (Create.populateInput getTagsIn req.Plan
          (Diagnostics.Append resp.Diagnostics req.PlanGetDiagnostics)).1 ++
                    [{ severity := Severity.error
                       summary := lib.ProblemStandardMessage ErrAction.Creating
                         ResNameFirewallTlsInspectionConfiguration
                         (lib.StringString req.Plan.Name) none
                       detail := "empty output" }] }
              Calls := [ResourceCall.CreateFirewallTlsInspectionConfiguration input] }
        ∧ Diagnostics.ErrorsCount (Create lib getTagsIn CreateFirewallTlsInspectionConfiguration conn req resp).Response.Diagnostics = 1)
      ∧ (∀ configuration err,
        CreateFirewallTlsInspectionConfiguration input
          = (some { FirewallTlsInspectionConfiguration := some configuration }, none) →
        (waitFirewallTlsInspectionConfigurationCreated lib.WaitForStateContext lib.NotFound
          conn (lib.StringToFramework
            configuration.FirewallTlsInspectionConfigurationId).ValueString
          (lib.CreateTimeout req.Plan.Timeouts)).2 = some err →
        (Create lib getTagsIn CreateFirewallTlsInspectionConfiguration conn req resp)
          = { Response :=
                { State := resp.State
                  Diagnostics := (Create.populateInput getTagsIn req.Plan
          (Diagnostics.Append resp.Diagnostics req.PlanGetDiagnostics)).1 ++
                    [{ severity := Severity.error
                       summary := lib.ProblemStandardMessage ErrAction.WaitingForCreation
                         ResNameFirewallTlsInspectionConfiguration
                         (lib.StringString req.Plan.Name) (some (lib.WaitErrorText err))
                       detail := lib.WaitErrorText err }] }
              Calls := [ResourceCall.CreateFirewallTlsInspectionConfiguration input,
                ResourceCall.waitFirewallTlsInspectionConfigurationCreated
                  (lib.StringToFramework
                    configuration.FirewallTlsInspectionConfigurationId).ValueString
                  (lib.CreateTimeout req.Plan.Timeouts)] }
        ∧ Diagnostics.ErrorsCount (Create lib getTagsIn CreateFirewallTlsInspectionConfiguration conn req resp).Response.Diagnostics = 1) := by
  refine ⟨create_populateInput_of_converted getTagsIn req.Plan _ hdecode hconvert, ?_⟩
  intro input hin
  have hpop : Create.populateInput getTagsIn req.Plan
        (Diagnostics.Append resp.Diagnostics req.PlanGetDiagnostics)
      = ((Create.populateInput getTagsIn req.Plan
          (Diagnostics.Append resp.Diagnostics req.PlanGetDiagnostics)).1, some input) := by
    rw [← hin]
  have hclean : Diagnostics.HasError (Create.populateInput getTagsIn req.Plan
          (Diagnostics.Append resp.Diagnostics req.PlanGetDiagnostics)).1 = false :=
    create_populateInput getTagsIn req.Plan _ _ input hdecode hpop
  have hcount : ∀ (summary detail : String),
      Diagnostics.ErrorsCount ((Create.populateInput getTagsIn req.Plan
          (Diagnostics.Append resp.Diagnostics req.PlanGetDiagnostics)).1 ++
        [{ severity := Severity.error, summary := summary, detail := detail }]) = 1 := by
    intro summary detail
    have h2 := addError_of_hasError_false _ summary detail hclean
    rw [h2.1] at h2
    exact h2.2
  refine ⟨?_, ?_, ?_, ?_, ?_, ?_⟩
  · rcases hcall : CreateFirewallTlsInspectionConfiguration input with ⟨out, _ | err⟩
    · rcases out with _ | ⟨_ | configuration⟩
      · rw [create_of_empty_output lib getTagsIn _ conn req resp _ input hdecode hpop
          (Or.inl hcall)]
        simp
      · rw [create_of_empty_output lib getTagsIn _ conn req resp _ input hdecode hpop
          (Or.inr hcall)]
        simp
      · rcases hwait : (waitFirewallTlsInspectionConfigurationCreated lib.WaitForStateContext lib.NotFound
          conn (lib.StringToFramework
            configuration.FirewallTlsInspectionConfigurationId).ValueString
          (lib.CreateTimeout req.Plan.Timeouts)).2 with _ | err
        · rw [create_of_success lib getTagsIn _ conn req resp _ input configuration
            hdecode hpop hcall hwait]
          simp
        · rw [create_of_wait_error lib getTagsIn _ conn req resp _ input configuration
            err hdecode hpop hcall hwait]
          simp
    · rw [create_of_call_error lib getTagsIn _ conn req resp _ input out err hdecode hpop
        hcall]
      simp
  · constructor
    · rintro ⟨data, hdata⟩
      rcases hcall : CreateFirewallTlsInspectionConfiguration input with ⟨out, _ | err⟩
      · rcases out with _ | ⟨_ | configuration⟩
        · rw [create_of_empty_output lib getTagsIn _ conn req resp _ input hdecode hpop
            (Or.inl hcall)] at hdata
          simp at hdata
        · rw [create_of_empty_output lib getTagsIn _ conn req resp _ input hdecode hpop
            (Or.inr hcall)] at hdata
          simp at hdata
        · rcases hwait : (waitFirewallTlsInspectionConfigurationCreated lib.WaitForStateContext lib.NotFound
          conn (lib.StringToFramework
            configuration.FirewallTlsInspectionConfigurationId).ValueString
          (lib.CreateTimeout req.Plan.Timeouts)).2 with _ | err
          · exact ⟨configuration, rfl, hwait⟩
          · rw [create_of_wait_error lib getTagsIn _ conn req resp _ input
              configuration err hdecode hpop hcall hwait] at hdata
            simp at hdata
      · rw [create_of_call_error lib getTagsIn _ conn req resp _ input out err hdecode
          hpop hcall] at hdata
        simp at hdata
    · rintro ⟨configuration, hcall, hwait⟩
      rw [create_of_success lib getTagsIn _ conn req resp _ input configuration hdecode hpop
        hcall hwait]
      exact ⟨_, List.mem_cons_of_mem _ (List.mem_cons_of_mem _ (List.mem_singleton.2 rfl))⟩
  · intro configuration hcall hwait
    rw [create_of_success lib getTagsIn _ conn req resp _ input configuration hdecode hpop
      hcall hwait]
    exact ⟨rfl, rfl⟩
  · intro out err hcall
    rw [create_of_call_error lib getTagsIn _ conn req resp _ input out err hdecode hpop hcall]
    exact ⟨rfl, hcount _ _⟩
  · intro hcall
    rw [create_of_empty_output lib getTagsIn _ conn req resp _ input hdecode hpop hcall]
    exact ⟨rfl, hcount _ _⟩
  · intro configuration err hcall hwait
    rw [create_of_wait_error lib getTagsIn _ conn req resp _ input configuration err hdecode
      hpop hcall hwait]
    exact ⟨rfl, hcount _ _⟩

/-- C23 (amended) on the sample plan, whose `complex_argument` is null: with a
create call and a waiter that succeed the create call is made and the plan is
saved with the ARN and the id of the created configuration; with a create call
that returns a nil output, and with a waiter that times out, the state stays
unset and the diagnostics hold one error. -/
theorem create_saves_plan_iff_steps_succeed_witness :
    Diagnostics.HasError
        (Diagnostics.Append emptyCreateResponse.Diagnostics
          sampleCreateRequest.PlanGetDiagnostics) = false
      ∧ sampleCreateRequest.Plan.ComplexArgument.IsNull = true
      ∧ (Create sampleLib [] createSucceeding (fun _ => clientWithStatus "Normal")
          sampleCreateRequest emptyCreateResponse).Response.State
        = some { sampleState with
            ARN := TfString.value "arn:aws:network-firewall:tls/example"
            ID := TfString.value "tls-1" }
      ∧ Diagnostics.ErrorsCount
          (Create sampleLib [] createReturningNil (fun _ => clientWithStatus "Normal")
            sampleCreateRequest emptyCreateResponse).Response.Diagnostics = 1
      ∧ Diagnostics.ErrorsCount
          (Create sampleLibTimingOut [] createSucceeding (fun _ => clientWithStatus "Normal")
            sampleCreateRequest emptyCreateResponse).Response.Diagnostics = 1 :=
  ⟨rfl, rfl,
   (((create_saves_plan_iff_steps_succeed sampleLib [] createSucceeding
      (fun _ => clientWithStatus "Normal") sampleCreateRequest emptyCreateResponse rfl
      (Or.inl rfl)).2 sampleCreateInput rfl).2.2.1
      (sampleConfiguration "Normal") rfl rfl).1,
   (((create_saves_plan_iff_steps_succeed sampleLib [] createReturningNil
      (fun _ => clientWithStatus "Normal") sampleCreateRequest emptyCreateResponse rfl
      (Or.inl rfl)).2 sampleCreateInput rfl).2.2.2.2.1 (Or.inl rfl)).2,
   (((create_saves_plan_iff_steps_succeed sampleLibTimingOut [] createSucceeding
      (fun _ => clientWithStatus "Normal") sampleCreateRequest emptyCreateResponse rfl
      (Or.inl rfl)).2 sampleCreateInput rfl).2.2.2.2.2
      (sampleConfiguration "Normal") (WaitError.TimedOut none none) rfl rfl).2⟩

/-! ## The destroy check of the acceptance test -/

/-- The destroy check passes over leading resources of other types without a
query. -/
theorem destroy_check_skips_other_types
    (DescribeFirewallTlsInspectionConfiguration :
      DescribeFirewallTlsInspectionConfigurationInput → Option ApiError)
    (pre rest : List ResourceState)
    (hpre : ∀ r ∈ pre, r.Type_ ≠ "aws_networkfirewall_firewall_tls_inspection_configuration") :
    testAccCheckFirewallTlsInspectionConfigurationDestroy
        DescribeFirewallTlsInspectionConfiguration (pre ++ rest)
      = testAccCheckFirewallTlsInspectionConfigurationDestroy
        DescribeFirewallTlsInspectionConfiguration rest := by
  induction pre with
  | nil => rfl
  | cons r pre ih =>
    have hr : r.Type_ ≠ "aws_networkfirewall_firewall_tls_inspection_configuration" :=
      hpre r (List.mem_cons_self r pre)
    rw [List.cons_append, testAccCheckFirewallTlsInspectionConfigurationDestroy]
    simp only [bne_iff_ne, ne_eq, hr, not_false_eq_true, if_true]
    exact ih (fun x hx => hpre x (List.mem_cons_of_mem r hx))

end NetworkFirewall

namespace ObservabilityAccessManager

/-! ## The policy check of the sink policy tests -/

/-- C20 (the code at the failing input): the check on the `policy` attribute
returns the error of `PoliciesAreEquivalent` and nothing else, so a value that
is reported as not equivalent, with no error, is accepted: with the stand-in
that compares the texts, the value `{}` against another document gives
`(false, nil)` and the check returns nil. -/
theorem sinkPolicyCheck_ignores_equivalence :
    (∀ (ε : Type) (PoliciesAreEquivalent : String → String → Bool × Option ε)
        (expected value : String),
        sinkPolicyCheck PoliciesAreEquivalent expected value
          = (PoliciesAreEquivalent value expected).2)
      ∧ samePolicyText "\x7b\x7d" "expected document" = (false, none)
      ∧ sinkPolicyCheck samePolicyText "expected document" "\x7b\x7d" = none := by
  refine ⟨fun _ _ _ _ => rfl, by decide, by decide⟩

/-! ## The destroy checks -/

/-- The destroy check passes over leading resources of other types without a
query. -/
theorem sink_policy_destroy_check_skips_other_types (ResNameSinkPolicy : String)
    (GetSinkPolicy : GetSinkPolicyInput → Option NetworkFirewall.ApiError)
    (pre rest : List NetworkFirewall.ResourceState)
    (hpre : ∀ r ∈ pre, r.Type_ ≠ "aws_oam_sink_policy") :
    testAccCheckSinkPolicyDestroy ResNameSinkPolicy GetSinkPolicy (pre ++ rest) = testAccCheckSinkPolicyDestroy ResNameSinkPolicy GetSinkPolicy rest := by
  induction pre with
  | nil => rfl
  | cons r pre ih =>
    have hr : r.Type_ ≠ "aws_oam_sink_policy" := hpre r (List.mem_cons_self r pre)
    rw [List.cons_append, testAccCheckSinkPolicyDestroy]
    simp only [bne_iff_ne, ne_eq, hr, not_false_eq_true, if_true]
    exact ih (fun x hx => hpre x (List.mem_cons_of_mem r hx))

/-- C24: for every order in which the resources of the state are visited, each
of the two destroy checks returns nil without a query when no resource has the
checked type; otherwise it queries the first visited resource of that type and
nothing else: it returns nil when the service reports that resource not found,
whatever resources follow, the "not destroyed" error of `create.Error` when
the query returns no error, and an error (the SDK error itself for the sink
policy, wrapped by `create.Error` for the TLS inspection configuration) when
the query fails otherwise. -/
theorem destroy_checks_decide_on_first_resource (ResNameSinkPolicy : String)
    (GetSinkPolicy : GetSinkPolicyInput → Option NetworkFirewall.ApiError)
    (DescribeFirewallTlsInspectionConfiguration :
      NetworkFirewall.DescribeFirewallTlsInspectionConfigurationInput →
        Option NetworkFirewall.ApiError) :
    (∀ resources : List NetworkFirewall.ResourceState,
        (∀ r ∈ resources, r.Type_ ≠ "aws_oam_sink_policy") →
        testAccCheckSinkPolicyDestroy ResNameSinkPolicy GetSinkPolicy resources = { Err := none, Queries := [] })
      ∧ (∀ (pre post : List NetworkFirewall.ResourceState) (rs : NetworkFirewall.ResourceState),
        (∀ r ∈ pre, r.Type_ ≠ "aws_oam_sink_policy") → rs.Type_ = "aws_oam_sink_policy" →
        (∀ err, GetSinkPolicy { SinkIdentifier := some rs.Primary.ID } = some err →
            err.isResourceNotFoundException = true →
            testAccCheckSinkPolicyDestroy ResNameSinkPolicy GetSinkPolicy (pre ++ rs :: post)
              = { Err := none, Queries := [{ SinkIdentifier := some rs.Primary.ID }] })
          ∧ (GetSinkPolicy { SinkIdentifier := some rs.Primary.ID } = none →
            testAccCheckSinkPolicyDestroy ResNameSinkPolicy GetSinkPolicy (pre ++ rs :: post)
              = { Err := some (NetworkFirewall.DestroyCheckError.checkingDestroyed
                    NetworkFirewall.ServiceName.ObservabilityAccessManager ResNameSinkPolicy
                    rs.Primary.ID (NetworkFirewall.CheckCause.errorsNew "not destroyed"))
                  Queries := [{ SinkIdentifier := some rs.Primary.ID }] })
          ∧ (∀ err, GetSinkPolicy { SinkIdentifier := some rs.Primary.ID } = some err →
            err.isResourceNotFoundException = false →
            testAccCheckSinkPolicyDestroy ResNameSinkPolicy GetSinkPolicy (pre ++ rs :: post)
              = { Err := some (NetworkFirewall.DestroyCheckError.sdk err)
                  Queries := [{ SinkIdentifier := some rs.Primary.ID }] }))
      ∧ (∀ resources : List NetworkFirewall.ResourceState,
        (∀ r ∈ resources, r.Type_ ≠ "aws_networkfirewall_firewall_tls_inspection_configuration") →
        NetworkFirewall.testAccCheckFirewallTlsInspectionConfigurationDestroy
            DescribeFirewallTlsInspectionConfiguration resources = { Err := none, Queries := [] })
      ∧ (∀ (pre post : List NetworkFirewall.ResourceState) (rs : NetworkFirewall.ResourceState),
        (∀ r ∈ pre, r.Type_ ≠ "aws_networkfirewall_firewall_tls_inspection_configuration") →
        rs.Type_ = "aws_networkfirewall_firewall_tls_inspection_configuration" →
        (∀ err, DescribeFirewallTlsInspectionConfiguration
              { FirewallTlsInspectionConfigurationId := some rs.Primary.ID } = some err →
            err.isResourceNotFoundException = true →
            NetworkFirewall.testAccCheckFirewallTlsInspectionConfigurationDestroy
            DescribeFirewallTlsInspectionConfiguration (pre ++ rs :: post)
              = { Err := none
                  Queries := [{ FirewallTlsInspectionConfigurationId := some rs.Primary.ID }] })
          ∧ (DescribeFirewallTlsInspectionConfiguration
              { FirewallTlsInspectionConfigurationId := some rs.Primary.ID } = none →
            NetworkFirewall.testAccCheckFirewallTlsInspectionConfigurationDestroy
            DescribeFirewallTlsInspectionConfiguration (pre ++ rs :: post)
              = { Err := some (NetworkFirewall.DestroyCheckError.checkingDestroyed
                    NetworkFirewall.ServiceName.NetworkFirewall
                    NetworkFirewall.ResNameFirewallTlsInspectionConfiguration
                    rs.Primary.ID (NetworkFirewall.CheckCause.errorsNew "not destroyed"))
                  Queries := [{ FirewallTlsInspectionConfigurationId := some rs.Primary.ID }] })
          ∧ (∀ err, DescribeFirewallTlsInspectionConfiguration
              { FirewallTlsInspectionConfigurationId := some rs.Primary.ID } = some err →
            err.isResourceNotFoundException = false →
            NetworkFirewall.testAccCheckFirewallTlsInspectionConfigurationDestroy
            DescribeFirewallTlsInspectionConfiguration (pre ++ rs :: post)
              = { Err := some (NetworkFirewall.DestroyCheckError.checkingDestroyed
                    NetworkFirewall.ServiceName.NetworkFirewall
                    NetworkFirewall.ResNameFirewallTlsInspectionConfiguration
                    rs.Primary.ID (NetworkFirewall.CheckCause.sdk err))
                  Queries := [{ FirewallTlsInspectionConfigurationId := some rs.Primary.ID }] })) := by
  refine ⟨?_, ?_, ?_, ?_⟩
  · intro resources hnone
    have h := sink_policy_destroy_check_skips_other_types ResNameSinkPolicy GetSinkPolicy
      resources [] hnone
    rw [List.append_nil] at h
    rw [h]
    rfl
  · intro pre post rs hpre hrs
    rw [sink_policy_destroy_check_skips_other_types ResNameSinkPolicy GetSinkPolicy pre
      (rs :: post) hpre]
    refine ⟨?_, ?_, ?_⟩
    · intro err hcall hnf
      simp [testAccCheckSinkPolicyDestroy, hrs, NetworkFirewall.awsString, hcall, hnf]
    · intro hcall
      simp [testAccCheckSinkPolicyDestroy, hrs, NetworkFirewall.awsString, hcall]
    · intro err hcall hnf
      simp [testAccCheckSinkPolicyDestroy, hrs, NetworkFirewall.awsString, hcall, hnf]
  · intro resources hnone
    have h := NetworkFirewall.destroy_check_skips_other_types
      DescribeFirewallTlsInspectionConfiguration resources [] hnone
    rw [List.append_nil] at h
    rw [h]
    rfl
  · intro pre post rs hpre hrs
    rw [NetworkFirewall.destroy_check_skips_other_types
      DescribeFirewallTlsInspectionConfiguration pre (rs :: post) hpre]
    refine ⟨?_, ?_, ?_⟩
    · intro err hcall hnf
      simp [NetworkFirewall.testAccCheckFirewallTlsInspectionConfigurationDestroy, hrs,
        NetworkFirewall.awsString, hcall, hnf]
    · intro hcall
      simp [NetworkFirewall.testAccCheckFirewallTlsInspectionConfigurationDestroy, hrs,
        NetworkFirewall.awsString, hcall]
    · intro err hcall hnf
      simp [NetworkFirewall.testAccCheckFirewallTlsInspectionConfigurationDestroy, hrs,
        NetworkFirewall.awsString, hcall, hnf]

/-- C24 on sample states: after a resource of another type, the sink policy
check queries the first sink policy, is told it is not found and returns nil
without querying the sink policy that follows; the TLS inspection
configuration check, told that the configuration still exists, returns the
"not destroyed" error. -/
theorem destroy_checks_decide_on_first_resource_witness :
    testAccCheckSinkPolicyDestroy "Sink Policy"
        (fun _ => some NetworkFirewall.resourceNotFoundException)
        ([NetworkFirewall.sampleOtherResourceState]
          ++ sampleSinkPolicyState :: [sampleSinkPolicyState])
      = { Err := none, Queries := [{ SinkIdentifier := some "sink-1" }] }
    ∧ NetworkFirewall.testAccCheckFirewallTlsInspectionConfigurationDestroy (fun _ => none)
        ([NetworkFirewall.sampleOtherResourceState]
          ++ NetworkFirewall.sampleResourceState :: [])
      = { Err := some (NetworkFirewall.DestroyCheckError.checkingDestroyed
            NetworkFirewall.ServiceName.NetworkFirewall
            NetworkFirewall.ResNameFirewallTlsInspectionConfiguration "tls-1"
            (NetworkFirewall.CheckCause.errorsNew "not destroyed"))
          Queries := [{ FirewallTlsInspectionConfigurationId := some "tls-1" }] } :=
  ⟨((destroy_checks_decide_on_first_resource "Sink Policy"
      (fun _ => some NetworkFirewall.resourceNotFoundException) (fun _ => none)).2.1
      [NetworkFirewall.sampleOtherResourceState] [sampleSinkPolicyState] sampleSinkPolicyState
      (by decide) rfl).1 NetworkFirewall.resourceNotFoundException rfl rfl,
   ((destroy_checks_decide_on_first_resource "Sink Policy"
      (fun _ => some NetworkFirewall.resourceNotFoundException) (fun _ => none)).2.2.2
      [NetworkFirewall.sampleOtherResourceState] [] NetworkFirewall.sampleResourceState
      (by decide) rfl).2.1 rfl⟩

end ObservabilityAccessManager
